import Mathlib

/-!
Verification development for the `visu_streamlit` metadata-reconciliation and
derived-analytics engine.  The Python sources under `src/visu2/` are shallowly
embedded: dataframe pipelines become functions over lists of typed rows, joins
become lookups, floats become rationals, and nullable columns become `Option`.
-/

namespace Visu2

/-! ## String helpers (`_clean_str` and identifier normalization) -/

/-- Embeds Python `str.lower()`: lowercase character by character. -/
def pyToLower (s : String) : String :=
  String.mk (s.toList.map Char.toLower)

/-- Embeds Python `str.strip()`: drop leading and trailing whitespace. -/
def pyStrip (s : String) : String :=
  String.mk
    (((s.toList.dropWhile Char.isWhitespace).reverse.dropWhile
        Char.isWhitespace).reverse)

/-- Embeds `_clean_str` from `zpdes_dependencies.py`: strip surrounding
whitespace; the empty string and the text `"nan"` (case-insensitive)
normalize to the empty string. -/
def cleanStr (s : String) : String :=
  let text := pyStrip s
  if text = "" ∨ pyToLower text = "nan" then "" else text

/-- Embeds `_clean_str` applied to a nullable value (`None` yields `""`). -/
def cleanStrO : Option String → String
  | Option.none => ""
  | Option.some s => cleanStr s

/-- Placeholder values treated as null by `_normalized_id_expr` in
`derive.py` (after trim + lowercase). -/
def idPlaceholderValuesLower : List String := ["", "none", "null", "nan"]

/-- Embeds `_normalized_id_expr` from `derive.py`: trim the raw identifier and
map placeholder spellings of null to a true null. -/
def normalizeId : Option String → Option String
  | Option.none => Option.none
  | Option.some s =>
      let normalized := pyStrip s
      if pyToLower normalized ∈ idPlaceholderValuesLower then Option.none
      else Option.some normalized

/-! ## Mnemonic code grammar (`M<n>`, `M<n>O<n>`, `M<n>O<n>A<n>`)

The Python sources use the regexes `^M\d+$`, `^M\d+O\d+$`, `^M\d+O\d+A\d+$`
(in `derive.py`) and the equivalent `^M\d+$`, `^(M\d+O\d+)$`,
`^(M\d+O\d+)A(\d+)$` (in `zpdes_dependencies.py`).  They are embedded as a
small character-list parser; `\d` is modelled as an ASCII digit. -/

/-- Split a character list into its maximal leading digit run and the rest. -/
def digitsSplit : List Char → List Char × List Char
  | [] => ([], [])
  | c :: rest =>
      if c.isDigit then
        let p := digitsSplit rest
        (c :: p.1, p.2)
      else ([], c :: rest)

/-- Match a head letter followed by one or more digits; returns the digit run
and the unconsumed remainder. -/
def matchSeg (h : Char) : List Char → Option (List Char × List Char)
  | [] => Option.none
  | c :: rest =>
      if c = h then
        let p := digitsSplit rest
        if p.1 = [] then Option.none else Option.some (p.1, p.2)
      else Option.none

/-- Full match for `^M\d+$`. -/
def isModuleCode (s : String) : Bool :=
  match matchSeg 'M' s.toList with
  | Option.some (_, rest) => rest.isEmpty
  | Option.none => false

/-- Full match for `^M\d+O\d+$`. -/
def isObjectiveCode (s : String) : Bool :=
  match matchSeg 'M' s.toList with
  | Option.some (_, rest) =>
      match matchSeg 'O' rest with
      | Option.some (_, rest2) => rest2.isEmpty
      | Option.none => false
  | Option.none => false

/-- Full match for `^M\d+O\d+A\d+$`. -/
def isActivityCode (s : String) : Bool :=
  match matchSeg 'M' s.toList with
  | Option.some (_, rest) =>
      match matchSeg 'O' rest with
      | Option.some (_, rest2) =>
          match matchSeg 'A' rest2 with
          | Option.some (_, rest3) => rest3.isEmpty
          | Option.none => false
      | Option.none => false
  | Option.none => false

/-- Value of a digit run, as produced by Python `int` on the digits. -/
def digitsToNat (ds : List Char) : Nat :=
  ds.foldl (fun n c => 10 * n + (c.toNat - 48)) 0

/-- Embeds `str.extract(r"^(M\d+)", 1)`: the `M`-plus-digits prefix, if any. -/
def extractM (s : String) : Option String :=
  match matchSeg 'M' s.toList with
  | Option.some (d, _) => Option.some (String.mk ('M' :: d))
  | Option.none => Option.none

/-- Embeds `str.extract(r"^(M\d+O\d+)", 1)`. -/
def extractMO (s : String) : Option String :=
  match matchSeg 'M' s.toList with
  | Option.some (d, rest) =>
      match matchSeg 'O' rest with
      | Option.some (d2, _) =>
          Option.some (String.mk ('M' :: d ++ 'O' :: d2))
      | Option.none => Option.none
  | Option.none => Option.none

/-- Embeds `str.extract(r"^(M\d+O\d+A\d+)", 1)`. -/
def extractMOA (s : String) : Option String :=
  match matchSeg 'M' s.toList with
  | Option.some (d, rest) =>
      match matchSeg 'O' rest with
      | Option.some (d2, rest2) =>
          match matchSeg 'A' rest2 with
          | Option.some (d3, _) =>
              Option.some (String.mk ('M' :: d ++ 'O' :: d2 ++ 'A' :: d3))
          | Option.none => Option.none
      | Option.none => Option.none
  | Option.none => Option.none

/-- Embeds `parse_activity_index` from `zpdes_dependencies.py`: the trailing
`A<n>` group of a full activity-code match, else `None`. -/
def parseActivityIndex (node_code : String) : Option Int :=
  match matchSeg 'M' (cleanStr node_code).toList with
  | Option.some (_, rest) =>
      match matchSeg 'O' rest with
      | Option.some (_, rest2) =>
          match matchSeg 'A' rest2 with
          | Option.some (d3, rest3) =>
              if rest3.isEmpty then Option.some (Int.ofNat (digitsToNat d3))
              else Option.none
          | Option.none => Option.none
      | Option.none => Option.none
  | Option.none => Option.none

/-- Embeds `parse_objective_code` from `zpdes_dependencies.py`. -/
def parseObjectiveCode (node_code : String) (node_type : Option String) :
    Option String :=
  let code := cleanStr node_code
  if code = "" then Option.none
  else if node_type = Option.some "objective" ∧ isObjectiveCode code then
    Option.some code
  else if isActivityCode code then extractMO code
  else if isObjectiveCode code then Option.some code
  else Option.none

/-- Embeds `_node_type_from_code_strict` from `zpdes_dependencies.py`. -/
def nodeTypeFromCodeStrict (code : String) : String :=
  let normalized := cleanStr code
  if isActivityCode normalized then "activity"
  else if isObjectiveCode normalized then "objective"
  else if isModuleCode normalized then "module"
  else "unknown"

/-! ## Dynamic rule payloads

The rules specification carries dynamically typed JSON-like values (nested
lists, dicts, numbers, strings, nulls).  `PyVal` models such values; numbers
are rationals (NaN payloads, already stripped by `_clean_str`, are not
modelled). -/

/-- A dynamically typed payload value as handled by the rule parsers. -/
inductive PyVal where
  | none
  | num (q : ℚ)
  | str (s : String)
  | list (items : List PyVal)
  | dict (entries : List (String × PyVal))

/-- Embeds Python `dict.get(key)` (missing key yields `None`). -/
def pyGet (entries : List (String × PyVal)) (key : String) : PyVal :=
  match entries.find? (fun kv => kv.1 = key) with
  | Option.some kv => kv.2
  | Option.none => PyVal.none

/-- Embeds Python `int(q)` on a real number: truncation toward zero. -/
def pyIntTrunc (q : ℚ) : ℤ :=
  if 0 ≤ q then ⌊q⌋ else -⌊-q⌋

/-- Embeds Python `round(q)`: round half to even, to an integer. -/
def pyRoundHalfEven (q : ℚ) : ℤ :=
  let f : ℤ := ⌊q⌋
  let r : ℚ := q - (f : ℚ)
  if r < 1 / 2 then f
  else if 1 / 2 < r then f + 1
  else if f % 2 = 0 then f else f + 1

/-- Embeds Python `round(q, 6)` as used on edge thresholds, modelled as exact
decimal rounding (half to even) at six places. -/
def roundTo6 (q : ℚ) : ℚ :=
  (pyRoundHalfEven (q * 1000000) : ℚ) / 1000000

/-- Parses a plain decimal literal (optional sign, digits, optional fractional
part), the fragment of Python `float(...)` exercised by the rule payloads;
exponent and infinity spellings are not modelled and yield `None`. -/
def parseDecimal (s : String) : Option ℚ :=
  let chars := s.toList
  let signed : Bool × List Char :=
    match chars with
    | '-' :: rest => (true, rest)
    | '+' :: rest => (false, rest)
    | rest => (false, rest)
  let ip := digitsSplit signed.2
  match ip.2 with
  | [] =>
      if ip.1 = [] then Option.none
      else
        let v : ℚ := (digitsToNat ip.1 : ℚ)
        Option.some (if signed.1 then -v else v)
  | '.' :: rest =>
      let fp := digitsSplit rest
      if fp.2 = [] then
        if ip.1 = [] ∧ fp.1 = [] then Option.none
        else
          let v : ℚ :=
            (digitsToNat ip.1 : ℚ) +
              (digitsToNat fp.1 : ℚ) / ((10 : ℚ) ^ fp.1.length)
          Option.some (if signed.1 then -v else v)
      else Option.none
  | _ => Option.none

/-- Embeds `_to_float` from `zpdes_dependencies.py`: clean the text, then
parse it as a number. -/
def toFloatStr (s : String) : Option ℚ :=
  let text := cleanStr s
  if text = "" then Option.none else parseDecimal text

mutual

/-- Embeds `_first_numeric` from `zpdes_dependencies.py`: the first numeric
leaf of a nested list, a number itself, or the parsed text of a string;
anything else (including `None` and dicts, whose `str()` rendering never
parses as a number) yields `None`. -/
def firstNumeric : PyVal → Option ℚ
  | PyVal.list items => firstNumericList items
  | PyVal.num q => Option.some q
  | PyVal.str s => toFloatStr s
  | PyVal.dict _ => Option.none
  | PyVal.none => Option.none

/-- List traversal of `_first_numeric`. -/
def firstNumericList : List PyVal → Option ℚ
  | [] => Option.none
  | x :: xs =>
      match firstNumeric x with
      | Option.some q => Option.some q
      | Option.none => firstNumericList xs

end

/-- Embeds `_first_int` from `zpdes_dependencies.py`: `int(round(x))` of the
first numeric, if any. -/
def firstInt (v : PyVal) : Option ℤ :=
  (firstNumeric v).map pyRoundHalfEven

mutual

/-- Embeds `_is_init_open_from_rule` from `zpdes_dependencies.py`: a nested
payload flags a node open when some leaf is the number whose `int()`
truncation is `0`, or cleaned text `"0"`. -/
def isInitOpenFromRule : PyVal → Bool
  | PyVal.list items => isInitOpenAnyList items
  | PyVal.dict entries => isInitOpenAnyDict entries
  | PyVal.num q => pyIntTrunc q = 0
  | PyVal.str s => cleanStr s = "0"
  | PyVal.none => cleanStrO Option.none = "0"

/-- List traversal of `_is_init_open_from_rule`. -/
def isInitOpenAnyList : List PyVal → Bool
  | [] => false
  | x :: xs => isInitOpenFromRule x || isInitOpenAnyList xs

/-- Dict-values traversal of `_is_init_open_from_rule`. -/
def isInitOpenAnyDict : List (String × PyVal) → Bool
  | [] => false
  | kv :: rest => isInitOpenFromRule kv.2 || isInitOpenAnyDict rest

end

/-! ## Preferred-code selection

`_code_preference_score` in `derive.py` and the inline sort key of
`_preferred_code_from_list` in `zpdes_dependencies.py` are the same formula:
the tuple `(shape class, -len(code), code)` compared lexicographically. -/

/-- Shape class of a code: activity-shaped `0`, objective-shaped `1`,
module-shaped `2`, anything else `3`. -/
def shapeClass (code : String) : ℤ :=
  if isActivityCode code then 0
  else if isObjectiveCode code then 1
  else if isModuleCode code then 2
  else 3

/-- Embeds `_code_preference_score` from `derive.py`, which is also the
inline sort key of `_preferred_code_from_list` in `zpdes_dependencies.py`:
the lexicographically compared tuple `(shape class, -len(code), code)`. -/
def codePreferenceScore (code : String) : Lex (ℤ × Lex (ℤ × String)) :=
  toLex (shapeClass code, toLex (-(code.length : ℤ), code))

/-- The preorder induced by `codePreferenceScore`, as used by the Python
`sorted(..., key=...)` calls. -/
def prefKeyLE (a b : String) : Prop :=
  codePreferenceScore a ≤ codePreferenceScore b

instance : DecidableRel prefKeyLE := fun a b =>
  inferInstanceAs (Decidable (codePreferenceScore a ≤ codePreferenceScore b))

instance : IsTotal String prefKeyLE :=
  ⟨fun a b => le_total (codePreferenceScore a) (codePreferenceScore b)⟩

instance : IsTrans String prefKeyLE :=
  ⟨fun _ _ _ hab hbc => le_trans hab hbc⟩

/-- The cleaned candidate list of `_preferred_code_from_list`:
`[_clean_str(code) for code in codes if _clean_str(code)]`. -/
def cleanedCodes (codes : List String) : List String :=
  (codes.map cleanStr).filter (fun c => c ≠ "")

/-- Embeds `_preferred_code_from_list` from `zpdes_dependencies.py`: clean the
candidates, drop empties, and take the head of the key-sorted list. -/
def preferredCodeFromList (codes : List String) : Option String :=
  let cleaned := cleanedCodes codes
  if cleaned = [] then Option.none
  else (List.insertionSort prefKeyLE cleaned).head?

/-- Embeds the `chosen_code = sorted(codes, key=_code_preference_score)[0]`
selection of `_rules_id_code_frame` in `derive.py` (the caller guarantees a
non-empty list). -/
def chosenCodeDerive (codes : List String) : Option String :=
  (List.insertionSort prefKeyLE codes).head?

/-- Unfolds the `codePreferenceScore` ordering into its three tie-break
levels: shape class, then longer codes first, then lexicographically
smaller codes first. -/
theorem prefKeyLE_iff (a b : String) :
    prefKeyLE a b ↔
      shapeClass a < shapeClass b ∨
        (shapeClass a = shapeClass b ∧
          (b.length < a.length ∨ (b.length = a.length ∧ a ≤ b))) := by
  show toLex (shapeClass a, toLex (-(a.length : ℤ), a)) ≤
      toLex (shapeClass b, toLex (-(b.length : ℤ), b)) ↔ _
  rw [Prod.Lex.le_iff, Prod.Lex.le_iff]
  constructor
  · rintro (h | ⟨h1, h2 | ⟨h2, h3⟩⟩)
    · exact Or.inl h
    · refine Or.inr ⟨h1, Or.inl ?_⟩
      simpa using h2
    · refine Or.inr ⟨h1, Or.inr ⟨?_, h3⟩⟩
      have := neg_inj.mp h2
      exact_mod_cast this.symm
  · rintro (h | ⟨h1, h2 | ⟨h2, h3⟩⟩)
    · exact Or.inl h
    · refine Or.inr ⟨h1, Or.inl ?_⟩
      simpa using h2
    · refine Or.inr ⟨h1, Or.inr ⟨by simp [h2], h3⟩⟩

/-- The head of a `prefKeyLE`-sorted list is `prefKeyLE`-below every element
of the original list. -/
theorem insertionSort_head_min (l : List String) (r : String)
    (hr : (List.insertionSort prefKeyLE l).head? = Option.some r) :
    r ∈ l ∧ ∀ c ∈ l, prefKeyLE r c := by
  have hs : List.Sorted prefKeyLE (List.insertionSort prefKeyLE l) :=
    List.sorted_insertionSort prefKeyLE l
  rcases hsl : List.insertionSort prefKeyLE l with _ | ⟨x, t⟩
  · rw [hsl] at hr; simp at hr
  · rw [hsl] at hr
    simp only [List.head?_cons, Option.some.injEq] at hr
    rw [← hr]
    rw [hsl] at hs
    constructor
    · have hx : x ∈ List.insertionSort prefKeyLE l := by
        rw [hsl]; exact List.mem_cons_self x t
      exact (List.mem_insertionSort prefKeyLE).mp hx
    · intro c hc
      have hcs : c ∈ List.insertionSort prefKeyLE l :=
        (List.mem_insertionSort prefKeyLE).mpr hc
      rw [hsl] at hcs
      rcases List.mem_cons.mp hcs with h | h
      · rw [h]
        show codePreferenceScore x ≤ codePreferenceScore x
        exact le_refl _
      · exact List.rel_of_sorted_cons hs c h

/-- The head of the key-sorted version of a non-empty list exists, belongs to
the list, and is minimal for the unfolded three-level tie-break. -/
theorem sorted_head_spec (l : List String) (hl : l ≠ []) :
    ∃ r, (List.insertionSort prefKeyLE l).head? = Option.some r ∧ r ∈ l ∧
      ∀ c ∈ l,
        shapeClass r < shapeClass c ∨
          (shapeClass r = shapeClass c ∧
            (c.length < r.length ∨ (c.length = r.length ∧ r ≤ c))) := by
  rcases hh : (List.insertionSort prefKeyLE l).head? with _ | ⟨r⟩
  · exfalso
    have hlen : (List.insertionSort prefKeyLE l).length = l.length :=
      List.length_insertionSort prefKeyLE l
    have : List.insertionSort prefKeyLE l = [] := List.head?_eq_none_iff.mp hh
    rw [this] at hlen
    exact hl (List.eq_nil_of_length_eq_zero hlen.symm)
  · refine ⟨r, rfl, ?_⟩
    have h := insertionSort_head_min l r hh
    refine ⟨h.1, fun c hc => ?_⟩
    exact (prefKeyLE_iff r c).mp (h.2 c hc)

/-! ## Numeric truncation helper for `init_ssb` -/

/-- Python `int(q)` truncation is zero exactly on the open interval
`(-1, 1)`. -/
theorem pyIntTrunc_eq_zero_iff (q : ℚ) : pyIntTrunc q = 0 ↔ -1 < q ∧ q < 1 := by
  unfold pyIntTrunc
  by_cases h : 0 ≤ q
  · simp only [h, if_true]
    rw [Int.floor_eq_zero_iff]
    constructor
    · rintro ⟨h0, h1⟩
      exact ⟨by linarith, by simpa using h1⟩
    · rintro ⟨_, h1⟩
      exact ⟨by exact_mod_cast h, by simpa using h1⟩
  · simp only [h, if_false, neg_eq_zero]
    rw [Int.floor_eq_zero_iff]
    push_neg at h
    constructor
    · rintro ⟨h0, h1⟩
      have h1q : -q < 1 := by simpa using h1
      exact ⟨by linarith, by linarith⟩
    · rintro ⟨h0, _⟩
      refine ⟨by linarith, ?_⟩
      simpa using show -q < 1 by linarith

/-- Any-traversals of `_is_init_open_from_rule` agree with existential
quantification over the nested elements / dict values. -/
theorem isInitOpenAnyList_iff (items : List PyVal) :
    isInitOpenAnyList items = true ↔
      ∃ v ∈ items, isInitOpenFromRule v = true := by
  induction items with
  | nil => simp [isInitOpenAnyList]
  | cons x xs ih =>
      simp only [isInitOpenAnyList, Bool.or_eq_true, ih, List.mem_cons]
      constructor
      · rintro (h | ⟨v, hv, ho⟩)
        · exact ⟨x, Or.inl rfl, h⟩
        · exact ⟨v, Or.inr hv, ho⟩
      · rintro ⟨v, h | hv, ho⟩
        · rw [h] at ho; exact Or.inl ho
        · exact Or.inr ⟨v, hv, ho⟩

/-- Dict-values analogue of `isInitOpenAnyList_iff`. -/
theorem isInitOpenAnyDict_iff (entries : List (String × PyVal)) :
    isInitOpenAnyDict entries = true ↔
      ∃ kv ∈ entries, isInitOpenFromRule kv.2 = true := by
  induction entries with
  | nil => simp [isInitOpenAnyDict]
  | cons x xs ih =>
      simp only [isInitOpenAnyDict, Bool.or_eq_true, ih, List.mem_cons]
      constructor
      · rintro (h | ⟨v, hv, ho⟩)
        · exact ⟨x, Or.inl rfl, h⟩
        · exact ⟨v, Or.inr hv, ho⟩
      · rintro ⟨v, h | hv, ho⟩
        · rw [h] at ho; exact Or.inl ho
        · exact Or.inr ⟨v, hv, ho⟩

/-- C10: `_is_init_open_from_rule` accepts a bare numeric payload exactly when
its truncation toward zero is `0`, i.e. on `|v| < 1`; list and dict payloads
recurse existentially; string payloads count only when the cleaned text is
exactly `"0"`. -/
theorem is_init_open_from_rule_semantics :
    (∀ q : ℚ, isInitOpenFromRule (PyVal.num q) = true ↔ -1 < q ∧ q < 1) ∧
    (∀ items : List PyVal,
      isInitOpenFromRule (PyVal.list items) = true ↔
        ∃ v ∈ items, isInitOpenFromRule v = true) ∧
    (∀ entries : List (String × PyVal),
      isInitOpenFromRule (PyVal.dict entries) = true ↔
        ∃ kv ∈ entries, isInitOpenFromRule kv.2 = true) ∧
    (∀ s : String,
      isInitOpenFromRule (PyVal.str s) = true ↔ cleanStr s = "0") := by
  refine ⟨fun q => ?_, fun items => ?_, fun entries => ?_, fun s => ?_⟩
  · rw [show isInitOpenFromRule (PyVal.num q) = decide (pyIntTrunc q = 0) from rfl]
    rw [decide_eq_true_iff]
    exact pyIntTrunc_eq_zero_iff q
  · exact isInitOpenAnyList_iff items
  · exact isInitOpenAnyDict_iff entries
  · rw [show isInitOpenFromRule (PyVal.str s) = decide (cleanStr s = "0") from rfl]
    exact decide_eq_true_iff

/-- C8: for every non-empty cleaned candidate list, both
`_preferred_code_from_list` and the `_code_preference_score`-based selection
in `derive.py` return the candidate of the best shape class (activity over
objective over module over non-matching), breaking ties by longest code and
then lexicographically smallest code. -/
theorem preferred_code_selection_spec :
    (∀ codes : List String, cleanedCodes codes ≠ [] →
      ∃ r, preferredCodeFromList codes = Option.some r ∧
        r ∈ cleanedCodes codes ∧
        ∀ c ∈ cleanedCodes codes,
          shapeClass r < shapeClass c ∨
            (shapeClass r = shapeClass c ∧
              (c.length < r.length ∨ (c.length = r.length ∧ r ≤ c)))) ∧
    (∀ codes : List String, codes ≠ [] →
      ∃ r, chosenCodeDerive codes = Option.some r ∧
        r ∈ codes ∧
        ∀ c ∈ codes,
          shapeClass r < shapeClass c ∨
            (shapeClass r = shapeClass c ∧
              (c.length < r.length ∨ (c.length = r.length ∧ r ≤ c)))) := by
  constructor
  · intro codes h
    obtain ⟨r, hr, hmem, hmin⟩ := sorted_head_spec (cleanedCodes codes) h
    refine ⟨r, ?_, hmem, hmin⟩
    unfold preferredCodeFromList
    simp only [h, if_false]
    exact hr
  · intro codes h
    obtain ⟨r, hr, hmem, hmin⟩ := sorted_head_spec codes h
    exact ⟨r, hr, hmem, hmin⟩

/-- Concrete instantiation of `preferred_code_selection_spec`: activity-shaped
`M3O1A2` wins over objective-, module- and non-shaped candidates. -/
theorem preferred_code_selection_spec_witness :
    (cleanedCodes ["m", " M3 ", "M3O1", "M3O1A2"] ≠ [] ∧
      ∃ r, preferredCodeFromList ["m", " M3 ", "M3O1", "M3O1A2"] =
          Option.some r ∧
        r ∈ cleanedCodes ["m", " M3 ", "M3O1", "M3O1A2"] ∧
        ∀ c ∈ cleanedCodes ["m", " M3 ", "M3O1", "M3O1A2"],
          shapeClass r < shapeClass c ∨
            (shapeClass r = shapeClass c ∧
              (c.length < r.length ∨ (c.length = r.length ∧ r ≤ c)))) ∧
    (["M5", "M5O2"] ≠ ([] : List String) ∧
      ∃ r, chosenCodeDerive ["M5", "M5O2"] = Option.some r ∧
        r ∈ ["M5", "M5O2"] ∧
        ∀ c ∈ (["M5", "M5O2"] : List String),
          shapeClass r < shapeClass c ∨
            (shapeClass r = shapeClass c ∧
              (c.length < r.length ∨ (c.length = r.length ∧ r ≤ c)))) :=
  ⟨⟨by decide, preferred_code_selection_spec.1 _ (by decide)⟩,
   ⟨by decide, preferred_code_selection_spec.2 _ (by decide)⟩⟩


/-! ## Fact reconciler (`build_fact_attempt_core` in `derive.py`)

The dataframe pipeline of `build_fact_attempt_core` is embedded one row at a
time.  The left-joined lookup frames built by `_hierarchy_map_from_catalog`,
`_exercise_hierarchy_map_from_catalog`, `_rules_id_code_frame` and
`_catalog_code_frames` are supplied as lookup functions. -/

/-- A row of the activity-hierarchy lookup frame
(`_hierarchy_map_from_catalog`), keyed by `activity_id`. -/
structure HierRow where
  objective_id_summary : Option String
  objective_label : Option String
  activity_label : Option String
  module_id : Option String
  module_code : Option String
  module_label : Option String
  deriving Repr, DecidableEq

/-- A row of the exercise-hierarchy lookup frame
(`_exercise_hierarchy_map_from_catalog`), keyed by `exercise_id`; the module
and labels come from the catalog join inside that helper and may be null. -/
structure ExerciseHierRow where
  activity_id_exercise_summary : Option String
  objective_id_exercise_summary : Option String
  module_id_exercise_summary : Option String
  activity_label_exercise_summary : Option String
  objective_label_exercise_summary : Option String
  module_label_exercise_summary : Option String
  module_code_exercise_summary : Option String
  deriving Repr, DecidableEq

/-- A row of one of the three code-indexed catalog frames built by
`_catalog_code_frames`, keyed by the fallback code. -/
structure CodeLookupRow where
  id_fallback : Option String
  label_fallback : Option String
  deriving Repr, DecidableEq

/-- The joined lookup context of `build_fact_attempt_core`. -/
structure FactContext where
  hierarchy : String → Option HierRow
  exerciseHierarchy : String → Option ExerciseHierRow
  graphIdCode : String → Option String
  moduleCodeLookup : String → Option CodeLookupRow
  objectiveCodeLookup : String → Option CodeLookupRow
  activityCodeLookup : String → Option CodeLookupRow

/-- The raw identifier fields of one attempt event, before normalization. -/
structure RawEvent where
  activity_id : Option String
  objective_id : Option String
  exercise_id : Option String
  playlist_or_module_id : Option String
  deriving Repr, DecidableEq

/-- The resolved identity fields of one reconciled fact row. -/
structure FactIdentity where
  mapping_source : String
  fallback_code_raw : Option String
  module_id : Option String
  module_code : Option String
  module_label : Option String
  objective_id : Option String
  activity_id : Option String
  deriving Repr, DecidableEq

/-- The `fallback_code_raw` column: coalesce of the four rules-graph code
joins (activity, objective, exercise, playlist), after identifier
normalization. -/
def factFallbackCodeRaw (ctx : FactContext) (e : RawEvent) : Option String :=
  ((normalizeId e.activity_id).bind ctx.graphIdCode <|>
    (normalizeId e.objective_id).bind ctx.graphIdCode <|>
    (normalizeId e.exercise_id).bind ctx.graphIdCode <|>
    (normalizeId e.playlist_or_module_id).bind ctx.graphIdCode)

/-- The `module_code` contribution of the catalog-activity tier: the
`module_code` column of the activity-hierarchy join. -/
def tierActivityModuleCode (ctx : FactContext) (e : RawEvent) : Option String :=
  ((normalizeId e.activity_id).bind ctx.hierarchy).bind HierRow.module_code

/-- The `module_code` contribution of the catalog-exercise tier: the
`module_code_exercise_summary` column of the exercise-hierarchy join. -/
def tierExerciseModuleCode (ctx : FactContext) (e : RawEvent) : Option String :=
  ((normalizeId e.exercise_id).bind ctx.exerciseHierarchy).bind
    ExerciseHierRow.module_code_exercise_summary

/-- The `module_code_fallback` column: the `^(M\d+)` prefix extracted from
`fallback_code_raw`. -/
def tierRulesModuleCode (ctx : FactContext) (e : RawEvent) : Option String :=
  (factFallbackCodeRaw ctx e).bind extractM

/-- Embeds the per-row column pipeline of `build_fact_attempt_core` from
`derive.py`: identifier normalization, the four joins, regex-prefix
decomposition of the fallback code, the coalesce cascade and the
`mapping_source` provenance tag. -/
def buildFactAttemptCoreRow (ctx : FactContext) (e : RawEvent) : FactIdentity :=
  let objective := normalizeId e.objective_id
  let activity := normalizeId e.activity_id
  let exercise := normalizeId e.exercise_id
  let hier := activity.bind ctx.hierarchy
  let exh := exercise.bind ctx.exerciseHierarchy
  let fallback_code_raw := factFallbackCodeRaw ctx e
  let module_code_fallback := fallback_code_raw.bind extractM
  let objective_code_fallback := fallback_code_raw.bind extractMO
  let activity_code_fallback := fallback_code_raw.bind extractMOA
  let moduleFb := module_code_fallback.bind ctx.moduleCodeLookup
  let objectiveFb := objective_code_fallback.bind ctx.objectiveCodeLookup
  let activityFb := activity_code_fallback.bind ctx.activityCodeLookup
  let has_activity_catalog_mapping := (hier.bind HierRow.module_code).isSome
  let has_exercise_catalog_mapping :=
    (exh.bind ExerciseHierRow.module_code_exercise_summary).isSome
  { mapping_source :=
      if has_activity_catalog_mapping then "catalog_activity"
      else if has_exercise_catalog_mapping then "catalog_exercise"
      else if module_code_fallback.isSome then "rules_code_fallback"
      else "unmapped"
    fallback_code_raw := fallback_code_raw
    module_id :=
      (hier.bind HierRow.module_id <|>
        exh.bind ExerciseHierRow.module_id_exercise_summary <|>
        moduleFb.bind CodeLookupRow.id_fallback)
    module_code :=
      (hier.bind HierRow.module_code <|>
        exh.bind ExerciseHierRow.module_code_exercise_summary <|>
        module_code_fallback)
    module_label :=
      (hier.bind HierRow.module_label <|>
        exh.bind ExerciseHierRow.module_label_exercise_summary <|>
        moduleFb.bind CodeLookupRow.label_fallback)
    objective_id :=
      (objective <|>
        hier.bind HierRow.objective_id_summary <|>
        exh.bind ExerciseHierRow.objective_id_exercise_summary <|>
        objectiveFb.bind CodeLookupRow.id_fallback)
    activity_id :=
      (activity <|>
        exh.bind ExerciseHierRow.activity_id_exercise_summary <|>
        activityFb.bind CodeLookupRow.id_fallback) }


/-- Fixture context for the C1 scenario: an exercise `ex1` resolvable through
the exercise-hierarchy map (with a catalog module code), and a playlist id
`pl1` resolvable to a rules-graph code. -/
def c1Ctx : FactContext :=
  { hierarchy := fun _ => Option.none
    exerciseHierarchy := fun s =>
      if s = "ex1" then
        Option.some
          { activity_id_exercise_summary := Option.some "actX"
            objective_id_exercise_summary := Option.some "objX"
            module_id_exercise_summary := Option.some "modX"
            activity_label_exercise_summary := Option.some "Activity X"
            objective_label_exercise_summary := Option.some "Objective X"
            module_label_exercise_summary := Option.some "Module X"
            module_code_exercise_summary := Option.some "M9" }
      else Option.none
    graphIdCode := fun s =>
      if s = "pl1" then Option.some "M2O1" else Option.none
    moduleCodeLookup := fun _ => Option.none
    objectiveCodeLookup := fun _ => Option.none
    activityCodeLookup := fun _ => Option.none }

/-- Fixture event for the C1 scenario: placeholder activity id, null
objective id, resolvable exercise id and code-resolvable playlist id. -/
def c1Event : RawEvent :=
  { activity_id := Option.some "None"
    objective_id := Option.none
    exercise_id := Option.some "ex1"
    playlist_or_module_id := Option.some "pl1" }

/-- C1: `build_fact_attempt_core` tags each row with the first fallback tier
that contributed the module identity, in the fixed order catalog_activity >
catalog_exercise > rules_code_fallback > unmapped; in particular an event
with null activity/objective ids, an exercise id resolvable through
`exercise_to_hierarchy`, and a code-resolvable `playlist_or_module_id` is
tagged `catalog_exercise`. -/
theorem fact_mapping_source_first_contributing_tier :
    (∀ (ctx : FactContext) (e : RawEvent),
      ((tierActivityModuleCode ctx e).isSome = true ∧
        (buildFactAttemptCoreRow ctx e).mapping_source = "catalog_activity" ∧
        (buildFactAttemptCoreRow ctx e).module_code =
          tierActivityModuleCode ctx e) ∨
      (tierActivityModuleCode ctx e = Option.none ∧
        (tierExerciseModuleCode ctx e).isSome = true ∧
        (buildFactAttemptCoreRow ctx e).mapping_source = "catalog_exercise" ∧
        (buildFactAttemptCoreRow ctx e).module_code =
          tierExerciseModuleCode ctx e) ∨
      (tierActivityModuleCode ctx e = Option.none ∧
        tierExerciseModuleCode ctx e = Option.none ∧
        (tierRulesModuleCode ctx e).isSome = true ∧
        (buildFactAttemptCoreRow ctx e).mapping_source = "rules_code_fallback" ∧
        (buildFactAttemptCoreRow ctx e).module_code =
          tierRulesModuleCode ctx e) ∨
      (tierActivityModuleCode ctx e = Option.none ∧
        tierExerciseModuleCode ctx e = Option.none ∧
        tierRulesModuleCode ctx e = Option.none ∧
        (buildFactAttemptCoreRow ctx e).mapping_source = "unmapped" ∧
        (buildFactAttemptCoreRow ctx e).module_code = Option.none)) ∧
    (normalizeId c1Event.activity_id = Option.none ∧
      normalizeId c1Event.objective_id = Option.none ∧
      tierRulesModuleCode c1Ctx c1Event = Option.some "M2" ∧
      (buildFactAttemptCoreRow c1Ctx c1Event).mapping_source =
        "catalog_exercise" ∧
      (buildFactAttemptCoreRow c1Ctx c1Event).module_code =
        Option.some "M9") := by
  constructor
  · intro ctx e
    rcases hA : tierActivityModuleCode ctx e with _ | v1
    · rcases hB : tierExerciseModuleCode ctx e with _ | v2
      · rcases hC : tierRulesModuleCode ctx e with _ | v3
        · refine Or.inr (Or.inr (Or.inr ⟨rfl, rfl, rfl, ?_, ?_⟩)) <;>
            · unfold buildFactAttemptCoreRow
              unfold tierActivityModuleCode at hA
              unfold tierExerciseModuleCode at hB
              unfold tierRulesModuleCode at hC
              simp [hA, hB, hC]
        · refine Or.inr (Or.inr (Or.inl ⟨rfl, rfl, rfl, ?_, ?_⟩)) <;>
            · unfold buildFactAttemptCoreRow
              unfold tierActivityModuleCode at hA
              unfold tierExerciseModuleCode at hB
              unfold tierRulesModuleCode at hC
              simp [hA, hB, hC]
      · refine Or.inr (Or.inl ⟨rfl, rfl, ?_, ?_⟩) <;>
          · unfold buildFactAttemptCoreRow
            unfold tierActivityModuleCode at hA
            unfold tierExerciseModuleCode at hB
            simp [hA, hB]
    · refine Or.inl ⟨rfl, ?_, ?_⟩ <;>
        · unfold buildFactAttemptCoreRow
          unfold tierActivityModuleCode at hA
          simp [hA]
  · refine ⟨by decide, by decide, by decide, by decide, by decide⟩


/-! ## Generic list machinery for the dataframe operations

`firstDedup` models Python-dict / first-occurrence deduplication, and
`groupByKey` models a dataframe `group_by` (first-occurrence key order, group
contents by key equality). -/

/-- First-occurrence deduplication, as performed by keyed Python dicts. -/
def firstDedup {α : Type _} [DecidableEq α] : List α → List α
  | [] => []
  | a :: rest => a :: (firstDedup rest).filter (fun x => x ≠ a)

theorem mem_firstDedup {α : Type _} [DecidableEq α] (l : List α) (x : α) :
    x ∈ firstDedup l ↔ x ∈ l := by
  induction l with
  | nil => simp [firstDedup]
  | cons a rest ih =>
      simp only [firstDedup, List.mem_cons, List.mem_filter, ih]
      constructor
      · rintro (rfl | ⟨hx, _⟩)
        · exact Or.inl rfl
        · exact Or.inr hx
      · rintro (rfl | hx)
        · exact Or.inl rfl
        · by_cases hxa : x = a
          · exact Or.inl hxa
          · exact Or.inr ⟨hx, by simpa using hxa⟩

theorem nodup_firstDedup {α : Type _} [DecidableEq α] (l : List α) :
    (firstDedup l).Nodup := by
  induction l with
  | nil => simp [firstDedup]
  | cons a rest ih =>
      simp only [firstDedup]
      refine List.Nodup.cons ?_ (List.Nodup.filter _ ih)
      intro hmem
      have := (List.mem_filter.mp hmem).2
      simp at this

/-- Models a dataframe `group_by`: one group per distinct key, containing the
rows with that key. -/
def groupByKey {α κ : Type _} [DecidableEq κ] (key : α → κ) (rows : List α) :
    List (κ × List α) :=
  (firstDedup (rows.map key)).map
    (fun k => (k, rows.filter (fun r => key r = k)))

theorem groupByKey_mem {α κ : Type _} [DecidableEq κ] (key : α → κ)
    (rows : List α) (k : κ) (g : List α)
    (h : (k, g) ∈ groupByKey key rows) :
    g = rows.filter (fun r => key r = k) := by
  obtain ⟨k2, _, heq⟩ := List.mem_map.mp h
  have hk : k2 = k := congrArg Prod.fst heq
  have hg := congrArg Prod.snd heq
  simp only at hg
  rw [← hg, hk]

/-- Mean of a nullable column, skipping nulls, as in a dataframe `mean`:
null when every value is null. -/
def meanOpt (xs : List (Option ℚ)) : Option ℚ :=
  let vals := xs.filterMap id
  if vals.length = 0 then Option.none
  else Option.some (vals.sum / (vals.length : ℚ))

/-- Median of a nullable column, skipping nulls (average of the two middle
values for an even count). -/
def medianOpt (xs : List (Option ℚ)) : Option ℚ :=
  let vals := List.insertionSort (fun a b : ℚ => a ≤ b) (xs.filterMap id)
  if vals.length = 0 then Option.none
  else if vals.length % 2 = 1 then Option.some (vals.getD (vals.length / 2) 0)
  else
    Option.some
      ((vals.getD (vals.length / 2 - 1) 0 + vals.getD (vals.length / 2) 0) / 2)

/-! ## Aggregate builders (`derive.py`)

One reconciled fact row, restricted to the columns the aggregate builders
read.  Dates are day indices; `attempt_number` is non-null in the source
data. -/

/-- A reconciled fact row as consumed by the aggregate builders. -/
structure FactRow where
  date_utc : ℤ
  user_id : String
  activity_id : Option String
  activity_label : Option String
  objective_id : Option String
  objective_label : Option String
  module_id : Option String
  module_code : Option String
  module_label : Option String
  exercise_id : Option String
  work_mode : Option String
  data_correct : Option ℚ
  data_duration : Option ℚ
  attempt_number : ℤ
  deriving Repr, DecidableEq

/-- The grouping key of `build_agg_activity_daily_from_fact`. -/
structure ActivityDailyKey where
  date_utc : ℤ
  activity_id : Option String
  activity_label : Option String
  objective_id : Option String
  objective_label : Option String
  module_id : Option String
  module_code : Option String
  module_label : Option String
  deriving Repr, DecidableEq

/-- The grouping key tuple of one fact row for the activity-daily grain. -/
def aggActivityKey (r : FactRow) : ActivityDailyKey :=
  { date_utc := r.date_utc
    activity_id := r.activity_id
    activity_label := r.activity_label
    objective_id := r.objective_id
    objective_label := r.objective_label
    module_id := r.module_id
    module_code := r.module_code
    module_label := r.module_label }

/-- An output row of `build_agg_activity_daily_from_fact`. -/
structure AggActivityRow where
  date_utc : ℤ
  activity_id : Option String
  activity_label : Option String
  objective_id : Option String
  objective_label : Option String
  module_id : Option String
  module_code : Option String
  module_label : Option String
  attempts : ℕ
  unique_students : ℕ
  success_rate : Option ℚ
  first_attempt_success_rate : Option ℚ
  first_attempt_count : ℕ
  median_duration : Option ℚ
  repeat_attempt_rate : ℚ
  avg_attempt_number : ℚ
  deriving Repr, DecidableEq

/-- The key tuple recorded on an aggregate output row. -/
def aggRowKey (row : AggActivityRow) : ActivityDailyKey :=
  { date_utc := row.date_utc
    activity_id := row.activity_id
    activity_label := row.activity_label
    objective_id := row.objective_id
    objective_label := row.objective_label
    module_id := row.module_id
    module_code := row.module_code
    module_label := row.module_label }

/-- One aggregated activity-daily row from a key and its group of fact rows:
embeds the `agg` expressions of `build_agg_activity_daily_from_fact`,
including the `first_attempt_correct_value` masking column. -/
def mkAggActivityRow (k : ActivityDailyKey) (g : List FactRow) :
    AggActivityRow :=
  { date_utc := k.date_utc
    activity_id := k.activity_id
    activity_label := k.activity_label
    objective_id := k.objective_id
    objective_label := k.objective_label
    module_id := k.module_id
    module_code := k.module_code
    module_label := k.module_label
    attempts := g.length
    unique_students := (firstDedup (g.map FactRow.user_id)).length
    success_rate := meanOpt (g.map FactRow.data_correct)
    first_attempt_success_rate :=
      meanOpt
        (g.map (fun r =>
          if r.attempt_number = 1 then r.data_correct else Option.none))
    first_attempt_count :=
      (g.map (fun r => if r.attempt_number = 1 then (1 : ℕ) else 0)).sum
    median_duration := medianOpt (g.map FactRow.data_duration)
    repeat_attempt_rate :=
      ((g.filter (fun r => 1 < r.attempt_number)).length : ℚ) /
        (g.length : ℚ)
    avg_attempt_number :=
      ((g.map FactRow.attempt_number).sum : ℚ) / (g.length : ℚ) }

/-- The output ordering of `build_agg_activity_daily_from_fact`: date
ascending, attempts descending. -/
def aggActivitySortLE (a b : AggActivityRow) : Prop :=
  a.date_utc < b.date_utc ∨ (a.date_utc = b.date_utc ∧ b.attempts ≤ a.attempts)

instance : DecidableRel aggActivitySortLE := fun a b =>
  inferInstanceAs
    (Decidable
      (a.date_utc < b.date_utc ∨
        (a.date_utc = b.date_utc ∧ b.attempts ≤ a.attempts)))

/-- Embeds `build_agg_activity_daily_from_fact` from `derive.py`. -/
def buildAggActivityDailyFromFact (fact : List FactRow) :
    List AggActivityRow :=
  List.insertionSort aggActivitySortLE
    ((groupByKey aggActivityKey fact).map (fun kg => mkAggActivityRow kg.1 kg.2))

/-- The null-skipping mean of the first-attempt mask column equals the mean of
`data_correct` restricted to the `attempt_number == 1` rows. -/
theorem firstAttemptMask_mean (g : List FactRow) :
    meanOpt
        (g.map (fun r =>
          if r.attempt_number = 1 then r.data_correct else Option.none)) =
      meanOpt
        ((g.filter (fun r => r.attempt_number = 1)).map FactRow.data_correct) := by
  have hfm :
      (g.map (fun r =>
          if r.attempt_number = 1 then r.data_correct else Option.none)).filterMap
          id =
        ((g.filter (fun r => r.attempt_number = 1)).map
            FactRow.data_correct).filterMap id := by
    induction g with
    | nil => simp
    | cons r rest ih =>
        by_cases h : r.attempt_number = 1 <;>
          cases hd : r.data_correct <;>
            simp [h, hd, List.filterMap_cons, ih]
  unfold meanOpt
  rw [hfm]

/-- Fixture for C7: student A attempts an incorrect row (attempt 1) then a
correct row (attempt 2); student B attempts one correct row (attempt 1);
all in activity `a1` on the same day. -/
def c7Fact : List FactRow :=
  [ { date_utc := 1
      user_id := "A"
      activity_id := Option.some "a1"
      activity_label := Option.some "Activity 1"
      objective_id := Option.some "o1"
      objective_label := Option.some "Objective 1"
      module_id := Option.some "m1"
      module_code := Option.some "M1"
      module_label := Option.some "Module 1"
      exercise_id := Option.none
      work_mode := Option.some "zpdes"
      data_correct := Option.some 0
      data_duration := Option.none
      attempt_number := 1 },
    { date_utc := 1
      user_id := "A"
      activity_id := Option.some "a1"
      activity_label := Option.some "Activity 1"
      objective_id := Option.some "o1"
      objective_label := Option.some "Objective 1"
      module_id := Option.some "m1"
      module_code := Option.some "M1"
      module_label := Option.some "Module 1"
      exercise_id := Option.none
      work_mode := Option.some "zpdes"
      data_correct := Option.some 1
      data_duration := Option.none
      attempt_number := 2 },
    { date_utc := 1
      user_id := "B"
      activity_id := Option.some "a1"
      activity_label := Option.some "Activity 1"
      objective_id := Option.some "o1"
      objective_label := Option.some "Objective 1"
      module_id := Option.some "m1"
      module_code := Option.some "M1"
      module_label := Option.some "Module 1"
      exercise_id := Option.none
      work_mode := Option.some "zpdes"
      data_correct := Option.some 1
      data_duration := Option.none
      attempt_number := 1 } ]

/-- C7: `build_agg_activity_daily_from_fact` computes
`first_attempt_success_rate` as the mean of `data_correct` over only the
`attempt_number == 1` rows of each group, and on the two-student fixture the
single aggregate row reports `attempts = 3`, `success_rate = 2/3` and
`first_attempt_success_rate = 1/2`. -/
theorem agg_activity_first_attempt_success_rate_spec :
    (∀ (fact : List FactRow) (row : AggActivityRow),
      row ∈ buildAggActivityDailyFromFact fact →
      row.first_attempt_success_rate =
        meanOpt
          (((fact.filter (fun r => aggActivityKey r = aggRowKey row)).filter
              (fun r => r.attempt_number = 1)).map FactRow.data_correct)) ∧
    ((buildAggActivityDailyFromFact c7Fact).map
        (fun r => (r.attempts, r.success_rate, r.first_attempt_success_rate)) =
      [(3, Option.some (2 / 3 : ℚ), Option.some (1 / 2 : ℚ))]) := by
  constructor
  · intro fact row hrow
    have hrow2 :
        row ∈ (groupByKey aggActivityKey fact).map
          (fun kg => mkAggActivityRow kg.1 kg.2) :=
      (List.mem_insertionSort aggActivitySortLE).mp hrow
    obtain ⟨⟨k, g⟩, hkg, hmk⟩ := List.mem_map.mp hrow2
    have hg : g = fact.filter (fun r => aggActivityKey r = k) :=
      groupByKey_mem aggActivityKey fact k g hkg
    have hkey : aggRowKey row = k := by
      rw [← hmk]; rfl
    rw [hkey, ← hg, ← hmk]
    show meanOpt
        (g.map (fun r =>
          if r.attempt_number = 1 then r.data_correct else Option.none)) = _
    rw [firstAttemptMask_mean]
  · norm_num [buildAggActivityDailyFromFact, groupByKey, aggActivityKey,
      c7Fact, firstDedup, mkAggActivityRow, meanOpt, medianOpt,
      List.insertionSort, List.orderedInsert, List.filterMap]


/-- The single grouping key of the C7 fixture. -/
def c7Key : ActivityDailyKey :=
  { date_utc := 1
    activity_id := Option.some "a1"
    activity_label := Option.some "Activity 1"
    objective_id := Option.some "o1"
    objective_label := Option.some "Objective 1"
    module_id := Option.some "m1"
    module_code := Option.some "M1"
    module_label := Option.some "Module 1" }

/-- The single aggregate row produced for the C7 fixture. -/
theorem c7_row_mem :
    mkAggActivityRow c7Key c7Fact ∈ buildAggActivityDailyFromFact c7Fact := by
  norm_num [buildAggActivityDailyFromFact, groupByKey, aggActivityKey, c7Fact,
    firstDedup, List.insertionSort, List.orderedInsert, c7Key]

/-- Concrete instantiation of
`agg_activity_first_attempt_success_rate_spec` on the C7 fixture row. -/
theorem agg_activity_first_attempt_success_rate_spec_witness :
    (mkAggActivityRow c7Key c7Fact).first_attempt_success_rate =
      meanOpt
        (((c7Fact.filter
              (fun r =>
                aggActivityKey r = aggRowKey (mkAggActivityRow c7Key c7Fact))).filter
            (fun r => r.attempt_number = 1)).map FactRow.data_correct) :=
  agg_activity_first_attempt_success_rate_spec.1 c7Fact
    (mkAggActivityRow c7Key c7Fact) c7_row_mem


/-! ## Objective-activity matrix builder (`objective_activity_matrix.py`)

`build_objective_activity_cells` is embedded over typed rows of the
activity-daily and exercise-daily aggregates; the `_summary_maps` output
(catalog ordering and label maps) is supplied as input. -/

/-- A row of `agg_activity_daily` as consumed by the matrix builder. -/
structure MatrixAggRow where
  date_utc : ℤ
  module_code : Option String
  objective_id : Option String
  objective_label : Option String
  activity_id : Option String
  activity_label : Option String
  attempts : ℕ
  success_rate : ℚ
  repeat_attempt_rate : ℚ
  first_attempt_success_rate : Option ℚ
  first_attempt_count : ℕ
  deriving Repr, DecidableEq

/-- A row of `agg_exercise_daily` as consumed by the
`exercise_balanced_success_rate` branch. -/
structure MatrixExRow where
  date_utc : ℤ
  module_code : Option String
  objective_id : Option String
  objective_label : Option String
  activity_id : Option String
  activity_label : Option String
  exercise_id : Option String
  attempts : ℕ
  success_rate : ℚ
  deriving Repr, DecidableEq

/-- The output of `_summary_maps`: catalog ordering and label maps. -/
structure SummaryMaps where
  objectiveOrder : List (String × ℕ)
  objectiveActivityOrder : List (String × List (String × ℕ))
  objectiveLabel : List (String × String)
  activityLabel : List (String × String)

/-- Association-list lookup (Python `dict.get`). -/
def assocLookup {α : Type _} (m : List (String × α)) (k : String) : Option α :=
  (m.find? (fun kv => kv.1 = k)).map Prod.snd

/-- Embeds Python `a or b` on nullable strings: `a` when non-null and
non-empty, else `b`. -/
def pyOrStr (a b : Option String) : Option String :=
  match a with
  | Option.some s => if s = "" then b else Option.some s
  | Option.none => b

/-- Embeds `_safe_label` from `objective_activity_matrix.py`. -/
def safeLabel (label identifier : Option String) : String :=
  let normalized := pyStrip (label.getD "")
  if normalized ≠ "" then normalized else pyStrip (identifier.getD "")

/-- Embeds `format_cell_value` for the percent metrics, modelled as exact
decimal rounding of `value*100` to one place (half to even). -/
def formatPercent1 (v : ℚ) : String :=
  let n := pyRoundHalfEven (v * 1000)
  let sign := if n < 0 then "-" else ""
  let m := n.natAbs
  sign ++ toString (m / 10) ++ "." ++ toString (m % 10) ++ "%"

/-- Embeds `format_cell_value` from `objective_activity_matrix.py` (the NaN
branch has no rational counterpart). -/
def formatCellValue (metric : String) (value : Option ℚ) : String :=
  match value with
  | Option.none => ""
  | Option.some v =>
      if metric = "attempts" ∨ metric = "playlist_unique_exercises" then
        toString (pyRoundHalfEven v)
      else formatPercent1 v

/-- The valid metric names (`VALID_MATRIX_METRICS`). -/
def validMatrixMetrics : List String :=
  ["attempts", "success_rate", "exercise_balanced_success_rate",
    "repeat_attempt_rate", "first_attempt_success_rate",
    "playlist_unique_exercises"]

/-- One row of the intermediate `aggregated` list of
`build_objective_activity_cells`.  Each metric branch fills only its own
fields; the others keep the `row.get(...)` defaults of the consuming loop
(`0.0` for the sums, null for the balanced value). -/
structure AggregatedCellRow where
  objective_id : Option String
  activity_id : Option String
  objective_label : Option String
  activity_label : Option String
  attempts_sum : ℚ
  weighted_success_sum : ℚ
  weighted_repeat_sum : ℚ
  weighted_first_attempt_success_sum : ℚ
  first_attempt_count_sum : ℚ
  exercise_balanced : Option ℚ
  playlist_unique : ℚ
  deriving Repr, DecidableEq

/-- The module/date-window filter applied to the activity-daily frame. -/
def aggWindowPred (module_code : String) (d1 d2 : ℤ) (r : MatrixAggRow) :
    Bool :=
  r.module_code = Option.some module_code ∧ d1 ≤ r.date_utc ∧ r.date_utc ≤ d2

/-- The module/date-window filter applied to the exercise-daily frame. -/
def exWindowPred (module_code : String) (d1 d2 : ℤ) (r : MatrixExRow) :
    Bool :=
  r.module_code = Option.some module_code ∧ d1 ≤ r.date_utc ∧ r.date_utc ≤ d2

/-- First non-null value of a nullable column (`drop_nulls().first()`). -/
def firstSome {α : Type _} (xs : List (Option α)) : Option α :=
  (xs.filterMap id).head?

/-- The generic-metric aggregation of one `(module, objective, activity)`
group: attempts-weighted sums as in the final `group_by().agg(...)` branch of
`build_objective_activity_cells` (a null `first_attempt_success_rate` makes a
null product, which the sum skips). -/
def mkGenericAggRow (k : Option String × Option String × Option String)
    (g : List MatrixAggRow) : AggregatedCellRow :=
  { objective_id := k.2.1
    activity_id := k.2.2
    objective_label := firstSome (g.map MatrixAggRow.objective_label)
    activity_label := firstSome (g.map MatrixAggRow.activity_label)
    attempts_sum := ((g.map MatrixAggRow.attempts).sum : ℚ)
    weighted_success_sum :=
      (g.map (fun r => r.success_rate * (r.attempts : ℚ))).sum
    weighted_repeat_sum :=
      (g.map (fun r => r.repeat_attempt_rate * (r.attempts : ℚ))).sum
    weighted_first_attempt_success_sum :=
      ((g.map (fun r =>
          r.first_attempt_success_rate.map
            (fun v => v * (r.first_attempt_count : ℚ)))).filterMap id).sum
    first_attempt_count_sum := ((g.map MatrixAggRow.first_attempt_count).sum : ℚ)
    exercise_balanced := Option.none
    playlist_unique := 0 }

/-- The generic-metric `aggregated` list: group the filtered activity-daily
rows by `(module_code, objective_id, activity_id)`. -/
def genericAggregated (filtered : List MatrixAggRow) :
    List AggregatedCellRow :=
  (groupByKey
      (fun r : MatrixAggRow => (r.module_code, r.objective_id, r.activity_id))
      filtered).map (fun kg => mkGenericAggRow kg.1 kg.2)

/-- Stage one of the `exercise_balanced_success_rate` branch: the
attempts-weighted success rate of one `(module, objective, activity,
exercise)` group over the date window (null when the attempts sum is zero). -/
structure ExerciseStageRow where
  module_code : Option String
  objective_id : Option String
  activity_id : Option String
  exercise_id : Option String
  objective_label : Option String
  activity_label : Option String
  exercise_attempts_sum : ℚ
  exercise_weighted_success_sum : ℚ
  exercise_success_rate : Option ℚ
  deriving Repr, DecidableEq

/-- Builds one stage-one row of the balanced branch. -/
def mkExerciseStageRow
    (k : Option String × Option String × Option String × Option String)
    (g : List MatrixExRow) : ExerciseStageRow :=
  let attsum : ℚ := ((g.map MatrixExRow.attempts).sum : ℚ)
  let wsum : ℚ := (g.map (fun r => r.success_rate * (r.attempts : ℚ))).sum
  { module_code := k.1
    objective_id := k.2.1
    activity_id := k.2.2.1
    exercise_id := k.2.2.2
    objective_label := firstSome (g.map MatrixExRow.objective_label)
    activity_label := firstSome (g.map MatrixExRow.activity_label)
    exercise_attempts_sum := attsum
    exercise_weighted_success_sum := wsum
    exercise_success_rate :=
      if 0 < attsum then Option.some (wsum / attsum) else Option.none }

/-- The `exercise_balanced_success_rate` aggregation: collapse per-exercise
weighted rates, then take their null-skipping unweighted mean per
`(module, objective, activity)`. -/
def balancedAggregated (exFiltered : List MatrixExRow) :
    List AggregatedCellRow :=
  let stage1 :=
    (groupByKey
        (fun r : MatrixExRow =>
          (r.module_code, r.objective_id, r.activity_id, r.exercise_id))
        exFiltered).map (fun kg => mkExerciseStageRow kg.1 kg.2)
  (groupByKey
      (fun r : ExerciseStageRow =>
        (r.module_code, r.objective_id, r.activity_id))
      stage1).map
    (fun kg =>
      { objective_id := kg.1.2.1
        activity_id := kg.1.2.2
        objective_label := firstSome (kg.2.map ExerciseStageRow.objective_label)
        activity_label := firstSome (kg.2.map ExerciseStageRow.activity_label)
        attempts_sum := 0
        weighted_success_sum := 0
        weighted_repeat_sum := 0
        weighted_first_attempt_success_sum := 0
        first_attempt_count_sum := 0
        exercise_balanced :=
          meanOpt (kg.2.map ExerciseStageRow.exercise_success_rate)
        playlist_unique := 0 })

/-- A non-null identifier column that is also not the literal string
`"None"` (`is_not_null() & (cast(Utf8) != "None")`). -/
def notNoneStr : Option String → Bool
  | Option.some s => s ≠ "None"
  | Option.none => false

/-- The playlist filter of the `playlist_unique_exercises` branch. -/
def playlistWindowPred (module_code : String) (d1 d2 : ℤ) (r : FactRow) :
    Bool :=
  r.module_code = Option.some module_code ∧ d1 ≤ r.date_utc ∧ r.date_utc ≤ d2 ∧
    r.work_mode = Option.some "playlist" ∧
    notNoneStr r.objective_id = true ∧
    notNoneStr r.activity_id = true ∧
    notNoneStr r.exercise_id = true

/-- The `playlist_unique_exercises` aggregation over the raw fact rows. -/
def playlistAggregated (module_code : String) (d1 d2 : ℤ)
    (fact : List FactRow) : List AggregatedCellRow :=
  let filtered := fact.filter (playlistWindowPred module_code d1 d2)
  (groupByKey
      (fun r : FactRow => (r.module_code, r.objective_id, r.activity_id))
      filtered).map
    (fun kg =>
      { objective_id := kg.1.2.1
        activity_id := kg.1.2.2
        objective_label := firstSome (kg.2.map FactRow.objective_label)
        activity_label := firstSome (kg.2.map FactRow.activity_label)
        attempts_sum := 0
        weighted_success_sum := 0
        weighted_repeat_sum := 0
        weighted_first_attempt_success_sum := 0
        first_attempt_count_sum := 0
        exercise_balanced := Option.none
        playlist_unique :=
          ((firstDedup (kg.2.map FactRow.exercise_id)).length : ℚ) })

/-- The metric-value selection of the per-row loop in
`build_objective_activity_cells` (lines computing `metric_value`); `none`
means the row is skipped (`continue`). -/
def metricValueForRow (metric : String) (row : AggregatedCellRow) :
    Option ℚ :=
  if metric = "exercise_balanced_success_rate" then row.exercise_balanced
  else if metric = "playlist_unique_exercises" then
    Option.some row.playlist_unique
  else
    let attempts_sum := row.attempts_sum
    if metric = "attempts" then Option.some attempts_sum
    else if attempts_sum ≤ 0 then Option.some 0
    else if metric = "success_rate" then
      Option.some (row.weighted_success_sum / attempts_sum)
    else if metric = "first_attempt_success_rate" then
      if row.first_attempt_count_sum ≤ 0 then Option.some 0
      else
        Option.some
          (row.weighted_first_attempt_success_sum / row.first_attempt_count_sum)
    else Option.some (row.weighted_repeat_sum / attempts_sum)


/-- An activity entry collected into `per_objective`. -/
structure ActivityEntry where
  activity_id : String
  activity_label : String
  metric_value : ℚ
  deriving Repr, DecidableEq

/-- An output cell row (`_CELLS_SCHEMA`). -/
structure CellRow where
  module_code : String
  objective_id : String
  objective_label : String
  objective_row_label : String
  activity_id : String
  activity_label : String
  activity_col_idx : ℕ
  activity_col_label : String
  metric_value : ℚ
  metric_text : String
  deriving Repr, DecidableEq

/-- The valid `(objective_id, objective_label, entry)` triples of the
`per_objective` accumulation loop: stripped non-empty ids, labels coalesced
with the summary maps, and rows with no metric value skipped. -/
def validCellTriples (metric : String) (summary : SummaryMaps)
    (aggregated : List AggregatedCellRow) :
    List (String × String × ActivityEntry) :=
  aggregated.filterMap (fun row =>
    let objective_id := pyStrip (row.objective_id.getD "")
    let activity_id := pyStrip (row.activity_id.getD "")
    if objective_id = "" ∨ activity_id = "" then Option.none
    else
      match metricValueForRow metric row with
      | Option.none => Option.none
      | Option.some v =>
          let objective_label :=
            safeLabel
              (pyOrStr row.objective_label
                (assocLookup summary.objectiveLabel objective_id))
              (Option.some objective_id)
          let activity_label :=
            safeLabel
              (pyOrStr row.activity_label
                (assocLookup summary.activityLabel activity_id))
              (Option.some activity_id)
          Option.some
            (objective_id, objective_label,
              { activity_id := activity_id
                activity_label := activity_label
                metric_value := v }))

/-- The `per_objective` map in first-insertion order: each objective id with
the label of its first row and its activity entries in row order. -/
def perObjectiveEntries (metric : String) (summary : SummaryMaps)
    (aggregated : List AggregatedCellRow) :
    List (String × String × List ActivityEntry) :=
  let valid := validCellTriples metric summary aggregated
  (firstDedup (valid.map (fun t => t.1))).map (fun oid =>
    (oid,
      ((valid.filter (fun t => t.1 = oid)).map (fun t => t.2.1)).headD "",
      (valid.filter (fun t => t.1 = oid)).map (fun t => t.2.2)))

/-- Sort relation for `sorted(objective_order_map.items(), key=value)`. -/
def orderPairLE (a b : String × ℕ) : Prop := a.2 ≤ b.2

instance : DecidableRel orderPairLE := fun a b =>
  inferInstanceAs (Decidable (a.2 ≤ b.2))

/-- Sort relation for the `(label.lower(), id)` fallback ordering. -/
def labelIdLE (a b : String × String) : Prop :=
  pyToLower a.1 < pyToLower b.1 ∨ (pyToLower a.1 = pyToLower b.1 ∧ a.2 ≤ b.2)

instance : DecidableRel labelIdLE := fun a b =>
  inferInstanceAs
    (Decidable
      (pyToLower a.1 < pyToLower b.1 ∨
        (pyToLower a.1 = pyToLower b.1 ∧ a.2 ≤ b.2)))

/-- The ordered objective list: catalog-declared order first, then the
remaining objectives sorted by `(label.lower(), id)`. -/
def orderedObjectiveIds (summary : SummaryMaps)
    (perObj : List (String × String × List ActivityEntry)) : List String :=
  let inSummary :=
    ((List.insertionSort orderPairLE summary.objectiveOrder).map Prod.fst).filter
      (fun oid => (perObj.map (fun t => t.1)).contains oid)
  let fallback :=
    (List.insertionSort labelIdLE
        ((perObj.filter
            (fun t => ¬ (summary.objectiveOrder.map Prod.fst).contains t.1)).map
          (fun t => (t.2.1, t.1)))).map Prod.snd
  inSummary ++ fallback

/-- Sort relation for the in-summary activity ordering: catalog index, with
`10^9` for activities missing from the catalog order. -/
def activityOrderLE (orderMap : List (String × ℕ)) (a b : ActivityEntry) :
    Prop :=
  ((assocLookup orderMap a.activity_id).getD 1000000000 : ℕ) ≤
    ((assocLookup orderMap b.activity_id).getD 1000000000 : ℕ)

instance (orderMap : List (String × ℕ)) :
    DecidableRel (activityOrderLE orderMap) := fun a b =>
  inferInstanceAs
    (Decidable
      (((assocLookup orderMap a.activity_id).getD 1000000000 : ℕ) ≤
        ((assocLookup orderMap b.activity_id).getD 1000000000 : ℕ)))

/-- Sort relation for the fallback activity ordering. -/
def activityLabelIdLE (a b : ActivityEntry) : Prop :=
  pyToLower a.activity_label < pyToLower b.activity_label ∨
    (pyToLower a.activity_label = pyToLower b.activity_label ∧
      a.activity_id ≤ b.activity_id)

instance : DecidableRel activityLabelIdLE := fun a b =>
  inferInstanceAs
    (Decidable
      (pyToLower a.activity_label < pyToLower b.activity_label ∨
        (pyToLower a.activity_label = pyToLower b.activity_label ∧
          a.activity_id ≤ b.activity_id)))

/-- The ordered activity entries of one objective: catalog-ordered members
first, the rest sorted by `(label.lower(), id)`. -/
def orderedActivities (summary : SummaryMaps) (oid : String)
    (entries : List ActivityEntry) : List ActivityEntry :=
  let orderMap := (assocLookup summary.objectiveActivityOrder oid).getD []
  let inSummary :=
    (List.insertionSort (activityOrderLE orderMap) entries).filter
      (fun a => (orderMap.map Prod.fst).contains a.activity_id)
  let fallback :=
    List.insertionSort activityLabelIdLE
      (entries.filter
        (fun a => ¬ (orderMap.map Prod.fst).contains a.activity_id))
  inSummary ++ fallback

/-- Enumeration helper carrying the next index. -/
def enumFromAux {α : Type _} : ℕ → List α → List (ℕ × α)
  | _, [] => []
  | n, a :: rest => (n, a) :: enumFromAux (n + 1) rest

/-- Enumeration from one, as Python `enumerate(..., start=1)`. -/
def enumFrom1 {α : Type _} (l : List α) : List (ℕ × α) :=
  enumFromAux 1 l

/-- The disambiguated display label of one objective: the base label, or the
base label with a short-id suffix when several objectives share it. -/
def objectiveRowLabel (labelCounts : List (String × ℕ)) (oid base : String) :
    String :=
  if (assocLookup labelCounts base).getD 0 ≤ 1 then base
  else base ++ " (" ++ String.mk (oid.toList.take 8) ++ ")"

/-- The record-assembly loop of `build_objective_activity_cells`: ordered
objectives, ordered activities, one-based column indices, label
disambiguation and cell formatting. -/
def assembleCells (module_code metric : String) (summary : SummaryMaps)
    (aggregated : List AggregatedCellRow) : List CellRow :=
  let perObj := perObjectiveEntries metric summary aggregated
  let ordered := orderedObjectiveIds summary perObj
  let baseLabels :=
    ordered.map (fun oid =>
      (oid,
        safeLabel
          (Option.some (((perObj.find? (fun t => t.1 = oid)).map
              (fun t => t.2.1)).getD ""))
          (Option.some oid)))
  let labelCounts :=
    (firstDedup (baseLabels.map Prod.snd)).map (fun l =>
      (l, (baseLabels.filter (fun p => p.2 = l)).length))
  (ordered.map (fun oid =>
    let base := (assocLookup baseLabels oid).getD ""
    let rowLabel := objectiveRowLabel labelCounts oid base
    let entries :=
      ((perObj.find? (fun t => t.1 = oid)).map (fun t => t.2.2)).getD []
    (enumFrom1 (orderedActivities summary oid entries)).map (fun ia =>
      { module_code := module_code
        objective_id := oid
        objective_label := base
        objective_row_label := rowLabel
        activity_id := ia.2.activity_id
        activity_label :=
          safeLabel (Option.some ia.2.activity_label)
            (Option.some ia.2.activity_id)
        activity_col_idx := ia.1
        activity_col_label := "A" ++ toString ia.1
        metric_value := ia.2.metric_value
        metric_text := formatCellValue metric (Option.some ia.2.metric_value) }))).flatten

/-- Embeds `build_objective_activity_cells` from
`objective_activity_matrix.py`: metric validation, window filtering, the
three aggregation branches and record assembly.  Raised `ValueError`s become
`Except.error`; the typed row model makes the required-column checks
vacuous. -/
def buildObjectiveActivityCells (aggRows : List MatrixAggRow)
    (module_code : String) (d1 d2 : ℤ) (metric : String)
    (summary : SummaryMaps) (exRows : Option (List MatrixExRow))
    (factRows : Option (List FactRow)) : Except String (List CellRow) :=
  if ¬ (validMatrixMetrics.contains metric) then
    Except.error ("Unsupported metric " ++ metric)
  else if aggRows.filter (aggWindowPred module_code d1 d2) = [] then
    Except.ok []
  else if metric = "exercise_balanced_success_rate" then
    match exRows with
    | Option.none =>
        Except.error
          "Matrix metric exercise_balanced_success_rate requires agg_exercise_daily."
    | Option.some ex =>
        if ex.filter (exWindowPred module_code d1 d2) = [] then Except.ok []
        else
          Except.ok
            (assembleCells module_code metric summary
              (balancedAggregated (ex.filter (exWindowPred module_code d1 d2))))
  else if metric = "playlist_unique_exercises" then
    match factRows with
    | Option.none =>
        Except.error
          "Matrix metric playlist_unique_exercises requires fact_attempt_core."
    | Option.some fact =>
        Except.ok
          (assembleCells module_code metric summary
            (playlistAggregated module_code d1 d2 fact))
  else
    Except.ok
      (assembleCells module_code metric summary
        (genericAggregated (aggRows.filter (aggWindowPred module_code d1 d2))))

/-! ## Ragged matrix payload (`build_ragged_matrix_payload`) -/

/-- The dense payload produced by `build_ragged_matrix_payload`. -/
structure RaggedPayload where
  x_labels : List String
  y_labels : List String
  z_values : List (List (Option ℚ))
  text_values : List (List String)
  customdata : List (List (List String))
  objective_ids : List String
  max_activity_cols : ℕ
  deriving Repr

/-- Write one grid position (`grid[i][j] = v`). -/
def setGrid {α : Type _} (grid : List (List α)) (i j : ℕ) (v : α) :
    List (List α) :=
  grid.set i ((grid.getD i []).set j v)

/-- The customdata tuple of one cell (`or`-chains on the non-null string
columns keep the first non-empty value). -/
def cellCustomdata (c : CellRow) : List String :=
  [if c.objective_label ≠ "" then c.objective_label else c.objective_id,
    c.objective_id,
    if c.activity_label ≠ "" then c.activity_label else c.activity_id,
    c.activity_id,
    c.activity_col_label,
    c.metric_text]

/-- First index of an element in a list (the `objective_position` map). -/
def idxOfStr : List String → String → ℕ
  | [], _ => 0
  | y :: rest, x => if y = x then 0 else idxOfStr rest x + 1

theorem idxOfStr_lt_of_mem (l : List String) (x : String) (h : x ∈ l) :
    idxOfStr l x < l.length := by
  induction l with
  | nil => simp at h
  | cons y rest ih =>
      unfold idxOfStr
      by_cases hyx : y = x
      · simp [hyx]
      · simp only [hyx, if_false, List.length_cons]
        have hx : x ∈ rest := by
          rcases List.mem_cons.mp h with h1 | h1
          · exact absurd h1.symm hyx
          · exact h1
        exact Nat.succ_lt_succ (ih hx)

theorem getD_idxOfStr (l : List String) (x : String) (h : x ∈ l) :
    l.getD (idxOfStr l x) "" = x := by
  induction l with
  | nil => simp at h
  | cons y rest ih =>
      unfold idxOfStr
      by_cases hyx : y = x
      · simp [hyx]
      · simp only [hyx, if_false]
        have hx : x ∈ rest := by
          rcases List.mem_cons.mp h with h1 | h1
          · exact absurd h1.symm hyx
          · exact h1
        simpa using ih hx

/-- The distinct objective ids of a cells table, in first-occurrence order. -/
def raggedObjectiveIds (cells : List CellRow) : List String :=
  firstDedup (cells.map CellRow.objective_id)

/-- `max(activity_col_idx)` over a cells table. -/
def raggedMaxCols (cells : List CellRow) : ℕ :=
  (cells.map CellRow.activity_col_idx).foldl max 0

/-- The all-null initial grid. -/
def raggedZInit (cells : List CellRow) : List (List (Option ℚ)) :=
  (raggedObjectiveIds cells).map (fun _ =>
    (List.range (raggedMaxCols cells)).map (fun _ => (Option.none : Option ℚ)))

/-- The filled metric grid: one write per cell at
`(objective_position, activity_col_idx - 1)`. -/
def raggedZ (cells : List CellRow) : List (List (Option ℚ)) :=
  cells.foldl (fun acc c =>
    setGrid acc (idxOfStr (raggedObjectiveIds cells) c.objective_id)
      (c.activity_col_idx - 1) (Option.some c.metric_value)) (raggedZInit cells)

/-- The filled text grid. -/
def raggedText (cells : List CellRow) : List (List String) :=
  cells.foldl (fun acc c =>
    setGrid acc (idxOfStr (raggedObjectiveIds cells) c.objective_id)
      (c.activity_col_idx - 1) c.metric_text)
    ((raggedObjectiveIds cells).map (fun _ =>
      (List.range (raggedMaxCols cells)).map (fun _ => "")))

/-- The filled customdata grid. -/
def raggedCustomdata (cells : List CellRow) : List (List (List String)) :=
  cells.foldl (fun acc c =>
    setGrid acc (idxOfStr (raggedObjectiveIds cells) c.objective_id)
      (c.activity_col_idx - 1) (cellCustomdata c))
    ((raggedObjectiveIds cells).map (fun _ =>
      (List.range (raggedMaxCols cells)).map (fun _ =>
        ["", "", "", "", "", ""])))

/-- Embeds `build_ragged_matrix_payload` from `objective_activity_matrix.py`:
first-occurrence objective rows, a `len(objectives) × max(activity_col_idx)`
grid initialized to nulls, and one write per cell (the builder's cells always
carry a metric value, so the null-propagation branch of the source never
fires in this model). -/
def buildRaggedMatrixPayload (cells : List CellRow) : RaggedPayload :=
  if cells = [] then
    { x_labels := [], y_labels := [], z_values := [], text_values := []
      customdata := [], objective_ids := [], max_activity_cols := 0 }
  else
    { x_labels :=
        (List.range (raggedMaxCols cells)).map (fun i => "A" ++ toString (i + 1))
      y_labels :=
        (raggedObjectiveIds cells).map (fun oid =>
          (((cells.find? (fun c => c.objective_id = oid)).map
              CellRow.objective_row_label)).getD "")
      z_values := raggedZ cells
      text_values := raggedText cells
      customdata := raggedCustomdata cells
      objective_ids := raggedObjectiveIds cells
      max_activity_cols := raggedMaxCols cells }

/-- `setGrid` keeps the outer length. -/
theorem setGrid_length {α : Type _} (grid : List (List α)) (i j : ℕ) (v : α) :
    (setGrid grid i j v).length = grid.length := by
  simp [setGrid]

/-- Rows of a `setGrid` result are rows of the input or the updated row. -/
theorem setGrid_row_mem {α : Type _} (grid : List (List α)) (i j : ℕ) (v : α)
    (row : List α) (h : row ∈ setGrid grid i j v) :
    row ∈ grid ∨ row = ((grid.getD i []).set j v) :=
  List.mem_or_eq_of_mem_set h

/-- `List.getD` after `List.set` at a different index. -/
theorem getD_set_ne {α : Type _} (l : List α) (n m : ℕ) (a d : α)
    (h : n ≠ m) : (l.set n a).getD m d = l.getD m d := by
  rw [List.getD_eq_getElem?_getD, List.getD_eq_getElem?_getD,
    List.getElem?_set_ne h]

/-- `List.getD` after an in-range `List.set` at the same index. -/
theorem getD_set_self {α : Type _} (l : List α) (n : ℕ) (a d : α)
    (h : n < l.length) : (l.set n a).getD n d = a := by
  rw [List.getD_eq_getElem?_getD, List.getElem?_set_self h]
  rfl

/-- A `setGrid` write at another position leaves a grid value unchanged. -/
theorem setGrid_getD_ne {α : Type _} (grid : List (List α)) (i j i2 j2 : ℕ)
    (v : α) (d : α) (h : i2 ≠ i ∨ j2 ≠ j) :
    (((setGrid grid i2 j2 v).getD i []).getD j d) =
      ((grid.getD i []).getD j d) := by
  unfold setGrid
  rcases h with h | h
  · rw [getD_set_ne _ _ _ _ _ h]
  · rcases Nat.lt_or_ge i2 grid.length with hlt | hge
    · by_cases hii : i = i2
      · subst hii
        rw [getD_set_self _ _ _ _ hlt]
        rw [getD_set_ne _ _ _ _ _ h]
      · rw [getD_set_ne _ _ _ _ _ (fun he => hii he.symm)]
    · rw [List.set_eq_of_length_le (by omega)]

/-- A `foldl max` is at least its initial value. -/
theorem foldl_max_le_init (l : List ℕ) (a : ℕ) : a ≤ l.foldl max a := by
  induction l generalizing a with
  | nil => exact le_refl a
  | cons y rest ih => exact le_trans (le_max_left a y) (ih (max a y))

/-- Elements are bounded by a `foldl max`. -/
theorem le_foldl_max : ∀ (l : List ℕ) (a x : ℕ), x ∈ l → x ≤ l.foldl max a
  | [], _, _, hx => absurd hx (List.not_mem_nil _)
  | y :: rest, a, x, hx => by
      rcases List.mem_cons.mp hx with rfl | hx2
      · exact le_trans (le_max_right a x) (foldl_max_le_init rest (max a x))
      · exact le_foldl_max rest (max a y) x hx2


/-- A fold of `setGrid` writes preserves the outer grid length. -/
theorem foldl_setGrid_length {α β : Type _} (f g : β → ℕ) (val : β → α)
    (l : List β) (grid : List (List α)) :
    (l.foldl (fun acc b => setGrid acc (f b) (g b) (val b)) grid).length =
      grid.length := by
  induction l generalizing grid with
  | nil => rfl
  | cons b rest ih =>
      simp only [List.foldl_cons]
      rw [ih, setGrid_length]

/-- A fold of `setGrid` writes preserves a uniform row length. -/
theorem foldl_setGrid_row_length {α β : Type _} (f g : β → ℕ) (val : β → α)
    (l : List β) (grid : List (List α)) (M : ℕ)
    (h : ∀ row ∈ grid, row.length = M) :
    ∀ row ∈ l.foldl (fun acc b => setGrid acc (f b) (g b) (val b)) grid,
      row.length = M := by
  induction l generalizing grid with
  | nil => exact h
  | cons b rest ih =>
      simp only [List.foldl_cons]
      refine ih _ ?_
      intro row hrow
      rcases Nat.lt_or_ge (f b) grid.length with hlt | hge
      · rcases setGrid_row_mem _ _ _ _ _ hrow with hmem | heq
        · exact h row hmem
        · rw [heq, List.length_set]
          have hmem2 : grid.getD (f b) [] ∈ grid := by
            rw [List.getD_eq_getElem _ _ hlt]
            exact List.getElem_mem hlt
          exact h _ hmem2
      · have hsame : setGrid grid (f b) (g b) (val b) = grid := by
          unfold setGrid
          exact List.set_eq_of_length_le (by omega)
        rw [hsame] at hrow
        exact h row hrow

/-- A fold of `setGrid` writes that all avoid position `(i, j)` leaves that
position unchanged. -/
theorem foldl_setGrid_untouched {α β : Type _} (f g : β → ℕ) (val : β → α)
    (l : List β) (grid : List (List α)) (i j : ℕ) (d : α)
    (h : ∀ b ∈ l, ¬(f b = i ∧ g b = j)) :
    (((l.foldl (fun acc b => setGrid acc (f b) (g b) (val b)) grid).getD i
          []).getD j d) =
      ((grid.getD i []).getD j d) := by
  induction l generalizing grid with
  | nil => rfl
  | cons b rest ih =>
      simp only [List.foldl_cons]
      rw [ih _ (fun x hx => h x (List.mem_cons_of_mem b hx))]
      apply setGrid_getD_ne
      have hb := h b (List.mem_cons_self b rest)
      by_cases h1 : f b = i
      · right
        intro h2
        exact hb ⟨h1, h2⟩
      · left; exact h1


/-- Fixture for C9: objective `o1` with two activity columns, objective `o2`
with four. -/
def c9Cells : List CellRow :=
  let mk : String → String → ℕ → CellRow := fun oid aid idx =>
    { module_code := "M1"
      objective_id := oid
      objective_label := "Objective " ++ oid
      objective_row_label := "Objective " ++ oid
      activity_id := aid
      activity_label := "Activity " ++ aid
      activity_col_idx := idx
      activity_col_label := "A" ++ toString idx
      metric_value := 1
      metric_text := "100.0%" }
  [mk "o1" "a11" 1, mk "o1" "a12" 2,
    mk "o2" "a21" 1, mk "o2" "a22" 2, mk "o2" "a23" 3, mk "o2" "a24" 4]

/-- C9: the ragged payload of a non-empty cells table with one-based column
indices is a dense grid with one row per distinct objective, every row padded
to `max(activity_col_idx)`, and null (not zero) at every position not backed
by a cell; on the 2-plus-4-activity fixture both rows have length four and
the first row's columns three and four are null. -/
theorem ragged_payload_dense_grid_spec :
    (∀ cells : List CellRow, cells ≠ [] →
      (∀ c ∈ cells, 1 ≤ c.activity_col_idx) →
      ((buildRaggedMatrixPayload cells).z_values.length =
          (firstDedup (cells.map CellRow.objective_id)).length ∧
        (∀ row ∈ (buildRaggedMatrixPayload cells).z_values,
          row.length = (buildRaggedMatrixPayload cells).max_activity_cols) ∧
        (∀ c ∈ cells,
          c.activity_col_idx ≤
            (buildRaggedMatrixPayload cells).max_activity_cols) ∧
        (∀ i j : ℕ,
          i < (buildRaggedMatrixPayload cells).objective_ids.length →
          j < (buildRaggedMatrixPayload cells).max_activity_cols →
          (∀ c ∈ cells,
            ¬(c.objective_id =
                (buildRaggedMatrixPayload cells).objective_ids.getD i "" ∧
              c.activity_col_idx = j + 1)) →
          (((buildRaggedMatrixPayload cells).z_values.getD i []).getD j
              (Option.some 0)) = Option.none))) ∧
    ((buildRaggedMatrixPayload c9Cells).z_values.map List.length = [4, 4] ∧
      ((buildRaggedMatrixPayload c9Cells).z_values.getD 0 []).getD 2
          (Option.some 0) = Option.none ∧
      ((buildRaggedMatrixPayload c9Cells).z_values.getD 0 []).getD 3
          (Option.some 0) = Option.none) := by
  constructor
  · intro cells hne hcol
    have hout :
        buildRaggedMatrixPayload cells =
          { x_labels :=
              (List.range (raggedMaxCols cells)).map
                (fun i => "A" ++ toString (i + 1))
            y_labels :=
              (raggedObjectiveIds cells).map (fun oid =>
                (((cells.find? (fun c => c.objective_id = oid)).map
                    CellRow.objective_row_label)).getD "")
            z_values := raggedZ cells
            text_values := raggedText cells
            customdata := raggedCustomdata cells
            objective_ids := raggedObjectiveIds cells
            max_activity_cols := raggedMaxCols cells } := by
      unfold buildRaggedMatrixPayload
      rw [if_neg hne]
    rw [hout]
    refine ⟨?_, ?_, ?_, ?_⟩
    · show (raggedZ cells).length = _
      unfold raggedZ
      rw [foldl_setGrid_length]
      unfold raggedZInit raggedObjectiveIds
      rw [List.length_map]
    · intro row hrow
      show row.length = raggedMaxCols cells
      refine foldl_setGrid_row_length _ _ _ cells (raggedZInit cells)
        (raggedMaxCols cells) ?_ row hrow
      intro r0 hr0
      unfold raggedZInit at hr0
      obtain ⟨_, _, hr⟩ := List.mem_map.mp hr0
      rw [← hr, List.length_map, List.length_range]
    · intro c hc
      show c.activity_col_idx ≤ raggedMaxCols cells
      exact le_foldl_max _ 0 _ (List.mem_map_of_mem CellRow.activity_col_idx hc)
    · intro i j hi hj hnone
      have hi2 : i < (raggedObjectiveIds cells).length := hi
      have hj2 : j < raggedMaxCols cells := hj
      show ((raggedZ cells).getD i []).getD j (Option.some 0) = Option.none
      unfold raggedZ
      rw [foldl_setGrid_untouched]
      · have h1 :
            (raggedZInit cells).getD i [] =
              List.map (fun _ => (Option.none : Option ℚ))
                (List.range (raggedMaxCols cells)) := by
          unfold raggedZInit
          rw [List.getD_eq_getElem?_getD, List.getElem?_map,
            List.getElem?_eq_getElem hi2]
          rfl
        rw [h1, List.getD_eq_getElem?_getD, List.getElem?_map,
          List.getElem?_eq_getElem
            (show j < (List.range (raggedMaxCols cells)).length by
              simpa using hj2)]
        rfl
      · intro c hc
        rintro ⟨hidx, hcol2⟩
        have hmem : c.objective_id ∈ raggedObjectiveIds cells := by
          unfold raggedObjectiveIds
          rw [mem_firstDedup]
          exact List.mem_map_of_mem CellRow.objective_id hc
        have hlt := idxOfStr_lt_of_mem _ _ hmem
        have hgd : (raggedObjectiveIds cells).getD
            (idxOfStr (raggedObjectiveIds cells) c.objective_id) "" =
            c.objective_id := getD_idxOfStr _ _ hmem
        rw [hidx] at hgd
        have h1 := hcol c hc
        exact hnone c hc ⟨hgd.symm, by omega⟩
  · refine ⟨?_, by decide, by decide⟩
    decide


/-- Concrete instantiation of `ragged_payload_dense_grid_spec` on the C9
fixture. -/
theorem ragged_payload_dense_grid_spec_witness :
    (buildRaggedMatrixPayload c9Cells).z_values.length =
        (firstDedup (c9Cells.map CellRow.objective_id)).length ∧
      ∀ row ∈ (buildRaggedMatrixPayload c9Cells).z_values,
        row.length = (buildRaggedMatrixPayload c9Cells).max_activity_cols :=
  ⟨(ragged_payload_dense_grid_spec.1 c9Cells (by decide) (by decide)).1,
    (ragged_payload_dense_grid_spec.1 c9Cells (by decide) (by decide)).2.1⟩

/-! ## Membership chase through `build_objective_activity_cells` -/

/-- Elements of `enumFromAux` come from the underlying list. -/
theorem mem_of_mem_enumFromAux {α : Type _} :
    ∀ (n : ℕ) (l : List α) (p : ℕ × α), p ∈ enumFromAux n l → p.2 ∈ l := by
  intro n l
  induction l generalizing n with
  | nil => intro p hp; simp [enumFromAux] at hp
  | cons a rest ih =>
      intro p hp
      unfold enumFromAux at hp
      rcases List.mem_cons.mp hp with rfl | hp2
      · exact List.mem_cons_self a rest
      · exact List.mem_cons_of_mem a (ih (n + 1) p hp2)

/-- Elements of the ordered activity list come from the input entries. -/
theorem mem_of_mem_orderedActivities (summary : SummaryMaps) (oid : String)
    (entries : List ActivityEntry) (e : ActivityEntry)
    (h : e ∈ orderedActivities summary oid entries) : e ∈ entries := by
  unfold orderedActivities at h
  rcases List.mem_append.mp h with h2 | h2
  · exact (List.mem_insertionSort _).mp (List.mem_of_mem_filter h2)
  · exact List.mem_of_mem_filter ((List.mem_insertionSort _).mp h2)

/-- Any output cell of `assembleCells` carries the objective id, activity id
and metric value of some activity entry of `perObjectiveEntries`. -/
theorem mem_assembleCells (module metric : String) (summary : SummaryMaps)
    (aggregated : List AggregatedCellRow) (cell : CellRow)
    (h : cell ∈ assembleCells module metric summary aggregated) :
    ∃ oid lbl entries e,
      (oid, lbl, entries) ∈ perObjectiveEntries metric summary aggregated ∧
      e ∈ entries ∧ cell.objective_id = oid ∧
      cell.activity_id = e.activity_id ∧
      cell.metric_value = e.metric_value := by
  unfold assembleCells at h
  obtain ⟨sub, hsub, hcell⟩ := List.mem_flatten.mp h
  obtain ⟨oid, hoid, hsubeq⟩ := List.mem_map.mp hsub
  rw [← hsubeq] at hcell
  obtain ⟨ia, hia, hcelleq⟩ := List.mem_map.mp hcell
  have hmem := mem_of_mem_enumFromAux 1 _ ia hia
  have he := mem_of_mem_orderedActivities summary oid _ ia.2 hmem
  rcases hfind : (perObjectiveEntries metric summary aggregated).find?
      (fun t => t.1 = oid) with _ | t
  · rw [hfind] at he
    exact absurd he (List.not_mem_nil ia.2)
  · rw [hfind] at he
    simp only [Option.map_some', Option.getD_some] at he
    have ht := List.mem_of_find?_eq_some hfind
    have hkey := List.find?_some hfind
    simp only [decide_eq_true_eq] at hkey
    refine ⟨oid, t.2.1, t.2.2, ia.2, ?_, he, ?_, ?_, ?_⟩
    · rw [← hkey]
      exact ht
    · rw [← hcelleq]
    · rw [← hcelleq]
    · rw [← hcelleq]

/-- Any activity entry of `perObjectiveEntries` comes from a valid triple of
its objective. -/
theorem mem_perObjectiveEntries (metric : String) (summary : SummaryMaps)
    (aggregated : List AggregatedCellRow) (oid lbl : String)
    (entries : List ActivityEntry) (e : ActivityEntry)
    (h : (oid, lbl, entries) ∈ perObjectiveEntries metric summary aggregated)
    (he : e ∈ entries) :
    ∃ t ∈ validCellTriples metric summary aggregated,
      t.1 = oid ∧ t.2.2 = e := by
  unfold perObjectiveEntries at h
  obtain ⟨oid2, _, heq⟩ := List.mem_map.mp h
  have h1 : oid2 = oid := congrArg Prod.fst heq
  have h3 : ((validCellTriples metric summary aggregated).filter
      (fun t => t.1 = oid2)).map (fun t => t.2.2) = entries := by
    have := congrArg Prod.snd heq
    simpa using congrArg Prod.snd this
  rw [← h3] at he
  obtain ⟨t, ht, hte⟩ := List.mem_map.mp he
  refine ⟨t, List.mem_of_mem_filter ht, ?_, hte⟩
  have := List.of_mem_filter ht
  simp only [decide_eq_true_eq] at this
  rw [this, h1]

/-- Any valid triple comes from an aggregated row whose metric value is
defined, with stripped non-empty ids. -/
theorem mem_validCellTriples (metric : String) (summary : SummaryMaps)
    (aggregated : List AggregatedCellRow)
    (t : String × String × ActivityEntry)
    (h : t ∈ validCellTriples metric summary aggregated) :
    ∃ row ∈ aggregated,
      t.1 = pyStrip (row.objective_id.getD "") ∧
      t.2.2.activity_id = pyStrip (row.activity_id.getD "") ∧
      metricValueForRow metric row = Option.some t.2.2.metric_value ∧
      t.1 ≠ "" ∧ t.2.2.activity_id ≠ "" := by
  unfold validCellTriples at h
  obtain ⟨row, hrow, hsome⟩ := List.mem_filterMap.mp h
  by_cases hempty :
      pyStrip (row.objective_id.getD "") = "" ∨
        pyStrip (row.activity_id.getD "") = ""
  · rw [if_pos hempty] at hsome
    simp at hsome
  · rw [if_neg hempty] at hsome
    push_neg at hempty
    rcases hmv : metricValueForRow metric row with _ | v
    · rw [hmv] at hsome
      simp at hsome
    · rw [hmv] at hsome
      simp only [Option.some.injEq] at hsome
      refine ⟨row, hrow, ?_, ?_, ?_, ?_, ?_⟩
      · rw [← hsome]
      · rw [← hsome]
      · rw [hmv, ← hsome]
      · rw [← hsome]; exact hempty.1
      · rw [← hsome]; exact hempty.2


/-! ## C6: weighted cell values of the generic metrics -/

/-- Real aggregate rows carry trimmed, non-empty objective and activity
ids. -/
def wellKeyedAgg (rows : List MatrixAggRow) : Prop :=
  ∀ r ∈ rows,
    (∃ s, r.objective_id = Option.some s ∧ pyStrip s = s ∧ s ≠ "") ∧
    (∃ s, r.activity_id = Option.some s ∧ pyStrip s = s ∧ s ≠ "")

/-- The source rows of one `(objective, activity)` cell inside the
module/date window. -/
def aggWindowRowsFor (aggRows : List MatrixAggRow) (module_code : String)
    (d1 d2 : ℤ) (oid aid : String) : List MatrixAggRow :=
  aggRows.filter (fun r =>
    aggWindowPred module_code d1 d2 r = true ∧
      r.objective_id = Option.some oid ∧ r.activity_id = Option.some aid)

/-- Follows the spec's words for the `success_rate` and
`repeat_attempt_rate` cells: `sum(rate × attempts) / sum(attempts)`, and
exactly `0.0` when the summed attempts are zero. -/
def specAttemptsWeightedRate (rate : MatrixAggRow → ℚ)
    (rows : List MatrixAggRow) : ℚ :=
  if ((rows.map MatrixAggRow.attempts).sum : ℚ) = 0 then 0
  else
    (rows.map (fun r => rate r * (r.attempts : ℚ))).sum /
      ((rows.map MatrixAggRow.attempts).sum : ℚ)

/-- Follows the spec's words for the `first_attempt_success_rate` cells:
weighted by `first_attempt_count` instead of attempts (a null daily rate
contributes nothing), and exactly `0.0` when the summed first-attempt count
is zero. -/
def specFirstAttemptWeightedRate (rows : List MatrixAggRow) : ℚ :=
  if ((rows.map MatrixAggRow.first_attempt_count).sum : ℚ) = 0 then 0
  else
    (rows.map (fun r =>
        match r.first_attempt_success_rate with
        | Option.some v => v * (r.first_attempt_count : ℚ)
        | Option.none => 0)).sum /
      ((rows.map MatrixAggRow.first_attempt_count).sum : ℚ)

/-- A null-skipping sum equals the sum with nulls as zero. -/
theorem sum_filterMap_id_opt (l : List (Option ℚ)) :
    (l.filterMap id).sum = (l.map (fun o => o.getD 0)).sum := by
  induction l with
  | nil => rfl
  | cons a rest ih => cases a <;> simp [List.filterMap_cons, ih]

/-- A null-skipping sum of optional products equals the sum with nulls as
zero. -/
theorem sum_filterMap_opt (g : List MatrixAggRow) :
    ((g.map (fun r =>
        r.first_attempt_success_rate.map
          (fun v => v * (r.first_attempt_count : ℚ)))).filterMap id).sum =
      (g.map (fun r =>
        match r.first_attempt_success_rate with
        | Option.some v => v * (r.first_attempt_count : ℚ)
        | Option.none => 0)).sum := by
  rw [sum_filterMap_id_opt, List.map_map]
  refine congrArg List.sum (List.map_congr_left ?_)
  intro r _
  cases hd : r.first_attempt_success_rate <;> simp [hd]

/-- Every cell of the generic-metric branch is the metric value of the
group of window rows matching its stripped ids. -/
theorem generic_branch_cell (aggRows : List MatrixAggRow)
    (module_code : String) (d1 d2 : ℤ) (summary : SummaryMaps)
    (metric : String) (cells : List CellRow)
    (hvalid : validMatrixMetrics.contains metric = true)
    (hne : metric ≠ "exercise_balanced_success_rate")
    (hnp : metric ≠ "playlist_unique_exercises")
    (hkeys : wellKeyedAgg aggRows)
    (hok : buildObjectiveActivityCells aggRows module_code d1 d2 metric
        summary Option.none Option.none = Except.ok cells)
    (cell : CellRow) (hcell : cell ∈ cells) :
    metricValueForRow metric
        (mkGenericAggRow
          (Option.some module_code, Option.some cell.objective_id,
            Option.some cell.activity_id)
          (aggWindowRowsFor aggRows module_code d1 d2 cell.objective_id
            cell.activity_id)) =
      Option.some cell.metric_value := by
  unfold buildObjectiveActivityCells at hok
  rw [if_neg (show ¬¬(validMatrixMetrics.contains metric = true) from
    fun hc => hc hvalid)] at hok
  by_cases hf : aggRows.filter (aggWindowPred module_code d1 d2) = []
  · rw [if_pos hf] at hok
    have : cells = [] := (Except.ok.injEq _ _).mp hok.symm
    rw [this] at hcell
    exact absurd hcell (List.not_mem_nil cell)
  · rw [if_neg hf, if_neg hne, if_neg hnp] at hok
    have hcells :
        cells =
          assembleCells module_code metric summary
            (genericAggregated
              (aggRows.filter (aggWindowPred module_code d1 d2))) :=
      ((Except.ok.injEq _ _).mp hok).symm
    rw [hcells] at hcell
    obtain ⟨oid, lbl, entries, e, hper, he, hcoid, hcaid, hcmv⟩ :=
      mem_assembleCells _ _ _ _ _ hcell
    obtain ⟨t, ht, htoid, hte⟩ :=
      mem_perObjectiveEntries _ _ _ _ _ _ _ hper he
    obtain ⟨row, hrow, h1, h2, h3, h4, h5⟩ := mem_validCellTriples _ _ _ _ ht
    obtain ⟨⟨k, g⟩, hkg, hmk⟩ := List.mem_map.mp hrow
    have hg : g = (aggRows.filter (aggWindowPred module_code d1 d2)).filter
        (fun r => (r.module_code, r.objective_id, r.activity_id) = k) :=
      groupByKey_mem _ _ k g hkg
    have hkmem : k ∈ firstDedup
        ((aggRows.filter (aggWindowPred module_code d1 d2)).map
          (fun r => (r.module_code, r.objective_id, r.activity_id))) := by
      obtain ⟨k2, hk2, heq2⟩ := List.mem_map.mp hkg
      have : k2 = k := congrArg Prod.fst heq2
      rw [← this]; exact hk2
    obtain ⟨r0, hr0, hkey0⟩ :=
      List.mem_map.mp ((mem_firstDedup _ _).mp hkmem)
    have hr0agg : r0 ∈ aggRows := List.mem_of_mem_filter hr0
    have hr0w : aggWindowPred module_code d1 d2 r0 = true :=
      List.of_mem_filter hr0
    have hr0mc : r0.module_code = Option.some module_code := by
      unfold aggWindowPred at hr0w
      simpa using (of_decide_eq_true hr0w).1
    obtain ⟨⟨so, hso, hsos, hsone⟩, ⟨sa, hsa, hsas, hsane⟩⟩ := hkeys r0 hr0agg
    have hk1 : k.1 = Option.some module_code := by
      rw [← hkey0]; exact hr0mc
    have hk2 : k.2.1 = Option.some so := by rw [← hkey0]; exact hso
    have hk3 : k.2.2 = Option.some sa := by rw [← hkey0]; exact hsa
    have hrowoid : row.objective_id = Option.some so := by
      rw [← hmk]
      show k.2.1 = Option.some so
      exact hk2
    have hrowaid : row.activity_id = Option.some sa := by
      rw [← hmk]
      show k.2.2 = Option.some sa
      exact hk3
    have hcellso : cell.objective_id = so := by
      rw [hcoid, ← htoid, h1, hrowoid]
      simpa using hsos
    have hcellsa : cell.activity_id = sa := by
      rw [hcaid, ← hte, h2, hrowaid]
      simpa using hsas
    have hgw : g = aggWindowRowsFor aggRows module_code d1 d2 so sa := by
      rw [hg, List.filter_filter]
      unfold aggWindowRowsFor
      apply List.filter_congr
      intro r hr
      by_cases hp : aggWindowPred module_code d1 d2 r = true
      · have hmc : r.module_code = Option.some module_code := by
          unfold aggWindowPred at hp
          simpa using (of_decide_eq_true hp).1
        have hk : k =
            (Option.some module_code, Option.some so, Option.some sa) := by
          rw [Prod.ext_iff, Prod.ext_iff]
          exact ⟨hk1, hk2, hk3⟩
        rw [hk]
        by_cases ho : r.objective_id = Option.some so <;>
          by_cases ha : r.activity_id = Option.some sa <;>
            simp [hp, hmc, ho, ha, Prod.ext_iff]
      · have hp2 : aggWindowPred module_code d1 d2 r = false := by
          simpa using hp
        simp [hp2]
    have hmv : metricValueForRow metric row = Option.some cell.metric_value := by
      rw [h3, hcmv, hte]
    rw [hcellso, hcellsa, ← hgw]
    rw [show (Option.some module_code, Option.some so, Option.some sa) = k
      from by
        rw [Prod.ext_iff, Prod.ext_iff]
        exact ⟨hk1.symm, hk2.symm, hk3.symm⟩]
    rw [hmk]
    exact hmv


/-- C6: each generic-metric cell value equals the spec's weighted formula
over the source rows of its `(objective, activity)` pair in the module/date
window — `success_rate` and `repeat_attempt_rate` weighted by attempts with
zero-attempt cells yielding exactly `0.0`, and `first_attempt_success_rate`
weighted by `first_attempt_count` instead (for aggregate rows whose
first-attempt count is bounded by their attempts, as produced by the
aggregate builders). -/
theorem matrix_weighted_cell_values_spec :
    ∀ (aggRows : List MatrixAggRow) (module_code : String) (d1 d2 : ℤ)
      (summary : SummaryMaps) (cells : List CellRow),
      wellKeyedAgg aggRows →
      ((buildObjectiveActivityCells aggRows module_code d1 d2 "success_rate"
            summary Option.none Option.none = Except.ok cells →
        ∀ cell ∈ cells,
          cell.metric_value =
            specAttemptsWeightedRate MatrixAggRow.success_rate
              (aggWindowRowsFor aggRows module_code d1 d2 cell.objective_id
                cell.activity_id)) ∧
      (buildObjectiveActivityCells aggRows module_code d1 d2
            "repeat_attempt_rate" summary Option.none Option.none =
          Except.ok cells →
        ∀ cell ∈ cells,
          cell.metric_value =
            specAttemptsWeightedRate MatrixAggRow.repeat_attempt_rate
              (aggWindowRowsFor aggRows module_code d1 d2 cell.objective_id
                cell.activity_id)) ∧
      ((∀ r ∈ aggRows, r.first_attempt_count ≤ r.attempts) →
        buildObjectiveActivityCells aggRows module_code d1 d2
            "first_attempt_success_rate" summary Option.none Option.none =
          Except.ok cells →
        ∀ cell ∈ cells,
          cell.metric_value =
            specFirstAttemptWeightedRate
              (aggWindowRowsFor aggRows module_code d1 d2 cell.objective_id
                cell.activity_id))) := by
  intro aggRows module_code d1 d2 summary cells hkeys
  refine ⟨?_, ?_, ?_⟩
  · intro hok cell hcell
    have h := generic_branch_cell aggRows module_code d1 d2 summary
      "success_rate" cells (by decide) (by decide) (by decide) hkeys hok
      cell hcell
    unfold metricValueForRow at h
    rw [if_neg (by decide), if_neg (by decide), if_neg (by decide)] at h
    unfold mkGenericAggRow at h
    dsimp only [] at h
    unfold specAttemptsWeightedRate
    set G := aggWindowRowsFor aggRows module_code d1 d2 cell.objective_id
      cell.activity_id with hG
    by_cases hz : (((G.map MatrixAggRow.attempts).sum : ℕ) : ℚ) = 0
    · rw [if_pos hz]
      rw [if_pos (le_of_eq hz)] at h
      exact ((Option.some.injEq _ _).mp h).symm
    · rw [if_neg hz]
      have hpos : ¬ (((G.map MatrixAggRow.attempts).sum : ℕ) : ℚ) ≤ 0 := by
        intro hle
        exact hz (le_antisymm hle (by positivity))
      rw [if_neg hpos, if_pos rfl] at h
      exact ((Option.some.injEq _ _).mp h).symm
  · intro hok cell hcell
    have h := generic_branch_cell aggRows module_code d1 d2 summary
      "repeat_attempt_rate" cells (by decide) (by decide) (by decide) hkeys
      hok cell hcell
    unfold metricValueForRow at h
    rw [if_neg (by decide), if_neg (by decide), if_neg (by decide)] at h
    unfold mkGenericAggRow at h
    dsimp only [] at h
    unfold specAttemptsWeightedRate
    set G := aggWindowRowsFor aggRows module_code d1 d2 cell.objective_id
      cell.activity_id with hG
    by_cases hz : (((G.map MatrixAggRow.attempts).sum : ℕ) : ℚ) = 0
    · rw [if_pos hz]
      rw [if_pos (le_of_eq hz)] at h
      exact ((Option.some.injEq _ _).mp h).symm
    · rw [if_neg hz]
      have hpos : ¬ (((G.map MatrixAggRow.attempts).sum : ℕ) : ℚ) ≤ 0 := by
        intro hle
        exact hz (le_antisymm hle (by positivity))
      rw [if_neg hpos, if_neg (by decide), if_neg (by decide)] at h
      exact ((Option.some.injEq _ _).mp h).symm
  · intro hcnt hok cell hcell
    have h := generic_branch_cell aggRows module_code d1 d2 summary
      "first_attempt_success_rate" cells (by decide) (by decide) (by decide)
      hkeys hok cell hcell
    unfold metricValueForRow at h
    rw [if_neg (by decide), if_neg (by decide), if_neg (by decide)] at h
    unfold mkGenericAggRow at h
    dsimp only [] at h
    rw [sum_filterMap_opt] at h
    unfold specFirstAttemptWeightedRate
    set G := aggWindowRowsFor aggRows module_code d1 d2 cell.objective_id
      cell.activity_id with hG
    have hsub : ∀ r ∈ G, r ∈ aggRows := by
      intro r hr
      rw [hG] at hr
      exact List.mem_of_mem_filter hr
    by_cases hz : (((G.map MatrixAggRow.attempts).sum : ℕ) : ℚ) = 0
    · have hatt : (G.map MatrixAggRow.attempts).sum = 0 := by
        exact_mod_cast hz
      have hfac : (G.map MatrixAggRow.first_attempt_count).sum = 0 := by
        have hle : (G.map MatrixAggRow.first_attempt_count).sum ≤
            (G.map MatrixAggRow.attempts).sum := by
          apply List.sum_le_sum
          intro i hi
          exact hcnt i (hsub i hi)
        omega
      rw [if_pos (by exact_mod_cast hfac)]
      rw [if_pos (le_of_eq hz)] at h
      exact ((Option.some.injEq _ _).mp h).symm
    · have hpos : ¬ (((G.map MatrixAggRow.attempts).sum : ℕ) : ℚ) ≤ 0 := by
        intro hle
        exact hz (le_antisymm hle (by positivity))
      rw [if_neg hpos, if_neg (by decide), if_pos rfl] at h
      by_cases hfz :
          (((G.map MatrixAggRow.first_attempt_count).sum : ℕ) : ℚ) = 0
      · rw [if_pos hfz]
        rw [if_pos (le_of_eq hfz)] at h
        exact ((Option.some.injEq _ _).mp h).symm
      · rw [if_neg hfz]
        have hfpos :
            ¬ (((G.map MatrixAggRow.first_attempt_count).sum : ℕ) : ℚ) ≤ 0 := by
          intro hle
          exact hfz (le_antisymm hle (by positivity))
        rw [if_neg hfpos] at h
        exact ((Option.some.injEq _ _).mp h).symm


/-! ## C5: exercise-balanced success rate -/

/-- Two filters commute. -/
theorem filter_comm2 {α : Type _} (p q : α → Bool) (l : List α) :
    (l.filter q).filter p = (l.filter p).filter q := by
  rw [List.filter_filter, List.filter_filter]
  apply List.filter_congr
  intro a _
  exact Bool.and_comm (p a) (q a)

/-- `firstDedup` commutes with `filter`. -/
theorem firstDedup_filter {α : Type _} [DecidableEq α] (p : α → Bool)
    (l : List α) : (firstDedup l).filter p = firstDedup (l.filter p) := by
  induction l with
  | nil => rfl
  | cons a rest ih =>
      by_cases hp : p a = true
      · show (a :: (firstDedup rest).filter (fun x => x ≠ a)).filter p =
          firstDedup ((a :: rest).filter p)
        simp only [List.filter_cons, hp, if_true]
        show a :: ((firstDedup rest).filter (fun x => x ≠ a)).filter p =
          a :: (firstDedup (rest.filter p)).filter (fun x => x ≠ a)
        congr 1
        rw [filter_comm2, ih]
      · have hp2 : p a = false := by simpa using hp
        show (a :: (firstDedup rest).filter (fun x => x ≠ a)).filter p =
          firstDedup ((a :: rest).filter p)
        simp only [List.filter_cons, hp2, Bool.false_eq_true, if_false]
        rw [filter_comm2, ih]
        rw [List.filter_eq_self.mpr]
        intro b hb
        have hbp : p b = true :=
          List.of_mem_filter ((mem_firstDedup _ _).mp hb)
        by_cases hba : b = a
        · rw [hba] at hbp
          rw [hbp] at hp2
          exact absurd hp2 (by simp)
        · simpa using hba

/-- Deduplicating images: when two projections distinguish the same elements
of `l` and `h` translates one into the other, `firstDedup` of the images
correspond. -/
theorem firstDedup_map_congr {α β γ : Type _} [DecidableEq β] [DecidableEq γ]
    (f : α → β) (g : α → γ) (h : β → γ) :
    ∀ (l : List α), (∀ x ∈ l, h (f x) = g x) →
      (∀ x ∈ l, ∀ y ∈ l, (f x = f y ↔ g x = g y)) →
      (firstDedup (l.map f)).map h = firstDedup (l.map g)
  | [], _, _ => rfl
  | a :: l, hh, hinj => by
      simp only [List.map_cons, firstDedup, List.map_cons]
      congr 1
      · exact hh a (List.mem_cons_self a l)
      · have hcong :
            (firstDedup (l.map f)).filter (fun b => b ≠ f a) =
              (firstDedup (l.map f)).filter (fun b => h b ≠ g a) := by
          apply List.filter_congr
          intro b hb
          obtain ⟨x, hx, hbx⟩ :=
            List.mem_map.mp ((mem_firstDedup _ _).mp hb)
          have hxa := hinj x (List.mem_cons_of_mem a hx) a
            (List.mem_cons_self a l)
          rw [← hbx]
          have hhb : h (f x) = g x := hh x (List.mem_cons_of_mem a hx)
          rw [hhb]
          by_cases hfx : f x = f a
          · have hgx : g x = g a := hxa.mp hfx
            simp [hfx, hgx]
          · have hgx : ¬ (g x = g a) := fun hg => hfx (hxa.mpr hg)
            simp [hfx, hgx]
        rw [hcong]
        have hfm :
            ((firstDedup (l.map f)).filter (fun b => h b ≠ g a)).map h =
              ((firstDedup (l.map f)).map h).filter (fun c => c ≠ g a) := by
          rw [List.filter_map]
          rfl
        rw [hfm]
        rw [firstDedup_map_congr f g h l
          (fun x hx => hh x (List.mem_cons_of_mem a hx))
          (fun x hx y hy =>
            hinj x (List.mem_cons_of_mem a hx) y (List.mem_cons_of_mem a hy))]


/-- Composed membership chase: every output cell of `assembleCells` carries
the stripped ids and the metric value of some aggregated row. -/
theorem assembleCells_value (module_code metric : String)
    (summary : SummaryMaps) (aggregated : List AggregatedCellRow)
    (cell : CellRow) (h : cell ∈ assembleCells module_code metric summary aggregated) :
    ∃ row ∈ aggregated,
      metricValueForRow metric row = Option.some cell.metric_value ∧
      cell.objective_id = pyStrip (row.objective_id.getD "") ∧
      cell.activity_id = pyStrip (row.activity_id.getD "") := by
  obtain ⟨oid, lbl, entries, e, hper, he, hcoid, hcaid, hcmv⟩ :=
    mem_assembleCells _ _ _ _ _ h
  obtain ⟨t, ht, htoid, hte⟩ := mem_perObjectiveEntries _ _ _ _ _ _ _ hper he
  obtain ⟨row, hrow, h1, h2, h3, _, _⟩ := mem_validCellTriples _ _ _ _ ht
  refine ⟨row, hrow, ?_, ?_, ?_⟩
  · rw [h3, hcmv, hte]
  · rw [hcoid, ← htoid, h1]
  · rw [hcaid, ← hte, h2]

/-- Real exercise-daily rows carry trimmed, non-empty objective and activity
ids. -/
def wellKeyedEx (rows : List MatrixExRow) : Prop :=
  ∀ r ∈ rows,
    (∃ s, r.objective_id = Option.some s ∧ pyStrip s = s ∧ s ≠ "") ∧
    (∃ s, r.activity_id = Option.some s ∧ pyStrip s = s ∧ s ≠ "")

/-- The exercise-daily source rows of one `(objective, activity)` cell inside
the module/date window. -/
def exWindowRowsFor (exRows : List MatrixExRow) (module_code : String)
    (d1 d2 : ℤ) (oid aid : String) : List MatrixExRow :=
  exRows.filter (fun r =>
    exWindowPred module_code d1 d2 r = true ∧
      r.objective_id = Option.some oid ∧ r.activity_id = Option.some aid)

/-- The attempts-weighted success rate of the rows of one exercise. -/
def specPerExerciseRate (sub : List MatrixExRow) (e : Option String) : ℚ :=
  ((sub.filter (fun r => r.exercise_id = e)).map
      (fun r => r.success_rate * (r.attempts : ℚ))).sum /
    (((sub.filter (fun r => r.exercise_id = e)).map
        MatrixExRow.attempts).sum : ℚ)

/-- Follows the spec's words for `exercise_balanced_success_rate`: collapse
each exercise of the `(objective, activity)` pair to its attempts-weighted
success rate over the window, then take the unweighted arithmetic mean over
the distinct exercises. -/
def specExerciseBalancedRate (exRows : List MatrixExRow)
    (module_code : String) (d1 d2 : ℤ) (oid aid : String) : ℚ :=
  ((firstDedup ((exWindowRowsFor exRows module_code d1 d2 oid aid).map
        MatrixExRow.exercise_id)).map
      (specPerExerciseRate (exWindowRowsFor exRows module_code d1 d2 oid aid))).sum /
    ((firstDedup ((exWindowRowsFor exRows module_code d1 d2 oid aid).map
        MatrixExRow.exercise_id)).length : ℚ)

/-- Follows the spec's words for the attempts-weighted success rate over
exercise-daily rows: `sum(rate × attempts) / sum(attempts)`. -/
def specExAttemptsWeightedRate (rows : List MatrixExRow) : ℚ :=
  (rows.map (fun r => r.success_rate * (r.attempts : ℚ))).sum /
    ((rows.map MatrixExRow.attempts).sum : ℚ)


/-- Filtering a mapped `groupByKey` by a projection of the key keeps exactly
the groups of the matching rows. -/
theorem groupByKey_map_filter {α β κ1 κ2 : Type _} [DecidableEq κ1]
    [DecidableEq κ2] (key : α → κ1) (mk : κ1 × List α → β) (key2 : β → κ2)
    (proj : κ1 → κ2) (hcompat : ∀ kg : κ1 × List α, key2 (mk kg) = proj kg.1)
    (rows : List α) (k2 : κ2) :
    ((groupByKey key rows).map mk).filter (fun s => key2 s = k2) =
      (firstDedup ((rows.filter (fun r => proj (key r) = k2)).map key)).map
        (fun k => mk (k, rows.filter (fun r => key r = k))) := by
  unfold groupByKey
  rw [List.map_map, List.filter_map]
  rw [List.filter_congr (fun k _ => by
    show decide (key2 (mk (k, rows.filter (fun r => key r = k))) = k2) =
      decide (proj k = k2)
    rw [hcompat])]
  rw [firstDedup_filter, List.filter_map]
  rfl

/-- Structure of one `balancedAggregated` output row: its ids come from a
key realized by some filtered row, and its balanced value is the
null-skipping mean of the per-exercise stage rates of the key's distinct
exercise groups. -/
theorem balancedAggregated_row (exF : List MatrixExRow)
    (row : AggregatedCellRow) (h : row ∈ balancedAggregated exF) :
    ∃ k2 : Option String × Option String × Option String,
      row.objective_id = k2.2.1 ∧ row.activity_id = k2.2.2 ∧
      (∃ r0 ∈ exF, (r0.module_code, r0.objective_id, r0.activity_id) = k2) ∧
      row.exercise_balanced =
        meanOpt
          ((firstDedup
              ((exF.filter (fun r =>
                  (r.module_code, r.objective_id, r.activity_id) = k2)).map
                (fun r : MatrixExRow =>
                  (r.module_code, r.objective_id, r.activity_id,
                    r.exercise_id)))).map
            (fun k =>
              (mkExerciseStageRow k
                  (exF.filter (fun r =>
                    (r.module_code, r.objective_id, r.activity_id,
                      r.exercise_id) = k))).exercise_success_rate)) := by
  unfold balancedAggregated at h
  obtain ⟨⟨k2, g2⟩, hkg, hmk⟩ := List.mem_map.mp h
  refine ⟨k2, ?_, ?_, ?_, ?_⟩
  · rw [← hmk]
  · rw [← hmk]
  · have hkmem : k2 ∈ firstDedup
        ((((groupByKey
              (fun r : MatrixExRow =>
                (r.module_code, r.objective_id, r.activity_id, r.exercise_id))
              exF).map (fun kg => mkExerciseStageRow kg.1 kg.2))).map
          (fun s : ExerciseStageRow =>
            (s.module_code, s.objective_id, s.activity_id))) := by
      obtain ⟨k0, hk0, heq0⟩ := List.mem_map.mp hkg
      have : k0 = k2 := congrArg Prod.fst heq0
      rw [← this]
      exact hk0
    obtain ⟨s0, hs0, hkey0⟩ :=
      List.mem_map.mp ((mem_firstDedup _ _).mp hkmem)
    obtain ⟨kg1, hkg1, hmk1⟩ := List.mem_map.mp hs0
    have hk1mem : kg1.1 ∈ firstDedup (exF.map
        (fun r : MatrixExRow =>
          (r.module_code, r.objective_id, r.activity_id, r.exercise_id))) := by
      obtain ⟨k1, hk1, heq1⟩ := List.mem_map.mp hkg1
      have : k1 = kg1.1 := congrArg Prod.fst heq1
      rw [← this]
      exact hk1
    obtain ⟨r0, hr0, hkey1⟩ :=
      List.mem_map.mp ((mem_firstDedup _ _).mp hk1mem)
    refine ⟨r0, hr0, ?_⟩
    have hkey0b : (kg1.1.1, kg1.1.2.1, kg1.1.2.2.1) = k2 := by
      rw [← hmk1] at hkey0
      exact hkey0
    rw [← hkey0b, ← hkey1]
  · rw [← hmk]
    show meanOpt (g2.map ExerciseStageRow.exercise_success_rate) = _
    have hg2 : g2 = (((groupByKey
          (fun r : MatrixExRow =>
            (r.module_code, r.objective_id, r.activity_id, r.exercise_id))
          exF).map (fun kg => mkExerciseStageRow kg.1 kg.2))).filter
        (fun s : ExerciseStageRow =>
          (s.module_code, s.objective_id, s.activity_id) = k2) :=
      groupByKey_mem _ _ k2 g2 hkg
    rw [hg2]
    rw [groupByKey_map_filter
      (fun r : MatrixExRow =>
        (r.module_code, r.objective_id, r.activity_id, r.exercise_id))
      (fun kg => mkExerciseStageRow kg.1 kg.2)
      (fun s : ExerciseStageRow =>
        (s.module_code, s.objective_id, s.activity_id))
      (fun k => (k.1, k.2.1, k.2.2.1)) (fun kg => rfl) exF k2]
    rw [List.map_map]
    rfl


/-- `meanOpt` of an all-defined column is the plain arithmetic mean. -/
theorem meanOpt_map_some {κ : Type _} (f : κ → ℚ) (l : List κ) :
    meanOpt (l.map (fun k => Option.some (f k))) =
      if l.length = 0 then Option.none
      else Option.some ((l.map f).sum / (l.length : ℚ)) := by
  unfold meanOpt
  have hfm : (l.map (fun k => Option.some (f k))).filterMap id = l.map f := by
    induction l with
    | nil => rfl
    | cons a rest ih => simp [List.filterMap_cons, ih]
  rw [hfm]
  dsimp only []
  rw [List.length_map]

/-- The core of C5: every cell of the `exercise_balanced_success_rate`
branch equals the unweighted mean of the per-exercise attempts-weighted
rates of its `(objective, activity)` pair. -/
theorem exercise_balanced_cell (aggRows : List MatrixAggRow)
    (exRows : List MatrixExRow) (module_code : String) (d1 d2 : ℤ)
    (summary : SummaryMaps) (cells : List CellRow)
    (hkeys : wellKeyedEx exRows)
    (hpos : ∀ r ∈ exRows, 0 < r.attempts)
    (hok : buildObjectiveActivityCells aggRows module_code d1 d2
        "exercise_balanced_success_rate" summary (Option.some exRows)
        Option.none = Except.ok cells)
    (cell : CellRow) (hcell : cell ∈ cells) :
    cell.metric_value =
      specExerciseBalancedRate exRows module_code d1 d2 cell.objective_id
        cell.activity_id := by
  unfold buildObjectiveActivityCells at hok
  rw [if_neg (by decide : ¬¬(validMatrixMetrics.contains
    "exercise_balanced_success_rate" = true))] at hok
  by_cases hf : aggRows.filter
      (aggWindowPred module_code d1 d2) = []
  · rw [if_pos hf] at hok
    have : cells = [] := (Except.ok.injEq _ _).mp hok.symm
    rw [this] at hcell
    exact absurd hcell (List.not_mem_nil cell)
  · rw [if_neg hf, if_pos rfl] at hok
    dsimp only [] at hok
    by_cases hfe : exRows.filter (exWindowPred module_code d1 d2) = []
    · rw [if_pos hfe] at hok
      have : cells = [] := (Except.ok.injEq _ _).mp hok.symm
      rw [this] at hcell
      exact absurd hcell (List.not_mem_nil cell)
    · rw [if_neg hfe] at hok
      have hcells : cells = assembleCells module_code
          "exercise_balanced_success_rate" summary
          (balancedAggregated
            (exRows.filter (exWindowPred module_code d1 d2))) :=
        ((Except.ok.injEq _ _).mp hok).symm
      rw [hcells] at hcell
      obtain ⟨row, hrow, hmv, hcoid, hcaid⟩ :=
        assembleCells_value _ _ _ _ _ hcell
      unfold metricValueForRow at hmv
      rw [if_pos rfl] at hmv
      obtain ⟨k2, hro, hra, ⟨r0, hr0, hk2⟩, hbal⟩ :=
        balancedAggregated_row _ _ hrow
      have hr0ex : r0 ∈ exRows := List.mem_of_mem_filter hr0
      have hr0w : exWindowPred module_code d1 d2 r0 = true :=
        List.of_mem_filter hr0
      have hr0mc : r0.module_code = Option.some module_code := by
        unfold exWindowPred at hr0w
        simpa using (of_decide_eq_true hr0w).1
      obtain ⟨⟨so, hso, hsos, hsone⟩, ⟨sa, hsa, hsas, hsane⟩⟩ :=
        hkeys r0 hr0ex
      have hk2v : k2 = (Option.some module_code, Option.some so,
          Option.some sa) := by
        rw [← hk2, hr0mc, hso, hsa]
      have hcellso : cell.objective_id = so := by
        rw [hcoid, hro, hk2v]
        simpa using hsos
      have hcellsa : cell.activity_id = sa := by
        rw [hcaid, hra, hk2v]
        simpa using hsas
      -- the filtered subset of this cell
      have hsubF :
          (exRows.filter (exWindowPred module_code d1 d2)).filter
              (fun r =>
                (r.module_code, r.objective_id, r.activity_id) = k2) =
            exWindowRowsFor exRows module_code d1 d2 so sa := by
        rw [List.filter_filter]
        unfold exWindowRowsFor
        apply List.filter_congr
        intro r hr
        by_cases hp : exWindowPred module_code d1 d2 r = true
        · have hmc : r.module_code = Option.some module_code := by
            unfold exWindowPred at hp
            simpa using (of_decide_eq_true hp).1
          rw [hk2v]
          by_cases ho : r.objective_id = Option.some so <;>
            by_cases ha : r.activity_id = Option.some sa <;>
              simp [hp, hmc, ho, ha, Prod.ext_iff]
        · have hp2 : exWindowPred module_code d1 d2 r = false := by
            simpa using hp
          simp [hp2]
      set sub := exWindowRowsFor exRows module_code d1 d2 so sa with hsubdef
      have hsubw : ∀ r ∈ sub, exWindowPred module_code d1 d2 r = true ∧
          r.objective_id = Option.some so ∧
          r.activity_id = Option.some sa := by
        intro r hr
        rw [hsubdef] at hr
        have := List.of_mem_filter hr
        exact of_decide_eq_true this
      have hsubmem : ∀ r ∈ sub, r ∈ exRows := by
        intro r hr
        rw [hsubdef] at hr
        exact List.mem_of_mem_filter hr
      have hsubmc : ∀ r ∈ sub, r.module_code = Option.some module_code := by
        intro r hr
        have hw := (hsubw r hr).1
        unfold exWindowPred at hw
        simpa using (of_decide_eq_true hw).1
      -- per-key group equals the per-exercise subset
      have hgroup : ∀ k ∈ firstDedup (sub.map (fun r : MatrixExRow =>
            (r.module_code, r.objective_id, r.activity_id, r.exercise_id))),
          (exRows.filter (exWindowPred module_code d1 d2)).filter
              (fun r =>
                (r.module_code, r.objective_id, r.activity_id,
                  r.exercise_id) = k) =
            sub.filter (fun r => r.exercise_id = k.2.2.2) := by
        intro k hk
        obtain ⟨r1, hr1, hkey1⟩ :=
          List.mem_map.mp ((mem_firstDedup _ _).mp hk)
        obtain ⟨hw1, ho1, ha1⟩ := hsubw r1 hr1
        have hmc1 := hsubmc r1 hr1
        rw [hsubdef]
        unfold exWindowRowsFor
        rw [List.filter_filter, List.filter_filter]
        apply List.filter_congr
        intro r hr
        by_cases hp : exWindowPred module_code d1 d2 r = true
        · have hmc : r.module_code = Option.some module_code := by
            unfold exWindowPred at hp
            simpa using (of_decide_eq_true hp).1
          rw [← hkey1, hmc1, ho1, ha1]
          by_cases ho : r.objective_id = Option.some so <;>
            by_cases ha : r.activity_id = Option.some sa <;>
              by_cases he : r.exercise_id = r1.exercise_id <;>
                simp [hp, hmc, ho, ha, he, Prod.ext_iff]
        · have hp2 : exWindowPred module_code d1 d2 r = false := by
            simpa using hp
          simp [hp2]
      -- every per-key stage rate is defined and equals the spec rate
      have hrate : ∀ k ∈ firstDedup (sub.map (fun r : MatrixExRow =>
            (r.module_code, r.objective_id, r.activity_id, r.exercise_id))),
          (mkExerciseStageRow k
              ((exRows.filter (exWindowPred module_code d1 d2)).filter
                (fun r =>
                  (r.module_code, r.objective_id, r.activity_id,
                    r.exercise_id) = k))).exercise_success_rate =
            Option.some (specPerExerciseRate sub k.2.2.2) := by
        intro k hk
        rw [hgroup k hk]
        obtain ⟨r1, hr1, hkey1⟩ :=
          List.mem_map.mp ((mem_firstDedup _ _).mp hk)
        have hr1g : r1 ∈ sub.filter
            (fun r => r.exercise_id = k.2.2.2) := by
          apply List.mem_filter.mpr
          refine ⟨hr1, ?_⟩
          rw [← hkey1]
          simp
        have hattpos : 0 < ((sub.filter
            (fun r => r.exercise_id = k.2.2.2)).map
              MatrixExRow.attempts).sum := by
          have h1 : r1.attempts ∈ (sub.filter
              (fun r => r.exercise_id = k.2.2.2)).map
                MatrixExRow.attempts :=
            List.mem_map_of_mem MatrixExRow.attempts hr1g
          have h2 := List.single_le_sum
            (fun x _ => Nat.zero_le x) _ h1
          have h3 := hpos r1 (hsubmem r1 (List.mem_of_mem_filter hr1g))
          omega
        unfold mkExerciseStageRow specPerExerciseRate
        dsimp only []
        rw [if_pos (by exact_mod_cast hattpos)]
      -- assemble: the balanced value is the plain mean over the distinct
      -- exercises of the cell
      rw [hsubF] at hbal
      have hbal2 : row.exercise_balanced =
          meanOpt
            ((firstDedup (sub.map (fun r : MatrixExRow =>
                (r.module_code, r.objective_id, r.activity_id,
                  r.exercise_id)))).map
              (fun k => Option.some (specPerExerciseRate sub k.2.2.2))) := by
        rw [hbal]
        congr 1
        apply List.map_congr_left
        intro k hk
        exact hrate k hk
      rw [meanOpt_map_some] at hbal2
      set K := firstDedup (sub.map (fun r : MatrixExRow =>
        (r.module_code, r.objective_id, r.activity_id, r.exercise_id)))
        with hKdef
      by_cases hK : K.length = 0
      · rw [if_pos hK] at hbal2
        rw [hbal2] at hmv
        exact absurd hmv (by simp)
      · rw [if_neg hK] at hbal2
        rw [hbal2] at hmv
        have hval :
            (K.map (fun k => specPerExerciseRate sub k.2.2.2)).sum /
                (K.length : ℚ) = cell.metric_value :=
          (Option.some.injEq _ _).mp hmv
        have hmapH : K.map (fun k :
              Option String × Option String × Option String × Option String =>
              k.2.2.2) =
            firstDedup (sub.map MatrixExRow.exercise_id) := by
          rw [hKdef]
          apply firstDedup_map_congr
          · intro r _
            rfl
          · intro x hx y hy
            constructor
            · intro hxy
              exact congrArg (fun k :
                Option String × Option String × Option String ×
                  Option String => k.2.2.2) hxy
            · intro hxy
              obtain ⟨_, hox, hax⟩ := hsubw x hx
              obtain ⟨_, hoy, hay⟩ := hsubw y hy
              have hmcx := hsubmc x hx
              have hmcy := hsubmc y hy
              simp only [Prod.ext_iff]
              exact ⟨by rw [hmcx, hmcy], by rw [hox, hoy],
                by rw [hax, hay], hxy⟩
        have hlen : K.length =
            (firstDedup (sub.map MatrixExRow.exercise_id)).length := by
          rw [← hmapH, List.length_map]
        have hsum :
            (K.map (fun k => specPerExerciseRate sub k.2.2.2)).sum =
              ((firstDedup (sub.map MatrixExRow.exercise_id)).map
                (specPerExerciseRate sub)).sum := by
          conv_rhs => rw [← hmapH]
          rw [List.map_map]
          rfl
        rw [hcellso, hcellsa]
        unfold specExerciseBalancedRate
        rw [← hsubdef, ← hval, hsum, hlen]


/-- An empty `_summary_maps` output. -/
def emptySummary : SummaryMaps :=
  { objectiveOrder := [], objectiveActivityOrder := [], objectiveLabel := []
    activityLabel := [] }

/-- First C5 fixture row: exercise `e1`, one failing attempt. -/
def c5r1 : MatrixExRow :=
  { date_utc := 1
    module_code := Option.some "M1"
    objective_id := Option.some "o1"
    objective_label := Option.some "Objective 1"
    activity_id := Option.some "a1"
    activity_label := Option.some "Activity 1"
    exercise_id := Option.some "e1"
    attempts := 1
    success_rate := 0 }

/-- Second C5 fixture row: exercise `e2`, three successful attempts. -/
def c5r2 : MatrixExRow :=
  { date_utc := 1
    module_code := Option.some "M1"
    objective_id := Option.some "o1"
    objective_label := Option.some "Objective 1"
    activity_id := Option.some "a1"
    activity_label := Option.some "Activity 1"
    exercise_id := Option.some "e2"
    attempts := 3
    success_rate := 1 }

/-- Fixture for C5: one activity with two exercises of different attempt
volumes. -/
def c5Ex : List MatrixExRow := [c5r1, c5r2]

/-- C5: the `exercise_balanced_success_rate` cell value is the per-exercise
attempts-weighted success rate collapsed over the window and then averaged
without weights across the distinct exercises of the activity; on the
two-exercise fixture with unequal volumes the balanced value `1/2` differs
from the attempts-weighted rate `3/4`. -/
theorem exercise_balanced_success_rate_spec :
    (∀ (aggRows : List MatrixAggRow) (exRows : List MatrixExRow)
        (module_code : String) (d1 d2 : ℤ) (summary : SummaryMaps)
        (cells : List CellRow),
      wellKeyedEx exRows → (∀ r ∈ exRows, 0 < r.attempts) →
      buildObjectiveActivityCells aggRows module_code d1 d2
          "exercise_balanced_success_rate" summary (Option.some exRows)
          Option.none = Except.ok cells →
      ∀ cell ∈ cells,
        cell.metric_value =
          specExerciseBalancedRate exRows module_code d1 d2
            cell.objective_id cell.activity_id) ∧
    (specExerciseBalancedRate c5Ex "M1" 1 2 "o1" "a1" = 1 / 2 ∧
      specExAttemptsWeightedRate (exWindowRowsFor c5Ex "M1" 1 2 "o1" "a1") =
        3 / 4 ∧
      specExerciseBalancedRate c5Ex "M1" 1 2 "o1" "a1" ≠
        specExAttemptsWeightedRate
          (exWindowRowsFor c5Ex "M1" 1 2 "o1" "a1")) := by
  constructor
  · intro aggRows exRows module_code d1 d2 summary cells hkeys hpos hok
      cell hcell
    exact exercise_balanced_cell aggRows exRows module_code d1 d2 summary
      cells hkeys hpos hok cell hcell
  · have hsub : exWindowRowsFor c5Ex "M1" 1 2 "o1" "a1" = c5Ex := by decide
    have hd : firstDedup (c5Ex.map MatrixExRow.exercise_id) =
        [Option.some "e1", Option.some "e2"] := by decide
    have hf1 : c5Ex.filter (fun r => r.exercise_id = Option.some "e1") =
        [c5r1] := by decide
    have hf2 : c5Ex.filter (fun r => r.exercise_id = Option.some "e2") =
        [c5r2] := by decide
    have hp1 : specPerExerciseRate c5Ex (Option.some "e1") = 0 := by
      unfold specPerExerciseRate
      rw [hf1]
      norm_num [c5r1]
    have hp2 : specPerExerciseRate c5Ex (Option.some "e2") = 1 := by
      unfold specPerExerciseRate
      rw [hf2]
      norm_num [c5r2]
    have h1 : specExerciseBalancedRate c5Ex "M1" 1 2 "o1" "a1" = 1 / 2 := by
      unfold specExerciseBalancedRate
      rw [hsub, hd]
      rw [List.map_cons, List.map_cons, List.map_nil]
      rw [hp1, hp2]
      norm_num
    have h2 : specExAttemptsWeightedRate
        (exWindowRowsFor c5Ex "M1" 1 2 "o1" "a1") = 3 / 4 := by
      rw [hsub]
      norm_num [specExAttemptsWeightedRate, c5Ex, c5r1, c5r2]
    refine ⟨h1, h2, ?_⟩
    rw [h1, h2]
    norm_num


/-- The C5 fixture is well-keyed. -/
theorem c5_wellKeyed : wellKeyedEx c5Ex := by
  intro r hr
  rcases List.mem_cons.mp hr with rfl | hr2
  · exact ⟨⟨"o1", rfl, by decide, by decide⟩,
      ⟨"a1", rfl, by decide, by decide⟩⟩
  · rcases List.mem_cons.mp hr2 with rfl | hr3
    · exact ⟨⟨"o1", rfl, by decide, by decide⟩,
        ⟨"a1", rfl, by decide, by decide⟩⟩
    · exact absurd hr3 (List.not_mem_nil r)

/-- The C5 fixture has positive attempt counts. -/
theorem c5_posAttempts : ∀ r ∈ c5Ex, 0 < r.attempts := by
  intro r hr
  rcases List.mem_cons.mp hr with rfl | hr2
  · decide
  · rcases List.mem_cons.mp hr2 with rfl | hr3
    · decide
    · exact absurd hr3 (List.not_mem_nil r)

/-- A minimal activity-daily row to pass the non-empty-window gate of the
balanced branch. -/
def c5AggGate : MatrixAggRow :=
  { date_utc := 1
    module_code := Option.some "M1"
    objective_id := Option.some "o1"
    objective_label := Option.some "Objective 1"
    activity_id := Option.some "a1"
    activity_label := Option.some "Activity 1"
    attempts := 4
    success_rate := 0
    repeat_attempt_rate := 0
    first_attempt_success_rate := Option.none
    first_attempt_count := 0 }

/-- The balanced-branch cells of the C5 fixture. -/
def c5CellsComputed : List CellRow :=
  assembleCells "M1" "exercise_balanced_success_rate" emptySummary
    (balancedAggregated (c5Ex.filter (exWindowPred "M1" 1 2)))

/-- The balanced branch on the C5 fixture succeeds with those cells. -/
theorem c5_hok :
    buildObjectiveActivityCells [c5AggGate] "M1" 1 2
        "exercise_balanced_success_rate" emptySummary (Option.some c5Ex)
        Option.none = Except.ok c5CellsComputed := by
  unfold buildObjectiveActivityCells
  rw [if_neg (by decide), if_neg (by decide), if_pos rfl]
  dsimp only []
  rw [if_neg (by decide)]
  rfl

/-- Concrete instantiation of `exercise_balanced_success_rate_spec` on the
C5 fixture. -/
theorem exercise_balanced_success_rate_spec_witness :
    c5CellsComputed.Forall (fun cell =>
      cell.metric_value =
        specExerciseBalancedRate c5Ex "M1" 1 2 cell.objective_id
          cell.activity_id) :=
  List.forall_iff_forall_mem.mpr
    (exercise_balanced_success_rate_spec.1 [c5AggGate] c5Ex "M1" 1 2
      emptySummary c5CellsComputed c5_wellKeyed c5_posAttempts c5_hok)

/-- First C6 fixture row. -/
def c6a1 : MatrixAggRow :=
  { date_utc := 1
    module_code := Option.some "M1"
    objective_id := Option.some "o1"
    objective_label := Option.some "Objective 1"
    activity_id := Option.some "a1"
    activity_label := Option.some "Activity 1"
    attempts := 10
    success_rate := 1 / 2
    repeat_attempt_rate := 1 / 5
    first_attempt_success_rate := Option.some (1 / 2)
    first_attempt_count := 4 }

/-- Second C6 fixture row. -/
def c6a2 : MatrixAggRow :=
  { date_utc := 2
    module_code := Option.some "M1"
    objective_id := Option.some "o1"
    objective_label := Option.some "Objective 1"
    activity_id := Option.some "a1"
    activity_label := Option.some "Activity 1"
    attempts := 30
    success_rate := 1
    repeat_attempt_rate := 2 / 5
    first_attempt_success_rate := Option.some 1
    first_attempt_count := 8 }

/-- Fixture for the C6 witness: two daily rows of the same activity. -/
def c6Agg : List MatrixAggRow := [c6a1, c6a2]

/-- The C6 fixture is well-keyed. -/
theorem c6_wellKeyed : wellKeyedAgg c6Agg := by
  intro r hr
  rcases List.mem_cons.mp hr with rfl | hr2
  · exact ⟨⟨"o1", rfl, by decide, by decide⟩,
      ⟨"a1", rfl, by decide, by decide⟩⟩
  · rcases List.mem_cons.mp hr2 with rfl | hr3
    · exact ⟨⟨"o1", rfl, by decide, by decide⟩,
        ⟨"a1", rfl, by decide, by decide⟩⟩
    · exact absurd hr3 (List.not_mem_nil r)

/-- The generic-branch cells of the C6 fixture. -/
def c6CellsComputed : List CellRow :=
  assembleCells "M1" "success_rate" emptySummary
    (genericAggregated (c6Agg.filter (aggWindowPred "M1" 1 2)))

/-- The generic branch on the C6 fixture succeeds with those cells. -/
theorem c6_hok :
    buildObjectiveActivityCells c6Agg "M1" 1 2 "success_rate" emptySummary
        Option.none Option.none = Except.ok c6CellsComputed := by
  unfold buildObjectiveActivityCells
  rw [if_neg (by decide), if_neg (by decide), if_neg (by decide),
    if_neg (by decide)]
  rfl

/-- Concrete instantiation of `matrix_weighted_cell_values_spec` on the C6
fixture. -/
theorem matrix_weighted_cell_values_spec_witness :
    c6CellsComputed.Forall (fun cell =>
      cell.metric_value =
        specAttemptsWeightedRate MatrixAggRow.success_rate
          (aggWindowRowsFor c6Agg "M1" 1 2 cell.objective_id
            cell.activity_id)) :=
  List.forall_iff_forall_mem.mpr
    ((matrix_weighted_cell_values_spec c6Agg "M1" 1 2 emptySummary
      c6CellsComputed c6_wellKeyed).1 c6_hok)


/-! ## Dependency-graph derivation

Shallow embedding of `_build_dependency_tables_from_rules_payload` from
`zpdes_dependencies.py` (the path taken once the module rule has been found:
the inputs below are the found module rule, the selected catalog module and
the global code/label maps).  Python dicts with string keys become assoc
lists with insert-or-replace preserving insertion order. -/

/-- A node row of `nodes_df`. -/
structure DepNode where
  module_code : String
  node_id : Option String
  node_code : String
  node_type : String
  label : String
  objective_code : Option String
  activity_index : Option Int
  init_open : Bool
  source_primary : String
  source_enrichment : String
  is_ghost : Bool
deriving DecidableEq

/-- An edge row of `edges_df`. -/
structure DepEdge where
  module_code : String
  edge_id : String
  edge_type : String
  from_node_code : String
  to_node_code : String
  threshold_type : String
  threshold_value : Option ℚ
  rule_text : String
  source_primary : String
  source_enrichment : String
  enrich_lvl : Option Int
  enrich_sr : Option ℚ
deriving DecidableEq

/-- The `edge_seen` dedup key of `_add_edge`. -/
structure EdgeKey where
  edge_type : String
  src : String
  dst : String
  threshold : Option ℚ
deriving DecidableEq

/-- A catalog activity entry (its `code`, `id` and `title` dict). -/
structure CatalogActivity where
  code : Option String
  id : Option String
  title_short : Option String
  title_long : Option String

/-- A catalog objective entry with its activities. -/
structure CatalogObjective where
  code : Option String
  id : Option String
  title_short : Option String
  title_long : Option String
  activities : List CatalogActivity

/-- A `node_rules` entry of the module rule (non-dict entries are dropped by
the caller; a non-dict `rules` payload is kept as-is and treated as empty). -/
structure NodeRule where
  code : Option String
  id : Option String
  type : Option String
  rules : PyVal

/-- The inputs of the builder once the module rule is found: `map_id_code`
items in insertion order, `node_rules`, the selected catalog module's
objectives (`none` when the module is absent from the catalog), the global
`code_to_id` map and the catalog `id -> label` index. -/
structure BuildInputs where
  mapIdCode : List (String × Option String)
  nodeRules : List NodeRule
  catalogObjectives : Option (List CatalogObjective)
  codeToIdGlobal : List (String × String)
  idToLabel : List (String × String)

/-- Python dict assignment `m[k] = v`: replace in place or append. -/
def dictInsert {α : Type _} (m : List (String × α)) (k : String) (v : α) :
    List (String × α) :=
  match m with
  | [] => [(k, v)]
  | p :: rest => if p.1 = k then (k, v) :: rest else p :: dictInsert rest k v

/-- Update the value stored at key `k` (used for `node_map[code]["init_open"]
= True`; keys are unique in the builder's maps). -/
def dictUpdate {α : Type _} (m : List (String × α)) (k : String) (f : α → α) :
    List (String × α) :=
  m.map (fun p => if p.1 = k then (p.1, f p.2) else p)

/-- `id_to_codes_local.setdefault(id_txt, []).append(code_txt)` over the
`map_id_code` items, skipping blank codes or ids. -/
def assocAppend (m : List (String × List String)) (k v : String) :
    List (String × List String) :=
  match m with
  | [] => [(k, [v])]
  | p :: rest =>
      if p.1 = k then (p.1, p.2 ++ [v]) :: rest else p :: assocAppend rest k v

/-- Builds `id_to_codes_local` from the `map_id_code` items. -/
def idToCodesLocal (mapIdCode : List (String × Option String)) :
    List (String × List String) :=
  mapIdCode.foldl
    (fun acc p =>
      let code_txt := cleanStr p.1
      let id_txt := cleanStrO p.2
      if code_txt = "" ∨ id_txt = "" then acc else assocAppend acc id_txt code_txt)
    []

/-- Embeds `_resolve_code_from_id`. -/
def resolveCodeFromId (m : List (String × List String)) (identifier : String) :
    String :=
  let ident := cleanStr identifier
  if ident = "" then ""
  else (preferredCodeFromList ((assocLookup m ident).getD [])).getD ""

/-- Python `str(value)` for values reaching `_clean_str` through
`_resolve_code_from_id`.  Strings render as themselves; `None` is mapped to
the empty text that `_clean_str(None)` produces; integer numbers render in
decimal.  Fractional and container renderings are abbreviated: the pipeline
only ever compares the result against cleaned code keys of `map_id_code`,
which none of those renderings equal. -/
def pyStrOfVal : PyVal → String
  | PyVal.none => ""
  | PyVal.str s => s
  | PyVal.num q => if q.den = 1 then toString q.num else toString q
  | PyVal.list _ => "[...]"
  | PyVal.dict _ => "\x7b...\x7d"

/-- `value or None` over an already-cleaned first candidate: Python truthiness
maps the empty string to null. -/
def pyOrNone (a : String) (b : Option String) : Option String :=
  if a ≠ "" then Option.some a
  else
    match b with
    | Option.none => Option.none
    | Option.some s => if s = "" then Option.none else Option.some s

/-- Embeds `_label_from_catalog_entry`: the cleaned short title, else the
cleaned long title, else the fallback code (a missing `title` dict is the
case where both titles are null). -/
def catalogEntryLabel (title_short title_long : Option String)
    (fallback : String) : String :=
  let short := cleanStrO title_short
  let long := cleanStrO title_long
  if short ≠ "" then short else if long ≠ "" then long else fallback

/-- The `rules` dict of a node rule (`node.get("rules")` when it is a dict,
else the empty dict). -/
def rulesEntries (node : NodeRule) : List (String × PyVal) :=
  match node.rules with
  | PyVal.dict entries => entries
  | _ => []

/-- Catalog seeding phase of the builder: one node per objective and per
activity of the selected catalog module, keyed by cleaned code. -/
def seedCatalogNodes (mc : String) (codeToIdGlobal : List (String × String))
    (objectives : List CatalogObjective) : List (String × DepNode) :=
  objectives.foldl
    (fun nm obj =>
      let objective_code := cleanStrO obj.code
      if objective_code = "" then nm
      else
        let nm1 := dictInsert nm objective_code
          { module_code := mc
            node_id := pyOrNone (cleanStrO obj.id)
              (assocLookup codeToIdGlobal objective_code)
            node_code := objective_code
            node_type := "objective"
            label := catalogEntryLabel obj.title_short obj.title_long
              objective_code
            objective_code := Option.some objective_code
            activity_index := Option.none
            init_open := false
            source_primary := "catalog"
            source_enrichment := "rules"
            is_ghost := false }
        obj.activities.foldl
          (fun nm2 act =>
            let activity_code := cleanStrO act.code
            if activity_code = "" then nm2
            else
              dictInsert nm2 activity_code
                { module_code := mc
                  node_id := pyOrNone (cleanStrO act.id)
                    (assocLookup codeToIdGlobal activity_code)
                  node_code := activity_code
                  node_type := "activity"
                  label := catalogEntryLabel act.title_short act.title_long
                    activity_code
                  objective_code := Option.some objective_code
                  activity_index := parseActivityIndex activity_code
                  init_open := false
                  source_primary := "catalog"
                  source_enrichment := "rules"
                  is_ghost := false })
          nm1)
    []

/-- One step of the rule-node overlay: record the node in `rule_by_code` and,
for a code absent from the node map and structurally objective- or
activity-shaped, add a rules-sourced node. -/
def overlayStep (mc : String) (m : List (String × List String))
    (idToLabel : List (String × String))
    (acc : List (String × NodeRule) × List (String × DepNode))
    (node : NodeRule) :
    List (String × NodeRule) × List (String × DepNode) :=
  let code0 := cleanStrO node.code
  let node_id := cleanStrO node.id
  let code :=
    if code0 = "" ∧ node_id ≠ "" then
      (preferredCodeFromList ((assocLookup m node_id).getD [])).getD ""
    else code0
  if code = "" then acc
  else
    let rb := dictInsert acc.1 code node
    if assocLookup acc.2 code = Option.none ∧
        (nodeTypeFromCodeStrict code = "objective" ∨
          nodeTypeFromCodeStrict code = "activity") then
      let label :=
        let l := (assocLookup idToLabel node_id).getD ""
        if l = "" then code else l
      let ntype0 :=
        let t := cleanStrO node.type
        if t = "" then nodeTypeFromCodeStrict code else t
      (rb, dictInsert acc.2 code
        { module_code := mc
          node_id := if node_id = "" then Option.none else Option.some node_id
          node_code := code
          node_type :=
            if ntype0 = "objective" ∨ ntype0 = "activity" then ntype0
            else nodeTypeFromCodeStrict code
          label := label
          objective_code := parseObjectiveCode code (Option.some ntype0)
          activity_index := parseActivityIndex code
          init_open := false
          source_primary := "rules"
          source_enrichment := "rules"
          is_ghost := false })
    else (rb, acc.2)

/-- Builder state while walking `rule_by_code`: the node map, the edge list
and the `_add_edge` dedup keys. -/
structure GraphState where
  node_map : List (String × DepNode)
  edges : List DepEdge
  seen : List EdgeKey

/-- Embeds `_add_edge`: skip blank endpoints, round the threshold to six
places, dedup on `(type, src, dst, threshold)` and append the edge row. -/
def addEdge (mc : String) (st : GraphState)
    (edge_type from_code to_code : String) (threshold : Option ℚ)
    (rule_text : String) (enrich_lvl : Option Int) (enrich_sr : Option ℚ) :
    GraphState :=
  let src := cleanStr from_code
  let dst := cleanStr to_code
  if src = "" ∨ dst = "" then st
  else
    let tn := threshold.map roundTo6
    let k : EdgeKey := ⟨edge_type, src, dst, tn⟩
    if k ∈ st.seen then st
    else
      { st with
        edges := st.edges ++
          [{ module_code := mc
             edge_id := mc ++ ":" ++ edge_type ++ ":" ++ src ++ "->" ++ dst ++
               ":" ++ toString (st.edges.length + 1)
             edge_type := edge_type
             from_node_code := src
             to_node_code := dst
             threshold_type := if tn.isSome then "success_rate" else "unknown"
             threshold_value := tn
             rule_text := rule_text
             source_primary := "rules"
             source_enrichment := "rules"
             enrich_lvl := enrich_lvl
             enrich_sr := enrich_sr }]
        seen := st.seen ++ [k] }

/-- The `init_ssb` step of one `rule_by_code` item: flag the node open when
the rule payload says so and the code is in the node map. -/
def initSsbPass (st : GraphState) (code : String)
    (rules : List (String × PyVal)) : GraphState :=
  if isInitOpenFromRule (pyGet rules "init_ssb") = true ∧
      (assocLookup st.node_map code).isSome = true then
    { st with
      node_map := dictUpdate st.node_map code
        (fun n => { n with init_open := true }) }
  else st

/-- The `requirements` step of one `rule_by_code` item: one activation edge
per (target, source) pair of the leading requirements dict. -/
def requirementsPass (mc : String) (m : List (String × List String))
    (st1 : GraphState) (code : String) (rules : List (String × PyVal)) :
    GraphState :=
  match pyGet rules "requirements" with
  | PyVal.list (PyVal.dict reqMap :: _) =>
      reqMap.foldl
          (fun s kv =>
            let target_code :=
              let r := resolveCodeFromId m kv.1
              if r = "" then code else r
            match kv.2 with
            | PyVal.dict srcMap =>
                srcMap.foldl
                  (fun s2 kv2 =>
                    let source_code := resolveCodeFromId m kv2.1
                    let cd :=
                      match kv2.2 with
                      | PyVal.dict entries => entries
                      | _ => []
                    let sr :=
                      if cd.isEmpty then Option.none
                      else firstNumeric (pyGet cd "sr")
                    let lvl :=
                      if cd.isEmpty then Option.none
                      else firstInt (pyGet cd "lvl")
                    addEdge mc s2 "activation" source_code target_code sr
                      "requirements" lvl sr)
                  s
            | _ => s)
          st1
  | _ => st1

/-- The `deact_requirements` step of one `rule_by_code` item: one
deactivation edge per condition of each target's condition list. -/
def deactPass (mc : String) (m : List (String × List String))
    (st2 : GraphState) (code : String) (rules : List (String × PyVal)) :
    GraphState :=
  match pyGet rules "deact_requirements" with
  | PyVal.list (PyVal.dict deactMap :: _) =>
      deactMap.foldl
        (fun s kv =>
          let target_code :=
            let r := resolveCodeFromId m kv.1
            if r = "" then code else r
          let conditions : Option (List PyVal) :=
            match kv.2 with
            | PyVal.dict entries => Option.some [PyVal.dict entries]
            | PyVal.list items => Option.some items
            | _ => Option.none
          match conditions with
          | Option.none => s
          | Option.some items =>
              items.foldl
                (fun s2 condition =>
                  match condition with
                  | PyVal.dict cd =>
                      addEdge mc s2 "deactivation"
                        (resolveCodeFromId m (pyStrOfVal (pyGet cd "dim")))
                        target_code (firstNumeric (pyGet cd "sr"))
                        "deact_requirements" (firstInt (pyGet cd "lvl"))
                        (firstNumeric (pyGet cd "sr"))
                  | _ => s2)
                s)
        st2
  | _ => st2

/-- Processes one `rule_by_code` item: the `init_ssb` open flag, then the
`requirements` activation edges, then the `deact_requirements` deactivation
edges. -/
def processRule (mc : String) (m : List (String × List String))
    (st : GraphState) (code : String) (node : NodeRule) : GraphState :=
  let rules := rulesEntries node
  deactPass mc m (requirementsPass mc m (initSsbPass st code rules) code rules)
    code rules

/-- The cleaned `to_node_code` targets of activation edges. -/
def activationTargets (edges : List DepEdge) : List String :=
  (edges.filter (fun e => cleanStr e.edge_type = "activation")).map
    (fun e => cleanStr e.to_node_code)

/-- Default-open pass: any node whose key is not an activation target and is
not already open is forced `init_open = true`. -/
def defaultOpenPass (nm : List (String × DepNode)) (edges : List DepEdge) :
    List (String × DepNode) :=
  let targets := activationTargets edges
  nm.map (fun p =>
    if p.2.init_open = false ∧ p.1 ∉ targets then
      (p.1, { p.2 with init_open := true })
    else p)

/-- A ghost node for an unresolved rules reference. -/
def ghostNode (mc : String) (codeToIdGlobal idToLabel : List (String × String))
    (gc : String) : DepNode :=
  let gt := nodeTypeFromCodeStrict gc
  let gid := assocLookup codeToIdGlobal gc
  { module_code := mc
    node_id := gid
    node_code := gc
    node_type := gt
    label :=
      let l := (assocLookup idToLabel (cleanStrO gid)).getD ""
      if l = "" then gc else l
    objective_code := parseObjectiveCode gc (Option.some gt)
    activity_index := parseActivityIndex gc
    init_open := false
    source_primary := "rules"
    source_enrichment := "rules"
    is_ghost := true }

/-- The sorted distinct edge-endpoint codes absent from the node map. -/
def missingCodes (nm : List (String × DepNode)) (edges : List DepEdge) :
    List String :=
  let referenced := edges.map (fun e => cleanStr e.from_node_code) ++
    edges.map (fun e => cleanStr e.to_node_code)
  List.insertionSort (fun a b => a ≤ b)
    (firstDedup
      (referenced.filter (fun c => c ≠ "" ∧ assocLookup nm c = Option.none)))

/-- One ghost-synthesis step: skip codes that are not objective- or
activity-shaped, else insert the ghost node. -/
def ghostStep (mc : String) (codeToIdGlobal idToLabel : List (String × String))
    (nm : List (String × DepNode)) (gc : String) : List (String × DepNode) :=
  if nodeTypeFromCodeStrict gc = "objective" ∨
      nodeTypeFromCodeStrict gc = "activity" then
    dictInsert nm gc (ghostNode mc codeToIdGlobal idToLabel gc)
  else nm

/-- Ghost-synthesis pass over the missing codes. -/
def ghostPass (mc : String) (codeToIdGlobal idToLabel : List (String × String))
    (nm : List (String × DepNode)) (edges : List DepEdge) :
    List (String × DepNode) :=
  (missingCodes nm edges).foldl (ghostStep mc codeToIdGlobal idToLabel) nm

/-- Phases 1-3 of the builder: catalog seeding, rule-node overlay, then the
`rule_by_code` walk that sets `init_ssb` open flags and collects edges. -/
def buildGraphState (module_code : String) (inp : BuildInputs) : GraphState :=
  let mc := cleanStr module_code
  let m := idToCodesLocal inp.mapIdCode
  let nm0 :=
    match inp.catalogObjectives with
    | Option.some objs => seedCatalogNodes mc inp.codeToIdGlobal objs
    | Option.none => []
  let overlay := inp.nodeRules.foldl (overlayStep mc m inp.idToLabel) ([], nm0)
  overlay.1.foldl (fun st p => processRule mc m st p.1 p.2)
    { node_map := overlay.2, edges := [], seen := [] }

/-- The final edge rows (`edges_df` keeps every collected edge). -/
def buildEdges (module_code : String) (inp : BuildInputs) : List DepEdge :=
  (buildGraphState module_code inp).edges

/-- The node map after the default-open pass, before ghost synthesis. -/
def nodeMapDefaultOpen (module_code : String) (inp : BuildInputs) :
    List (String × DepNode) :=
  defaultOpenPass (buildGraphState module_code inp).node_map
    (buildGraphState module_code inp).edges

/-- The builder's outputs: node rows and edge rows. -/
structure BuildResult where
  nodes : List DepNode
  edges : List DepEdge

/-- Embeds `_build_dependency_tables_from_rules_payload` end to end (after
the module rule has been found). -/
def buildDependencyTables (module_code : String) (inp : BuildInputs) :
    BuildResult :=
  let mc := cleanStr module_code
  { nodes := (ghostPass mc inp.codeToIdGlobal inp.idToLabel
      (nodeMapDefaultOpen module_code inp) (buildEdges module_code inp)).map
      Prod.snd
    edges := buildEdges module_code inp }


/-- Catalog objective for the graph fixtures. -/
def c2Obj1 : CatalogObjective :=
  { code := Option.some "M1O1"
    id := Option.some "id1"
    title_short := Option.some "Objective 1"
    title_long := Option.none
    activities := [] }

/-- Rule node whose requirement activates `M1O1` from the unknown code
`M1O2` (resolved from id `id2`). -/
def c2Rule : NodeRule :=
  { code := Option.some "M1O1"
    id := Option.some "id1"
    type := Option.some "objective"
    rules := PyVal.dict [("requirements",
      PyVal.list [PyVal.dict [("id1", PyVal.dict [("id2", PyVal.none)])]])] }

/-- Fixture inputs: the catalog holds only `M1O1`; the rules reference the
absent objective `M1O2` as an activation source. -/
def c2Inp : BuildInputs :=
  { mapIdCode := [("M1O1", Option.some "id1"), ("M1O2", Option.some "id2")]
    nodeRules := [c2Rule]
    catalogObjectives := Option.some [c2Obj1]
    codeToIdGlobal := [("M1O1", "id1"), ("M1O2", "id2")]
    idToLabel := [("id1", "Objective 1")] }


/-- A fold preserves any invariant its steps preserve. -/
theorem foldl_preserve {α β : Type _} (P : β → Prop) (f : β → α → β)
    (l : List α) (b : β) (hb : P b) (hf : ∀ b a, P b → P (f b a)) :
    P (l.foldl f b) := by
  induction l generalizing b with
  | nil => exact hb
  | cons x xs ih => exact ih (f b x) (hf b x hb)

/-- Entries of a dict after assignment: the assigned pair or an old entry. -/
theorem mem_dictInsert {α : Type _} {m : List (String × α)} {k : String}
    {v : α} {p : String × α} (hp : p ∈ dictInsert m k v) :
    p = (k, v) ∨ p ∈ m := by
  induction m with
  | nil => simpa [dictInsert] using hp
  | cons q rest ih =>
      unfold dictInsert at hp
      by_cases h : q.1 = k
      · rw [if_pos h] at hp
        rcases List.mem_cons.mp hp with h1 | h2
        · exact Or.inl h1
        · exact Or.inr (List.mem_cons_of_mem q h2)
      · rw [if_neg h] at hp
        rcases List.mem_cons.mp hp with h1 | h2
        · exact Or.inr (h1 ▸ List.mem_cons_self q rest)
        · rcases ih h2 with h3 | h4
          · exact Or.inl h3
          · exact Or.inr (List.mem_cons_of_mem q h4)

/-- Lookup in a singleton-extended assoc list. -/
theorem assocLookup_cons {α : Type _} (p : String × α) (m : List (String × α))
    (k : String) :
    assocLookup (p :: m) k =
      if p.1 = k then Option.some p.2 else assocLookup m k := by
  by_cases h : p.1 = k
  · simp [assocLookup, List.find?_cons, h]
  · simp [assocLookup, List.find?_cons, h]

/-- Lookup after a dict assignment. -/
theorem assocLookup_dictInsert {α : Type _} (m : List (String × α))
    (k : String) (v : α) (c : String) :
    assocLookup (dictInsert m k v) c =
      if k = c then Option.some v else assocLookup m c := by
  induction m with
  | nil =>
      by_cases h : k = c <;>
        simp [dictInsert, assocLookup_cons, assocLookup, h]
  | cons q rest ih =>
      unfold dictInsert
      by_cases h : q.1 = k
      · rw [if_pos h, assocLookup_cons, assocLookup_cons]
        by_cases hkc : k = c
        · rw [if_pos hkc, if_pos hkc]
        · rw [if_neg hkc, if_neg hkc, if_neg (fun hq => hkc (h ▸ hq))]
      · rw [if_neg h, assocLookup_cons, assocLookup_cons, ih]
        by_cases hqc : q.1 = c
        · rw [if_pos hqc, if_pos hqc,
            if_neg (fun hkc : k = c => h (hqc.trans hkc.symm))]
        · rw [if_neg hqc, if_neg hqc]

/-- Keys after a dict assignment. -/
theorem mem_keys_dictInsert {α : Type _} {m : List (String × α)} {k : String}
    {v : α} {x : String} (hx : x ∈ (dictInsert m k v).map Prod.fst) :
    x = k ∨ x ∈ m.map Prod.fst := by
  rcases List.mem_map.mp hx with ⟨p, hp, hpx⟩
  rcases mem_dictInsert hp with h1 | h2
  · exact Or.inl (by rw [← hpx, h1])
  · exact Or.inr (List.mem_map.mpr ⟨p, h2, hpx⟩)

/-- Dict assignment keeps keys distinct. -/
theorem keysNodup_dictInsert {α : Type _} (m : List (String × α)) (k : String)
    (v : α) (hnd : (m.map Prod.fst).Nodup) :
    ((dictInsert m k v).map Prod.fst).Nodup := by
  induction m with
  | nil => simp [dictInsert]
  | cons q rest ih =>
      unfold dictInsert
      rcases List.nodup_cons.mp hnd with ⟨hq, hrest⟩
      by_cases h : q.1 = k
      · rw [if_pos h]
        exact List.nodup_cons.mpr ⟨by rw [← h]; exact hq, hrest⟩
      · rw [if_neg h]
        refine List.nodup_cons.mpr ⟨?_, ih hrest⟩
        intro hmem
        rcases mem_keys_dictInsert hmem with h1 | h2
        · exact h h1
        · exact hq h2

/-- In a distinct-key assoc list, every entry is what lookup of its key
returns. -/
theorem assocLookup_of_mem_nodup {α : Type _} {m : List (String × α)}
    (hnd : (m.map Prod.fst).Nodup) {p : String × α} (hp : p ∈ m) :
    assocLookup m p.1 = Option.some p.2 := by
  induction m with
  | nil => exact absurd hp (List.not_mem_nil p)
  | cons q rest ih =>
      rcases List.nodup_cons.mp hnd with ⟨hq, hrest⟩
      rw [assocLookup_cons]
      rcases List.mem_cons.mp hp with h1 | h2
      · rw [h1, if_pos rfl]
      · rw [if_neg ?hne]
        · exact ih hrest h2
        · intro hqp
          exact hq (hqp ▸ List.mem_map.mpr ⟨p, h2, rfl⟩)

/-- Membership gives a successful lookup. -/
theorem assocLookup_isSome_of_mem {α : Type _} {m : List (String × α)}
    {p : String × α} (hp : p ∈ m) : (assocLookup m p.1).isSome = true := by
  induction m with
  | nil => exact absurd hp (List.not_mem_nil p)
  | cons q rest ih =>
      rw [assocLookup_cons]
      by_cases h : q.1 = p.1
      · rw [if_pos h]; rfl
      · rw [if_neg h]
        rcases List.mem_cons.mp hp with h1 | h2
        · exact absurd (by rw [h1]) h
        · exact ih h2

/-- In a distinct-key assoc list whose lookup at `c` succeeds, exactly one
entry carries the key `c`. -/
theorem filter_key_length_one {α : Type _} (m : List (String × α)) (c : String)
    (hnd : (m.map Prod.fst).Nodup) (hsome : (assocLookup m c).isSome = true) :
    (m.filter (fun p => p.1 = c)).length = 1 := by
  induction m with
  | nil => simp [assocLookup] at hsome
  | cons q rest ih =>
      rcases List.nodup_cons.mp hnd with ⟨hq, hrest⟩
      rw [assocLookup_cons] at hsome
      by_cases h : q.1 = c
      · rw [List.filter_cons, if_pos (by simpa using h)]
        have hnone : rest.filter (fun p => p.1 = c) = [] := by
          rw [List.filter_eq_nil_iff]
          intro p hp hpc
          exact hq (h ▸ of_decide_eq_true hpc ▸ List.mem_map.mpr ⟨p, hp, rfl⟩)
        rw [hnone]
        rfl
      · rw [List.filter_cons, if_neg (by simpa using h)]
        rw [if_neg h] at hsome
        exact ih hrest hsome


/-- Dropping a satisfied run twice is the same as once. -/
theorem dropWhile_idem {α : Type _} (p : α → Bool) (l : List α) :
    (l.dropWhile p).dropWhile p = l.dropWhile p := by
  induction l with
  | nil => rfl
  | cons a t ih =>
      rw [List.dropWhile_cons]
      by_cases h : p a = true
      · rw [if_pos h]; exact ih
      · rw [if_neg h, List.dropWhile_cons, if_neg h]

/-- The head surviving a `dropWhile` fails the predicate. -/
theorem dropWhile_head_not {α : Type _} (p : α → Bool) (l : List α)
    (a : α) (t : List α) (h : l.dropWhile p = a :: t) : p a = false := by
  induction l with
  | nil => exact absurd h (by simp)
  | cons b u ih =>
      rw [List.dropWhile_cons] at h
      by_cases hb : p b = true
      · rw [if_pos hb] at h; exact ih h
      · rw [if_neg hb] at h
        cases h
        exact Bool.eq_false_iff.mpr hb

/-- After dropping a run from the front, re-dropping from the doubly
reversed remainder is the identity. -/
theorem dropWhile_strip_fix {α : Type _} (p : α → Bool) (l : List α) :
    (((l.dropWhile p).reverse.dropWhile p).reverse).dropWhile p =
      ((l.dropWhile p).reverse.dropWhile p).reverse := by
  cases hR : ((l.dropWhile p).reverse.dropWhile p).reverse with
  | nil => rfl
  | cons c cs =>
      have hsuffix : (l.dropWhile p).reverse.dropWhile p <:+
          (l.dropWhile p).reverse := List.dropWhile_suffix p
      have hpre : ((l.dropWhile p).reverse.dropWhile p).reverse <+:
          l.dropWhile p := by
        have h2 := List.reverse_prefix.mpr hsuffix
        rwa [List.reverse_reverse] at h2
      rw [hR] at hpre
      rcases hpre with ⟨t, ht⟩
      have hc := dropWhile_head_not p l c (cs ++ t) (by rw [← ht]; rfl)
      rw [List.dropWhile_cons, if_neg (by rw [hc]; exact Bool.false_ne_true)]

/-- Python `str.strip()` is idempotent. -/
theorem pyStrip_idem (s : String) : pyStrip (pyStrip s) = pyStrip s := by
  unfold pyStrip
  have htl : (String.mk
      (((s.toList.dropWhile Char.isWhitespace).reverse.dropWhile
        Char.isWhitespace).reverse)).toList =
      ((s.toList.dropWhile Char.isWhitespace).reverse.dropWhile
        Char.isWhitespace).reverse := rfl
  rw [htl, dropWhile_strip_fix Char.isWhitespace s.toList, List.reverse_reverse,
    dropWhile_idem Char.isWhitespace (s.toList.dropWhile Char.isWhitespace).reverse]

/-- `_clean_str` is idempotent. -/
theorem cleanStr_idem (s : String) : cleanStr (cleanStr s) = cleanStr s := by
  unfold cleanStr
  by_cases h : pyStrip s = "" ∨ pyToLower (pyStrip s) = "nan"
  · rw [if_pos h, if_pos (Or.inl (by decide))]
  · rw [if_neg h]
    rw [pyStrip_idem]
    rw [if_neg h]

/-- Edge-row endpoint invariant maintained by `_add_edge`: endpoints are
stored cleaned and non-empty. -/
def EdgeClean (e : DepEdge) : Prop :=
  cleanStr e.from_node_code = e.from_node_code ∧ e.from_node_code ≠ "" ∧
    cleanStr e.to_node_code = e.to_node_code ∧ e.to_node_code ≠ ""

/-- `_add_edge` never touches the node map. -/
theorem addEdge_node_map (mc : String) (st : GraphState)
    (t f g : String) (th : Option ℚ) (rt : String) (el : Option Int)
    (es : Option ℚ) : (addEdge mc st t f g th rt el es).node_map = st.node_map := by
  unfold addEdge
  dsimp only []
  split
  · rfl
  · split
    · rfl
    · rfl

/-- `_add_edge` appends clean edges to clean edges. -/
theorem addEdge_edgeClean (mc : String) (st : GraphState)
    (t f g : String) (th : Option ℚ) (rt : String) (el : Option Int)
    (es : Option ℚ) (h : ∀ e ∈ st.edges, EdgeClean e) :
    ∀ e ∈ (addEdge mc st t f g th rt el es).edges, EdgeClean e := by
  unfold addEdge
  dsimp only []
  split
  · exact h
  · split
    · exact h
    · rename_i hne _
      intro e he
      rcases List.mem_append.mp he with h1 | h2
      · exact h e h1
      · rcases List.mem_cons.mp h2 with h3 | h4
        · rw [h3]
          refine ⟨cleanStr_idem f, ?_, cleanStr_idem g, ?_⟩
          · exact fun hc => hne (Or.inl hc)
          · exact fun hc => hne (Or.inr hc)
        · exact absurd h4 (List.not_mem_nil e)

/-- A fold whose steps keep the node map keeps the node map. -/
theorem foldl_node_map {α : Type _} (f : GraphState → α → GraphState)
    (l : List α) (st : GraphState)
    (hf : ∀ s a, (f s a).node_map = s.node_map) :
    (l.foldl f st).node_map = st.node_map := by
  induction l generalizing st with
  | nil => rfl
  | cons x xs ih => rw [List.foldl_cons, ih, hf]


/-- Builder node-map invariant before ghost synthesis: entries are keyed by
their own `node_code`, are not ghosts, and keys are distinct. -/
def preGhostInv (nm : List (String × DepNode)) : Prop :=
  (∀ p ∈ nm, p.2.node_code = p.1 ∧ p.2.is_ghost = false) ∧
    (nm.map Prod.fst).Nodup

/-- The empty node map satisfies the invariant. -/
theorem preGhostInv_nil : preGhostInv [] :=
  ⟨fun p hp => absurd hp (List.not_mem_nil p), List.nodup_nil⟩

/-- Dict assignment of a well-keyed non-ghost node keeps the invariant. -/
theorem preGhostInv_dictInsert (nm : List (String × DepNode)) (k : String)
    (v : DepNode) (hv : v.node_code = k ∧ v.is_ghost = false)
    (h : preGhostInv nm) : preGhostInv (dictInsert nm k v) := by
  constructor
  · intro p hp
    rcases mem_dictInsert hp with h1 | h2
    · rw [h1]; exact hv
    · exact h.1 p h2
  · exact keysNodup_dictInsert nm k v h.2

/-- Value updates keep the key list. -/
theorem dictUpdate_keys {α : Type _} (m : List (String × α)) (k : String)
    (f : α → α) : (dictUpdate m k f).map Prod.fst = m.map Prod.fst := by
  unfold dictUpdate
  rw [List.map_map]
  apply List.map_congr_left
  intro p _
  dsimp only [Function.comp]
  by_cases h : p.1 = k
  · rw [if_pos h]
  · rw [if_neg h]

/-- The `init_open` update keeps the invariant. -/
theorem preGhostInv_dictUpdate (nm : List (String × DepNode)) (k : String)
    (h : preGhostInv nm) :
    preGhostInv (dictUpdate nm k (fun n => { n with init_open := true })) := by
  constructor
  · intro p hp
    rcases List.mem_map.mp hp with ⟨q, hq, hqp⟩
    by_cases hk : q.1 = k
    · rw [if_pos hk] at hqp
      rw [← hqp]
      exact ⟨(h.1 q hq).1, (h.1 q hq).2⟩
    · rw [if_neg hk] at hqp
      rw [← hqp]
      exact h.1 q hq
  · rw [dictUpdate_keys]; exact h.2

/-- Catalog seeding establishes the node-map invariant. -/
theorem seedCatalogNodes_inv (mc : String) (g : List (String × String))
    (objs : List CatalogObjective) :
    preGhostInv (seedCatalogNodes mc g objs) := by
  unfold seedCatalogNodes
  refine foldl_preserve preGhostInv _ objs [] preGhostInv_nil ?_
  intro nm obj h
  dsimp only []
  by_cases hc : cleanStrO obj.code = ""
  · rw [if_pos hc]; exact h
  · rw [if_neg hc]
    refine foldl_preserve preGhostInv _ obj.activities _
      (preGhostInv_dictInsert _ _ _ ⟨rfl, rfl⟩ h) ?_
    intro nm2 act h2
    dsimp only []
    by_cases ha : cleanStrO act.code = ""
    · rw [if_pos ha]; exact h2
    · rw [if_neg ha]
      exact preGhostInv_dictInsert _ _ _ ⟨rfl, rfl⟩ h2

/-- The rule-node overlay keeps the node-map invariant. -/
theorem overlayStep_inv (mc : String) (m : List (String × List String))
    (il : List (String × String))
    (acc : List (String × NodeRule) × List (String × DepNode))
    (node : NodeRule) (h : preGhostInv acc.2) :
    preGhostInv (overlayStep mc m il acc node).2 := by
  unfold overlayStep
  dsimp only []
  split <;>
  · split
    · exact h
    · split
      · apply preGhostInv_dictInsert _ _ _ _ h
        exact ⟨rfl, rfl⟩
      · exact h

/-- The requirements walk never touches the node map. -/
theorem requirementsPass_node_map (mc : String)
    (m : List (String × List String)) (st1 : GraphState) (code : String)
    (rules : List (String × PyVal)) :
    (requirementsPass mc m st1 code rules).node_map = st1.node_map := by
  unfold requirementsPass
  split
  · apply foldl_node_map
    intro s kv
    dsimp only []
    split
    · apply foldl_node_map
      intro s2 kv2
      dsimp only []
      apply addEdge_node_map
    · rfl
  · rfl

/-- The deactivation walk never touches the node map. -/
theorem deactPass_node_map (mc : String) (m : List (String × List String))
    (st2 : GraphState) (code : String) (rules : List (String × PyVal)) :
    (deactPass mc m st2 code rules).node_map = st2.node_map := by
  unfold deactPass
  split
  · apply foldl_node_map
    intro s kv
    dsimp only []
    split
    · rfl
    · apply foldl_node_map
      intro s2 condition
      dsimp only []
      split
      · apply addEdge_node_map
      · rfl
  · rfl

/-- The `init_ssb` step either keeps the node map or flags one node open. -/
theorem initSsbPass_node_map_or (st : GraphState) (code : String)
    (rules : List (String × PyVal)) :
    (initSsbPass st code rules).node_map = st.node_map ∨
    (initSsbPass st code rules).node_map =
      dictUpdate st.node_map code (fun n => { n with init_open := true }) := by
  unfold initSsbPass
  split
  · exact Or.inr rfl
  · exact Or.inl rfl

/-- One `rule_by_code` item keeps the node-map invariant. -/
theorem processRule_node_map_inv (mc : String)
    (m : List (String × List String)) (st : GraphState) (code : String)
    (node : NodeRule) (h : preGhostInv st.node_map) :
    preGhostInv (processRule mc m st code node).node_map := by
  unfold processRule
  dsimp only []
  rw [deactPass_node_map, requirementsPass_node_map]
  rcases initSsbPass_node_map_or st code (rulesEntries node) with h1 | h1
  · rw [h1]; exact h
  · rw [h1]; exact preGhostInv_dictUpdate _ _ h

/-- The node map of phases 1-3 satisfies the invariant. -/
theorem buildGraphState_node_map_inv (module_code : String)
    (inp : BuildInputs) :
    preGhostInv (buildGraphState module_code inp).node_map := by
  unfold buildGraphState
  dsimp only []
  refine foldl_preserve (fun (st : GraphState) => preGhostInv st.node_map)
    _ _ _ ?_ ?_
  · show preGhostInv
      (inp.nodeRules.foldl
        (overlayStep (cleanStr module_code) (idToCodesLocal inp.mapIdCode)
          inp.idToLabel)
        ([],
          match inp.catalogObjectives with
          | Option.some objs =>
              seedCatalogNodes (cleanStr module_code) inp.codeToIdGlobal objs
          | Option.none => [])).2
    refine foldl_preserve
      (fun (acc : List (String × NodeRule) × List (String × DepNode)) =>
        preGhostInv acc.2) _ _ _ ?_ ?_
    · cases inp.catalogObjectives with
      | none => exact preGhostInv_nil
      | some objs => exact seedCatalogNodes_inv _ _ objs
    · intro acc node h
      exact overlayStep_inv _ _ _ _ _ h
  · intro st p h
    exact processRule_node_map_inv _ _ _ _ _ h

/-- Keys are unchanged by the default-open pass. -/
theorem defaultOpenPass_keys (nm : List (String × DepNode))
    (edges : List DepEdge) :
    (defaultOpenPass nm edges).map Prod.fst = nm.map Prod.fst := by
  unfold defaultOpenPass
  dsimp only []
  rw [List.map_map]
  apply List.map_congr_left
  intro p _
  dsimp only [Function.comp]
  split
  · rfl
  · rfl

/-- The default-open pass keeps the node-map invariant. -/
theorem defaultOpenPass_inv (nm : List (String × DepNode))
    (edges : List DepEdge) (h : preGhostInv nm) :
    preGhostInv (defaultOpenPass nm edges) := by
  constructor
  · intro p hp
    rcases List.mem_map.mp hp with ⟨q, hq, hqp⟩
    rw [← hqp]
    split
    · exact ⟨(h.1 q hq).1, (h.1 q hq).2⟩
    · exact h.1 q hq
  · rw [defaultOpenPass_keys]; exact h.2

/-- After the default-open pass, every node not targeted by an activation
edge is open. -/
theorem defaultOpenPass_open (nm : List (String × DepNode))
    (edges : List DepEdge) :
    ∀ p ∈ defaultOpenPass nm edges,
      p.1 ∉ activationTargets edges → p.2.init_open = true := by
  intro p hp hnt
  rcases List.mem_map.mp hp with ⟨q, hq, hqp⟩
  by_cases hcond : q.2.init_open = false ∧ q.1 ∉ activationTargets edges
  · rw [if_pos hcond] at hqp
    rw [← hqp]
  · rw [if_neg hcond] at hqp
    rw [← hqp] at hnt ⊢
    cases hio : q.2.init_open with
    | false => exact absurd ⟨hio, hnt⟩ hcond
    | true => rfl


/-- The `init_ssb` step never touches the edge list. -/
theorem initSsbPass_edges (st : GraphState) (code : String)
    (rules : List (String × PyVal)) :
    (initSsbPass st code rules).edges = st.edges := by
  unfold initSsbPass
  split
  · rfl
  · rfl

/-- The requirements walk preserves the endpoint invariant of edges. -/
theorem requirementsPass_edgeClean (mc : String)
    (m : List (String × List String)) (st1 : GraphState) (code : String)
    (rules : List (String × PyVal)) (h : ∀ e ∈ st1.edges, EdgeClean e) :
    ∀ e ∈ (requirementsPass mc m st1 code rules).edges, EdgeClean e := by
  unfold requirementsPass
  split
  · refine foldl_preserve
      (fun (s : GraphState) => ∀ e ∈ s.edges, EdgeClean e) _ _ _ h ?_
    intro s kv hs
    dsimp only []
    split
    · refine foldl_preserve
        (fun (s2 : GraphState) => ∀ e ∈ s2.edges, EdgeClean e) _ _ _ hs ?_
      intro s2 kv2 hs2
      dsimp only []
      exact addEdge_edgeClean _ _ _ _ _ _ _ _ _ hs2
    · exact hs
  · exact h

/-- The deactivation walk preserves the endpoint invariant of edges. -/
theorem deactPass_edgeClean (mc : String) (m : List (String × List String))
    (st2 : GraphState) (code : String) (rules : List (String × PyVal))
    (h : ∀ e ∈ st2.edges, EdgeClean e) :
    ∀ e ∈ (deactPass mc m st2 code rules).edges, EdgeClean e := by
  unfold deactPass
  split
  · refine foldl_preserve
      (fun (s : GraphState) => ∀ e ∈ s.edges, EdgeClean e) _ _ _ h ?_
    intro s kv hs
    dsimp only []
    split
    · exact hs
    · refine foldl_preserve
        (fun (s2 : GraphState) => ∀ e ∈ s2.edges, EdgeClean e) _ _ _ hs ?_
      intro s2 condition hs2
      dsimp only []
      split
      · exact addEdge_edgeClean _ _ _ _ _ _ _ _ _ hs2
      · exact hs2
  · exact h

/-- Every collected edge has cleaned, non-empty endpoints. -/
theorem buildEdges_clean (module_code : String) (inp : BuildInputs) :
    ∀ e ∈ buildEdges module_code inp, EdgeClean e := by
  unfold buildEdges buildGraphState
  dsimp only []
  refine foldl_preserve
    (fun (st : GraphState) => ∀ e ∈ st.edges, EdgeClean e) _ _ _ ?_ ?_
  · intro e he
    exact absurd he (List.not_mem_nil e)
  · intro st p h
    unfold processRule
    dsimp only []
    apply deactPass_edgeClean
    apply requirementsPass_edgeClean
    intro e he
    rw [initSsbPass_edges] at he
    exact h e he

/-- Ghost synthesis only adds ghost entries. -/
theorem mem_ghost_fold (mc : String) (g il : List (String × String))
    (l : List String) (nm : List (String × DepNode)) (p : String × DepNode)
    (hp : p ∈ l.foldl (ghostStep mc g il) nm) :
    p ∈ nm ∨ ∃ gc, p = (gc, ghostNode mc g il gc) := by
  induction l generalizing nm with
  | nil => exact Or.inl hp
  | cons x xs ih =>
      rw [List.foldl_cons] at hp
      rcases ih _ hp with h1 | h2
      · unfold ghostStep at h1
        by_cases hx : nodeTypeFromCodeStrict x = "objective" ∨
            nodeTypeFromCodeStrict x = "activity"
        · rw [if_pos hx] at h1
          rcases mem_dictInsert h1 with h3 | h4
          · exact Or.inr ⟨x, h3⟩
          · exact Or.inl h4
        · rw [if_neg hx] at h1
          exact Or.inl h1
      · exact Or.inr h2

/-- Ghost synthesis keeps entries well-keyed and keys distinct. -/
theorem ghost_fold_keyed (mc : String) (g il : List (String × String))
    (l : List String) (nm : List (String × DepNode))
    (h : (∀ p ∈ nm, p.2.node_code = p.1) ∧ (nm.map Prod.fst).Nodup) :
    (∀ p ∈ l.foldl (ghostStep mc g il) nm, p.2.node_code = p.1) ∧
      ((l.foldl (ghostStep mc g il) nm).map Prod.fst).Nodup := by
  refine foldl_preserve
    (fun (nm2 : List (String × DepNode)) =>
      (∀ p ∈ nm2, p.2.node_code = p.1) ∧ (nm2.map Prod.fst).Nodup)
    _ _ _ h ?_
  intro nm2 gc h2
  unfold ghostStep
  by_cases hgc : nodeTypeFromCodeStrict gc = "objective" ∨
      nodeTypeFromCodeStrict gc = "activity"
  · rw [if_pos hgc]
    constructor
    · intro p hp
      rcases mem_dictInsert hp with h3 | h4
      · rw [h3]
        rfl
      · exact h2.1 p h4
    · exact keysNodup_dictInsert _ _ _ h2.2
  · rw [if_neg hgc]
    exact h2

/-- Lookup is unchanged by ghost steps over other codes. -/
theorem ghost_fold_lookup_other (mc : String) (g il : List (String × String))
    (l : List String) (nm : List (String × DepNode)) (c : String)
    (hl : ∀ gc ∈ l, gc ≠ c) :
    assocLookup (l.foldl (ghostStep mc g il) nm) c = assocLookup nm c := by
  induction l generalizing nm with
  | nil => rfl
  | cons x xs ih =>
      rw [List.foldl_cons,
        ih _ (fun gc hgc => hl gc (List.mem_cons_of_mem x hgc))]
      unfold ghostStep
      by_cases hx : nodeTypeFromCodeStrict x = "objective" ∨
          nodeTypeFromCodeStrict x = "activity"
      · rw [if_pos hx, assocLookup_dictInsert,
          if_neg (hl x (List.mem_cons_self x xs))]
      · rw [if_neg hx]

/-- Ghost synthesis installs exactly the ghost node at a shaped missing
code. -/
theorem ghost_fold_lookup_self (mc : String) (g il : List (String × String))
    (l : List String) (nm : List (String × DepNode)) (c : String)
    (hnd : l.Nodup) (hc : c ∈ l)
    (hshape : nodeTypeFromCodeStrict c = "objective" ∨
        nodeTypeFromCodeStrict c = "activity") :
    assocLookup (l.foldl (ghostStep mc g il) nm) c =
      Option.some (ghostNode mc g il c) := by
  induction l generalizing nm with
  | nil => exact absurd hc (List.not_mem_nil c)
  | cons x xs ih =>
      rw [List.foldl_cons]
      by_cases h1 : c = x
      · subst h1
        rw [ghost_fold_lookup_other mc g il xs _ c
            (fun gc hgc heq => (List.nodup_cons.mp hnd).1 (heq ▸ hgc))]
        unfold ghostStep
        rw [if_pos hshape, assocLookup_dictInsert, if_pos rfl]
      · rcases List.mem_cons.mp hc with h2 | h2
        · exact absurd h2 h1
        · exact ih _ (List.nodup_cons.mp hnd).2 h2

/-- Ghost synthesis never installs a node at an unshaped code. -/
theorem ghost_fold_lookup_not_shaped (mc : String)
    (g il : List (String × String)) (l : List String)
    (nm : List (String × DepNode)) (c : String)
    (hc : assocLookup nm c = Option.none)
    (hshape : ¬(nodeTypeFromCodeStrict c = "objective" ∨
        nodeTypeFromCodeStrict c = "activity")) :
    assocLookup (l.foldl (ghostStep mc g il) nm) c = Option.none := by
  induction l generalizing nm with
  | nil => exact hc
  | cons x xs ih =>
      rw [List.foldl_cons]
      apply ih
      unfold ghostStep
      by_cases hx : nodeTypeFromCodeStrict x = "objective" ∨
          nodeTypeFromCodeStrict x = "activity"
      · rw [if_pos hx, assocLookup_dictInsert, if_neg ?hne]
        · exact hc
        · intro hxc
          rw [hxc] at hx
          exact hshape hx
      · rw [if_neg hx]
        exact hc

/-- An edge endpoint missing from the node map is a missing code. -/
theorem mem_missingCodes (nm : List (String × DepNode))
    (edges : List DepEdge) (e : DepEdge) (he : e ∈ edges)
    (hclean : EdgeClean e) (c : String)
    (hc : c = e.from_node_code ∨ c = e.to_node_code)
    (hmiss : assocLookup nm c = Option.none) : c ∈ missingCodes nm edges := by
  unfold missingCodes
  dsimp only []
  rw [(List.perm_insertionSort _ _).mem_iff, mem_firstDedup, List.mem_filter]
  constructor
  · rw [List.mem_append]
    rcases hc with h1 | h1
    · exact Or.inl (List.mem_map.mpr ⟨e, he, by rw [hclean.1]; exact h1.symm⟩)
    · exact Or.inr (List.mem_map.mpr
        ⟨e, he, by rw [hclean.2.2.1]; exact h1.symm⟩)
  · have hcne : c ≠ "" := by
      rcases hc with h1 | h1
      · rw [h1]; exact hclean.2.1
      · rw [h1]; exact hclean.2.2.2
    exact decide_eq_true ⟨hcne, hmiss⟩

/-- The missing codes are distinct. -/
theorem missingCodes_nodup (nm : List (String × DepNode))
    (edges : List DepEdge) : (missingCodes nm edges).Nodup := by
  unfold missingCodes
  dsimp only []
  exact ((List.perm_insertionSort _ _).nodup_iff).mpr (nodup_firstDedup _)


/-- C2 (amended): after derivation, every node already present when the
default-open pass runs (every non-ghost node) that is not the target of an
activation edge has `init_open = true` — the `init_ssb` flag can only have
set it to `true` earlier, never prevent this; ghost nodes are synthesized
after the pass and always keep `init_open = false`, so the default-open rule
does not extend to them. -/
theorem default_open_non_ghost_spec :
    (∀ (module_code : String) (inp : BuildInputs),
        ∀ p ∈ nodeMapDefaultOpen module_code inp,
          p.1 ∉ activationTargets (buildEdges module_code inp) →
            p.2.init_open = true) ∧
      ∀ (module_code : String) (inp : BuildInputs),
        ∀ n ∈ (buildDependencyTables module_code inp).nodes,
          n.is_ghost = true → n.init_open = false := by
  constructor
  · intro module_code inp p hp hnt
    exact defaultOpenPass_open _ _ p hp hnt
  · intro module_code inp n hn hghost
    unfold buildDependencyTables at hn
    dsimp only [] at hn
    unfold ghostPass at hn
    rcases List.mem_map.mp hn with ⟨p, hp, hpn⟩
    rcases mem_ghost_fold _ _ _ _ _ p hp with h1 | ⟨gc, h2⟩
    · have hinv := defaultOpenPass_inv
        (buildGraphState module_code inp).node_map
        (buildGraphState module_code inp).edges
        (buildGraphState_node_map_inv module_code inp)
      have hng := (hinv.1 p h1).2
      rw [← hpn, hng] at hghost
      exact absurd hghost Bool.false_ne_true
    · rw [h2] at hpn
      rw [← hpn]
      rfl

/-- C2 counterexample to the spec's claim as stated: in `c2Inp` no rule
carries an `init_ssb` open flag, yet the ghost node `M1O2` — which is the
target of no activation edge — ends with `init_open = false` instead of the
claimed `true`. -/
theorem default_open_ghost_counterexample :
    (∀ nr ∈ c2Inp.nodeRules,
        isInitOpenFromRule (pyGet (rulesEntries nr) "init_ssb") = false) ∧
      ∃ n ∈ (buildDependencyTables "M1" c2Inp).nodes,
        n.node_code ∉ activationTargets (buildEdges "M1" c2Inp) ∧
          n.is_ghost = true ∧ n.init_open = false := by decide

/-- Fixture with a catalog-only objective and no rules: its node is not an
activation target and must be default-opened. -/
def c2OpenInp : BuildInputs :=
  { mapIdCode := []
    nodeRules := []
    catalogObjectives := Option.some [c2Obj1]
    codeToIdGlobal := []
    idToLabel := [] }

/-- The default-opened catalog node of `c2OpenInp`. -/
def c2OpenNode : DepNode :=
  { module_code := "M1"
    node_id := Option.some "id1"
    node_code := "M1O1"
    node_type := "objective"
    label := "Objective 1"
    objective_code := Option.some "M1O1"
    activity_index := Option.none
    init_open := true
    source_primary := "catalog"
    source_enrichment := "rules"
    is_ghost := false }

/-- The ghost node synthesized for `M1O2` in `c2Inp`. -/
def c2Ghost : DepNode :=
  { module_code := "M1"
    node_id := Option.some "id2"
    node_code := "M1O2"
    node_type := "objective"
    label := "M1O2"
    objective_code := Option.some "M1O2"
    activity_index := Option.none
    init_open := false
    source_primary := "rules"
    source_enrichment := "rules"
    is_ghost := true }

/-- Concrete instantiation of `default_open_non_ghost_spec`: the untargeted
catalog node of `c2OpenInp` is opened, the ghost of `c2Inp` stays closed. -/
theorem default_open_non_ghost_spec_witness :
    c2OpenNode.init_open = true ∧ c2Ghost.init_open = false :=
  ⟨default_open_non_ghost_spec.1 "M1" c2OpenInp ("M1O1", c2OpenNode)
      (by decide) (by decide),
    default_open_non_ghost_spec.2 "M1" c2Inp c2Ghost (by decide) (by decide)⟩

/-- Rule fixture whose requirement references the module-shaped code `M2`
(via id `idm`) as an activation source. -/
def c3Rule : NodeRule :=
  { code := Option.some "M1O1"
    id := Option.some "id1"
    type := Option.some "objective"
    rules := PyVal.dict [("requirements",
      PyVal.list [PyVal.dict [("id1", PyVal.dict [("idm", PyVal.none)])]])] }

/-- Fixture inputs for the module-shaped missing reference. -/
def c3Inp : BuildInputs :=
  { mapIdCode := [("M1O1", Option.some "id1"), ("M2", Option.some "idm")]
    nodeRules := [c3Rule]
    catalogObjectives := Option.some
      [{ code := Option.some "M1O1"
         id := Option.some "id1"
         title_short := Option.some "Objective 1"
         title_long := Option.none
         activities := [] }]
    codeToIdGlobal := []
    idToLabel := [] }

/-- The edge collected from `c3Rule`, its source being the module-shaped
missing code `M2`. -/
def c3Edge : DepEdge :=
  { module_code := "M1"
    edge_id := "M1:activation:M2->M1O1:1"
    edge_type := "activation"
    from_node_code := "M2"
    to_node_code := "M1O1"
    threshold_type := "unknown"
    threshold_value := Option.none
    rule_text := "requirements"
    source_primary := "rules"
    source_enrichment := "rules"
    enrich_lvl := Option.none
    enrich_sr := Option.none }

/-- C3 (amended): an edge endpoint that is absent from the node map and not
objective- or activity-shaped gets no ghost node — no output node carries
that code — but the edge itself is retained in the edge output, not
dropped. -/
theorem module_shaped_reference_spec (module_code : String)
    (inp : BuildInputs) (e : DepEdge) (c : String)
    (he : e ∈ buildEdges module_code inp)
    (_hc : c = e.from_node_code ∨ c = e.to_node_code)
    (hmiss : assocLookup (nodeMapDefaultOpen module_code inp) c = Option.none)
    (hshape : ¬(nodeTypeFromCodeStrict c = "objective" ∨
        nodeTypeFromCodeStrict c = "activity")) :
    (∀ n ∈ (buildDependencyTables module_code inp).nodes, n.node_code ≠ c) ∧
      e ∈ (buildDependencyTables module_code inp).edges := by
  constructor
  · intro n hn hcode
    unfold buildDependencyTables at hn
    dsimp only [] at hn
    unfold ghostPass at hn
    rcases List.mem_map.mp hn with ⟨p, hp, hpn⟩
    have hinv := defaultOpenPass_inv
      (buildGraphState module_code inp).node_map
      (buildGraphState module_code inp).edges
      (buildGraphState_node_map_inv module_code inp)
    have hkeyed := ghost_fold_keyed (cleanStr module_code) inp.codeToIdGlobal
      inp.idToLabel
      (missingCodes (nodeMapDefaultOpen module_code inp)
        (buildEdges module_code inp))
      (nodeMapDefaultOpen module_code inp)
      ⟨fun q hq => (hinv.1 q hq).1, hinv.2⟩
    have hlook := ghost_fold_lookup_not_shaped (cleanStr module_code)
      inp.codeToIdGlobal inp.idToLabel
      (missingCodes (nodeMapDefaultOpen module_code inp)
        (buildEdges module_code inp))
      (nodeMapDefaultOpen module_code inp) c hmiss hshape
    have hkey : p.1 = c := by
      rw [← hkeyed.1 p hp, hpn]
      exact hcode
    have hsome := assocLookup_isSome_of_mem hp
    rw [hkey, hlook] at hsome
    simp at hsome
  · exact he

/-- C3 counterexample to the spec's claim as stated: in `c3Inp` the
module-shaped code `M2` is absent from the node map and gets no ghost node,
yet its edge survives in the edge output instead of being dropped. -/
theorem module_shaped_edge_drop_counterexample :
    assocLookup (nodeMapDefaultOpen "M1" c3Inp) "M2" = Option.none ∧
      nodeTypeFromCodeStrict "M2" = "module" ∧
      (∀ n ∈ (buildDependencyTables "M1" c3Inp).nodes, n.node_code ≠ "M2") ∧
      ∃ e ∈ (buildDependencyTables "M1" c3Inp).edges,
        e.from_node_code = "M2" := by decide

/-- Concrete instantiation of `module_shaped_reference_spec` on `c3Inp`. -/
theorem module_shaped_reference_spec_witness :
    (∀ n ∈ (buildDependencyTables "M1" c3Inp).nodes, n.node_code ≠ "M2") ∧
      c3Edge ∈ (buildDependencyTables "M1" c3Inp).edges :=
  module_shaped_reference_spec "M1" c3Inp c3Edge "M2" (by decide)
    (Or.inl rfl) (by decide) (by decide)

/-- C4: an edge endpoint that is absent from the node map and objective- or
activity-shaped yields exactly one output node with that code, that node is
a ghost, and the edge is retained. -/
theorem ghost_synthesis_spec (module_code : String) (inp : BuildInputs)
    (e : DepEdge) (c : String) (he : e ∈ buildEdges module_code inp)
    (hc : c = e.from_node_code ∨ c = e.to_node_code)
    (hmiss : assocLookup (nodeMapDefaultOpen module_code inp) c = Option.none)
    (hshape : nodeTypeFromCodeStrict c = "objective" ∨
        nodeTypeFromCodeStrict c = "activity") :
    ((buildDependencyTables module_code inp).nodes.filter
        (fun n => n.node_code = c)).length = 1 ∧
      (∀ n ∈ (buildDependencyTables module_code inp).nodes,
          n.node_code = c → n.is_ghost = true) ∧
      e ∈ (buildDependencyTables module_code inp).edges := by
  have hinv := defaultOpenPass_inv
    (buildGraphState module_code inp).node_map
    (buildGraphState module_code inp).edges
    (buildGraphState_node_map_inv module_code inp)
  have hkeyed := ghost_fold_keyed (cleanStr module_code) inp.codeToIdGlobal
    inp.idToLabel
    (missingCodes (nodeMapDefaultOpen module_code inp)
      (buildEdges module_code inp))
    (nodeMapDefaultOpen module_code inp)
    ⟨fun q hq => (hinv.1 q hq).1, hinv.2⟩
  have hclean := buildEdges_clean module_code inp e he
  have hcm := mem_missingCodes (nodeMapDefaultOpen module_code inp)
    (buildEdges module_code inp) e he hclean c hc hmiss
  have hlook := ghost_fold_lookup_self (cleanStr module_code)
    inp.codeToIdGlobal inp.idToLabel
    (missingCodes (nodeMapDefaultOpen module_code inp)
      (buildEdges module_code inp))
    (nodeMapDefaultOpen module_code inp) c
    (missingCodes_nodup _ _) hcm hshape
  refine ⟨?_, ?_, he⟩
  · unfold buildDependencyTables
    dsimp only []
    unfold ghostPass
    rw [List.filter_map, List.length_map]
    refine Eq.trans (congrArg List.length (List.filter_congr ?_))
      (filter_key_length_one _ c hkeyed.2 (by rw [hlook]; rfl))
    intro p hp
    dsimp only [Function.comp]
    rw [hkeyed.1 p hp]
  · intro n hn hcode
    unfold buildDependencyTables at hn
    dsimp only [] at hn
    unfold ghostPass at hn
    rcases List.mem_map.mp hn with ⟨p, hp, hpn⟩
    have hkey : p.1 = c := by
      rw [← hkeyed.1 p hp, hpn]
      exact hcode
    have hval := assocLookup_of_mem_nodup hkeyed.2 hp
    rw [hkey, hlook] at hval
    have hpv := Option.some_injective _ hval
    rw [← hpn, ← hpv]
    rfl

/-- Rule fixture whose requirement references the absent activity-shaped
code `M1O1A2` (via id `id3`) as an activation source. -/
def c4Rule : NodeRule :=
  { code := Option.some "M1O1"
    id := Option.some "id1"
    type := Option.some "objective"
    rules := PyVal.dict [("requirements",
      PyVal.list [PyVal.dict [("id1", PyVal.dict [("id3", PyVal.none)])]])] }

/-- Fixture inputs for the activity-shaped missing reference. -/
def c4Inp : BuildInputs :=
  { mapIdCode := [("M1O1", Option.some "id1"), ("M1O1A2", Option.some "id3")]
    nodeRules := [c4Rule]
    catalogObjectives := Option.some
      [{ code := Option.some "M1O1"
         id := Option.some "id1"
         title_short := Option.some "Objective 1"
         title_long := Option.none
         activities := [] }]
    codeToIdGlobal := []
    idToLabel := [] }

/-- The edge collected from `c4Rule`, its source being the missing activity
code `M1O1A2`. -/
def c4Edge : DepEdge :=
  { module_code := "M1"
    edge_id := "M1:activation:M1O1A2->M1O1:1"
    edge_type := "activation"
    from_node_code := "M1O1A2"
    to_node_code := "M1O1"
    threshold_type := "unknown"
    threshold_value := Option.none
    rule_text := "requirements"
    source_primary := "rules"
    source_enrichment := "rules"
    enrich_lvl := Option.none
    enrich_sr := Option.none }

/-- Concrete instantiation of `ghost_synthesis_spec` on `c4Inp`. -/
theorem ghost_synthesis_spec_witness :
    ((buildDependencyTables "M1" c4Inp).nodes.filter
        (fun n => n.node_code = "M1O1A2")).length = 1 ∧
      (∀ n ∈ (buildDependencyTables "M1" c4Inp).nodes,
          n.node_code = "M1O1A2" → n.is_ghost = true) ∧
      c4Edge ∈ (buildDependencyTables "M1" c4Inp).edges :=
  ghost_synthesis_spec "M1" c4Inp c4Edge "M1O1A2" (by decide) (Or.inl rfl)
    (by decide) (by decide)

end Visu2
